import Mathlib

/-!
# Map-character simulation core (`src/game_character.cpp`)

A shallow embedding of `Game_Character`: the per-tick update, the movement
primitive, passability and landability queries, the jump command and the
move-route interpreter, followed by theorems about them.

Conventions of the embedding

* C++ `int` is `Int` (no wrap-around is modelled; the counters involved stay far
  from the 32-bit limits on the inputs considered).
* `a / b` on `int` is `Int.tdiv` guarded against a zero divisor (`cdiv`), `a % b`
  is `Int.tmod`.
* `pow(2.0, e)` and the `double` arithmetic around it are exact rationals;
  storing a `double` into an `int` truncates toward zero (`truncQ`).
* The accessors that `Game_Character` declares pure virtual (`GetX`, `SetX`,
  `GetMoveSpeed`, ...) are plain fields of the record.
* What a character reads from its collaborators (`Game_Map`, the hero, the
  message window, `rand()`, `CheckEventTriggerTouch`) is a field of `Game_Map`
  below; what it writes to them (pending-move registry, switches, refresh
  request, sound effects) is a field of the record.
-/

namespace Player

/-! ## Constants -/

/-- Subpixel width of a tile. -/
abbrev SCREEN_TILE_WIDTH : Int := 256
/-- Pixel width of a tile. -/
abbrev TILE_SIZE : Int := 16

abbrev Up : Int := 0
abbrev Right : Int := 1
abbrev Down : Int := 2
abbrev Left : Int := 3
abbrev UpRight : Int := 4
abbrev DownRight : Int := 5
abbrev DownLeft : Int := 6
abbrev UpLeft : Int := 7

/-- Modelled from the spec: the enumerators of `RPG::EventPage` (declared outside
`src/`), numbered in the order the data model lists them. -/
abbrev Frame_left : Int := 0
abbrev Frame_middle : Int := 1
abbrev Frame_right : Int := 2

abbrev AnimType_non_continuous : Int := 0
abbrev AnimType_continuous : Int := 1
abbrev AnimType_fixed_non_continuous : Int := 2
abbrev AnimType_fixed_continuous : Int := 3
abbrev AnimType_fixed_graphic : Int := 4
abbrev AnimType_spin : Int := 5

abbrev MoveType_stationary : Int := 0
abbrev MoveType_random : Int := 1
abbrev MoveType_vertical : Int := 2
abbrev MoveType_horizontal : Int := 3
abbrev MoveType_toward : Int := 4
abbrev MoveType_away : Int := 5
abbrev MoveType_custom : Int := 6

abbrev Layers_below : Int := 0
abbrev Layers_same : Int := 1
abbrev Layers_above : Int := 2

namespace Code

/-- Modelled from the spec: the move-command ids of `RPG::MoveCommand::Code`
(declared outside `src/`), numbered in the order of the command code set; the
eight directional moves coincide with the direction constants. -/
abbrev move_up : Int := 0
abbrev move_right : Int := 1
abbrev move_down : Int := 2
abbrev move_left : Int := 3
abbrev move_upright : Int := 4
abbrev move_downright : Int := 5
abbrev move_downleft : Int := 6
abbrev move_upleft : Int := 7
abbrev move_random : Int := 8
abbrev move_towards_hero : Int := 9
abbrev move_away_from_hero : Int := 10
abbrev move_forward : Int := 11
abbrev face_up : Int := 12
abbrev face_right : Int := 13
abbrev face_down : Int := 14
abbrev face_left : Int := 15
abbrev turn_90_degree_right : Int := 16
abbrev turn_90_degree_left : Int := 17
abbrev turn_180_degree : Int := 18
abbrev turn_90_degree_random : Int := 19
abbrev face_random_direction : Int := 20
abbrev face_hero : Int := 21
abbrev face_away_from_hero : Int := 22
abbrev wait : Int := 23
abbrev begin_jump : Int := 24
abbrev end_jump : Int := 25
abbrev lock_facing : Int := 26
abbrev unlock_facing : Int := 27
abbrev increase_movement_speed : Int := 28
abbrev decrease_movement_speed : Int := 29
abbrev increase_movement_frequence : Int := 30
abbrev decrease_movement_frequence : Int := 31
abbrev switch_on : Int := 32
abbrev switch_off : Int := 33
abbrev change_graphic : Int := 34
abbrev play_sound_effect : Int := 35
abbrev walk_everywhere_on : Int := 36
abbrev walk_everywhere_off : Int := 37
abbrev stop_animation : Int := 38
abbrev start_animation : Int := 39
abbrev increase_transp : Int := 40
abbrev decrease_transp : Int := 41

end Code

/-! ## Arithmetic of the source language -/

/-- Conversion of a `double` to `int`: truncation toward zero. -/
def truncQ (q : ℚ) : Int := Int.tdiv q.num q.den

/-- The value of `pow(2.0, e)`. -/
def pow2 (e : Int) : ℚ := (2 : ℚ) ^ e

/-- Integer division of C++; `none` is a division by zero. -/
def cdiv (a b : Int) : Option Int := if b = 0 then none else some (Int.tdiv a b)

/-- The value of a C++ `bool` used as an `int`. -/
def b2i (p : Prop) [Decidable p] : Int := if p then 1 else 0

/-- The value of `std::abs`. -/
def cabs (a : Int) : Int := if a < 0 then -a else a

/-! ## Data model -/

/-- One command of a move route (`RPG::MoveCommand`). -/
structure MoveCommand where
  command_id : Int
  parameter_a : Int
  parameter_b : Int
  parameter_string : String
  deriving DecidableEq, Repr

/-- A move route (`RPG::MoveRoute`); `repeat_` is the flag `repeat`. -/
structure MoveRoute where
  move_commands : List MoveCommand
  repeat_ : Bool
  skippable : Bool
  deriving DecidableEq, Repr

/-- The state of one character together with the parts of the global state its
methods write: `pending_moves` is the pending-move registry of the map, holding
character ids, `self_id` the identity of this character (`this`), `is_player`
whether `this` is `Main_Data::game_player`, `switches_written` the writes to
`Game_Switches` (latest first), `need_refresh` the map's refresh request,
`se_played` the sound effects sent to the audio interface (latest first) and
`rand_calls` the number of `rand()` calls made so far. -/
structure Game_Character where
  x : Int
  y : Int
  direction : Int
  sprite_direction : Int
  facing_locked : Bool
  layer : Int
  sprite_name : String
  sprite_index : Int
  move_speed : Int
  move_frequency : Int
  move_route : MoveRoute
  move_route_index : Int
  move_route_overwritten : Bool
  move_route_repeated : Bool
  original_move_route : MoveRoute
  original_move_route_index : Int
  tile_id : Int
  pattern : Int
  original_pattern : Int
  last_pattern : Int
  through : Bool
  animation_id : Int
  animation_type : Int
  original_move_frequency : Int
  move_type : Int
  move_failed : Bool
  remaining_step : Int
  move_count : Int
  wait_count : Int
  jumping : Bool
  jump_x : Int
  jump_y : Int
  jump_plus_x : Int
  jump_plus_y : Int
  anime_count : Int
  stop_count : Int
  max_stop_count : Int
  walk_animation : Bool
  cycle_stat : Bool
  opacity : Int
  visible : Bool
  self_id : Nat
  is_player : Bool
  pending_moves : List Nat
  switches_written : List (Int × Bool)
  need_refresh : Bool
  se_played : List (String × Int × Int)
  rand_calls : Nat

/-- What a character reads from its collaborators during one operation: the map
(`Game_Map`), the hero when the character is not the hero itself, the message
window, the map interpreter, the touch-trigger hook and the values `rand()`
returns, indexed by call number. The map queries receive the calling character
as `Game_Map::IsPassable(x, y, d, this)` does. -/
structure Game_Map where
  width : Int
  height : Int
  loop_horizontal : Bool
  loop_vertical : Bool
  RoundX : Int → Int
  RoundY : Int → Int
  IsValid : Int → Int → Bool
  IsPassable : Int → Int → Int → Game_Character → Bool
  IsLandable : Int → Int → Game_Character → Bool
  interpreter_running : Bool
  message_waiting : Bool
  continue_events : Bool
  player_x : Int
  player_y : Int
  player_through : Bool
  CheckEventTriggerTouch : Game_Character → Int → Int → Bool
  rand : Nat → Nat

/-- The constructor `Game_Character::Game_Character()` for the fields it
initialises; the fields kept by subclasses take the values given. -/
def Game_Character.new (self_id : Nat) (is_player : Bool) (x y : Int)
    (move_speed move_frequency : Int) (route : MoveRoute) : Game_Character :=
  { x := x, y := y, direction := Down, sprite_direction := Down, facing_locked := false,
    layer := Layers_same, sprite_name := "", sprite_index := 0,
    move_speed := move_speed, move_frequency := move_frequency,
    move_route := ⟨[], false, false⟩, move_route_index := 0,
    move_route_overwritten := false, move_route_repeated := false,
    original_move_route := route, original_move_route_index := 0,
    tile_id := 0, pattern := Frame_middle, original_pattern := Frame_middle,
    last_pattern := 0, through := false, animation_id := 0,
    animation_type := AnimType_non_continuous, original_move_frequency := -1,
    move_type := MoveType_stationary, move_failed := false, remaining_step := 0,
    move_count := 0, wait_count := 0, jumping := false, jump_x := 0, jump_y := 0,
    jump_plus_x := 0, jump_plus_y := 0, anime_count := 0, stop_count := 0,
    max_stop_count := 0, walk_animation := true, cycle_stat := false, opacity := 255,
    visible := true, self_id := self_id, is_player := is_player, pending_moves := [],
    switches_written := [], need_refresh := false, se_played := [], rand_calls := 0 }

/-! ## Collaborators -/

/-- The value of `Main_Data::game_player->GetX()`. -/
def player_GetX (env : Game_Map) (c : Game_Character) : Int :=
  if c.is_player then c.x else env.player_x

/-- The value of `Main_Data::game_player->GetY()`. -/
def player_GetY (env : Game_Map) (c : Game_Character) : Int :=
  if c.is_player then c.y else env.player_y

/-- The value of `Main_Data::game_player->GetThrough()`. -/
def player_GetThrough (env : Game_Map) (c : Game_Character) : Bool :=
  if c.is_player then c.through else env.player_through

/-- The value of `Main_Data::game_player->IsInPosition(x, y)`. -/
def player_IsInPosition (env : Game_Map) (c : Game_Character) (x y : Int) : Bool :=
  decide (player_GetX env c = x ∧ player_GetY env c = y)

/-- Modelled from the spec: `Game_Map::RemovePendingMove` (defined outside `src/`),
which takes the character out of the pending-move registry, a set. -/
def RemovePendingMove (c : Game_Character) : Game_Character :=
  { c with pending_moves := c.pending_moves.filter (fun i => i != c.self_id) }

/-- Modelled from the spec: `Game_Map::AddPendingMove` (defined outside `src/`),
which puts the character into the pending-move registry, a set. -/
def AddPendingMove (c : Game_Character) : Game_Character :=
  { c with pending_moves := c.self_id :: c.pending_moves }

/-- The value the next `rand()` call returns. -/
def rand_value (env : Game_Map) (c : Game_Character) : Int :=
  ((env.rand c.rand_calls : Nat) : Int)

/-- The state after one `rand()` call. -/
def rand_advance (c : Game_Character) : Game_Character :=
  { c with rand_calls := c.rand_calls + 1 }

/-! ## Queries -/

def IsJumping (c : Game_Character) : Bool := c.jumping

def IsMoving (c : Game_Character) : Bool := !IsJumping c && decide (c.remaining_step > 0)

def IsStopping (c : Game_Character) : Bool := !(IsMoving c || IsJumping c)

def IsDirectionFixed (c : Game_Character) : Bool :=
  decide (c.animation_type = AnimType_fixed_continuous) ||
  decide (c.animation_type = AnimType_fixed_graphic) ||
  decide (c.animation_type = AnimType_fixed_non_continuous) ||
  c.facing_locked

def IsContinuous (c : Game_Character) : Bool :=
  decide (c.animation_type = AnimType_continuous) ||
  decide (c.animation_type = AnimType_fixed_continuous)

def IsSpinning (c : Game_Character) : Bool :=
  decide (c.animation_type = AnimType_spin)

def IsMessageBlocking (env : Game_Map) : Bool :=
  env.message_waiting && !env.continue_events

/-- The stepping speed; `none` when the formula divides by zero. -/
def GetSteppingSpeed (c : Game_Character) : Option Int :=
  let move_speed := c.move_speed
  if IsSpinning c then
    if move_speed < 4 then cdiv 48 (move_speed + 1) else cdiv 24 (move_speed - 1)
  else if IsMoving c then
    if move_speed < 4 then cdiv 60 (move_speed + 4) else cdiv 30 (move_speed + 1)
  else
    if move_speed < 2 then some 16 else cdiv 60 (move_speed + 3)

/-- The part of `IsPassable` below the diagonal case (`d <= 3`). -/
def IsPassable_cardinal (env : Game_Map) (c : Game_Character) (x y d : Int) : Bool :=
  let new_x := env.RoundX (x + (if d = Right then 1 else if d = Left then -1 else 0))
  let new_y := env.RoundY (y + (if d = Down then 1 else if d = Up then -1 else 0))
  if !env.IsValid new_x new_y then false
  else if c.through then true
  else if !env.IsPassable x y d c then false
  else if !env.IsPassable new_x new_y (Int.tmod (d + 2) 4) c then false
  else if player_IsInPosition env c new_x new_y && !player_GetThrough env c
      && !c.sprite_name.isEmpty && decide (c.layer = Layers_same) then false
  else true

/-- The query `IsPassable`; the recursive calls of the diagonal case always have a
direction in `1..3` and `0..2`, so they go to the part for `d <= 3`. -/
def IsPassable (env : Game_Map) (c : Game_Character) (x y d : Int) : Bool :=
  if d > 3 then
    let dx := b2i (d = UpRight ∨ d = DownRight) - b2i (d = DownLeft ∨ d = UpLeft)
    let dy := b2i (d = DownRight ∨ d = DownLeft) - b2i (d = UpRight ∨ d = UpLeft)
    (IsPassable_cardinal env c x y (-dx + 2) && IsPassable_cardinal env c (x + dx) y (dy + 1)) ||
    (IsPassable_cardinal env c x y (dy + 1) && IsPassable_cardinal env c x (y + dy) (-dx + 2))
  else IsPassable_cardinal env c x y d

def IsLandable (env : Game_Map) (c : Game_Character) (x y : Int) : Bool :=
  if !env.IsValid x y then false
  else if c.through then true
  else if !env.IsLandable x y c then false
  else if player_IsInPosition env c x y && (!player_GetThrough env c
      && !c.sprite_name.isEmpty && !c.is_player) then false
  else true

def SetOpacity (c : Game_Character) (opacity : Int) : Game_Character :=
  { c with opacity := min (max 0 opacity) 255 }

def GetRealX (c : Game_Character) : Int :=
  let x := c.x * SCREEN_TILE_WIDTH
  if IsMoving c then
    let d := c.direction
    if d = Right ∨ d = UpRight ∨ d = DownRight then x - c.remaining_step
    else if d = Left ∨ d = UpLeft ∨ d = DownLeft then x + c.remaining_step
    else x
  else if IsJumping c then x - (c.x - c.jump_x) * c.remaining_step
  else x

def GetRealY (c : Game_Character) : Int :=
  let y := c.y * SCREEN_TILE_WIDTH
  if IsMoving c then
    let d := c.direction
    if d = Down ∨ d = DownRight ∨ d = DownLeft then y - c.remaining_step
    else if d = Up ∨ d = UpRight ∨ d = UpLeft then y + c.remaining_step
    else y
  else if IsJumping c then y - (c.y - c.jump_y) * c.remaining_step
  else y

def DistanceXfromPlayer (env : Game_Map) (c : Game_Character) : Int :=
  let sx := c.x - player_GetX env c
  if env.loop_horizontal ∧ cabs sx > Int.tdiv env.width 2 then sx - env.width else sx

def DistanceYfromPlayer (env : Game_Map) (c : Game_Character) : Int :=
  let sy := c.y - player_GetY env c
  if env.loop_vertical ∧ cabs sy > Int.tdiv env.height 2 then sy - env.height else sy

/-! ## Movement primitives -/

/-- The value of `(GetMoveFrequency() > 7) ? 0 : pow(2.0, k - GetMoveFrequency())`
stored into `max_stop_count`. -/
def stop_count_limit (k : Int) (move_frequency : Int) : Int :=
  if move_frequency > 7 then 0 else truncQ (pow2 (k - move_frequency))

/-- The hook `BeginMove` of the base class. -/
def BeginMove (c : Game_Character) : Game_Character := c

/-- The value of `dx` in `Move`. -/
def step_x (dir : Int) : Int :=
  b2i (dir = Right ∨ dir = UpRight ∨ dir = DownRight)
    - b2i (dir = Left ∨ dir = DownLeft ∨ dir = UpLeft)

/-- The value of `dy` in `Move`. -/
def step_y (dir : Int) : Int :=
  b2i (dir = Down ∨ dir = DownRight ∨ dir = DownLeft)
    - b2i (dir = Up ∨ dir = UpRight ∨ dir = UpLeft)

/-- The sprite direction after the first part of `Move`: unless the direction is
fixed, `SetSpriteDirection` is called with the value computed here. -/
def Move_sprite_direction (c : Game_Character) (dir : Int) : Int :=
  let dx := step_x dir
  let dy := step_y dir
  if !IsDirectionFixed c then
    if dir > 3 then (if Int.tmod c.sprite_direction 2 ≠ 0 then -dx + 2 else dy + 1)
    else dir
  else c.sprite_direction

/-- The first part of `Move`: `SetDirection(dir)` and the new sprite direction. -/
def Move_facing (c : Game_Character) (dir : Int) : Game_Character :=
  { c with direction := dir, sprite_direction := Move_sprite_direction c dir }

/-- The result of the `CheckEventTriggerTouch` call of a blocked `Move`. -/
def Move_touch (env : Game_Map) (c : Game_Character) (dir : Int) : Bool :=
  let c3 := { Move_facing c dir with move_failed := true }
  env.CheckEventTriggerTouch c3 (env.RoundX (c3.x + step_x dir)) (env.RoundY (c3.y + step_y dir))

def Move (env : Game_Map) (c : Game_Character) (dir : Int) : Game_Character :=
  let dx := step_x dir
  let dy := step_y dir
  let c2 := Move_facing c dir
  if c2.jumping then
    { c2 with jump_plus_x := c2.jump_plus_x + dx, jump_plus_y := c2.jump_plus_y + dy }
  else
    let c3 := { c2 with move_failed := !IsPassable env c2 c2.x c2.y dir }
    if c3.move_failed then
      if !env.CheckEventTriggerTouch c3 (env.RoundX (c3.x + dx)) (env.RoundY (c3.y + dy)) then c3
      else { c3 with stop_count := 0, max_stop_count := stop_count_limit 9 c3.move_frequency }
    else
      let c4 := BeginMove { c3 with x := env.RoundX (c3.x + dx), y := env.RoundY (c3.y + dy),
                                    remaining_step := SCREEN_TILE_WIDTH }
      { c4 with stop_count := 0, max_stop_count := stop_count_limit 9 c4.move_frequency }

def MoveForward (env : Game_Map) (c : Game_Character) : Game_Character :=
  Move env c c.direction

def MoveRandom (env : Game_Map) (c : Game_Character) : Game_Character :=
  Move env (rand_advance c) (Int.tmod (rand_value env c) 4)

def MoveTowardsPlayer (env : Game_Map) (c : Game_Character) : Game_Character :=
  let sx := DistanceXfromPlayer env c
  let sy := DistanceYfromPlayer env c
  if sx ≠ 0 ∨ sy ≠ 0 then
    if cabs sx > cabs sy then
      let c1 := Move env c (if sx > 0 then Left else Right)
      if c1.move_failed ∧ sy ≠ 0 then Move env c1 (if sy > 0 then Up else Down) else c1
    else
      let c1 := Move env c (if sy > 0 then Up else Down)
      if c1.move_failed ∧ sx ≠ 0 then Move env c1 (if sx > 0 then Left else Right) else c1
  else c

def MoveAwayFromPlayer (env : Game_Map) (c : Game_Character) : Game_Character :=
  let sx := DistanceXfromPlayer env c
  let sy := DistanceYfromPlayer env c
  if sx ≠ 0 ∨ sy ≠ 0 then
    if cabs sx > cabs sy then
      let c1 := Move env c (if sx > 0 then Right else Left)
      if c1.move_failed ∧ sy ≠ 0 then Move env c1 (if sy > 0 then Down else Up) else c1
    else
      let c1 := Move env c (if sy > 0 then Down else Up)
      if c1.move_failed ∧ sx ≠ 0 then Move env c1 (if sx > 0 then Right else Left) else c1
  else c

def Turn (c : Game_Character) (dir : Int) : Game_Character :=
  { c with direction := dir, sprite_direction := dir, move_failed := false,
           stop_count := 0, max_stop_count := stop_count_limit 8 c.move_frequency }

def Turn90DegreeLeft (c : Game_Character) : Game_Character :=
  Turn c (Int.tmod (c.sprite_direction + 3) 4)

def Turn90DegreeRight (c : Game_Character) : Game_Character :=
  Turn c (Int.tmod (c.sprite_direction + 1) 4)

def Turn180Degree (c : Game_Character) : Game_Character :=
  Turn c (Int.tmod (c.sprite_direction + 2) 4)

def Turn90DegreeLeftOrRight (env : Game_Map) (c : Game_Character) : Game_Character :=
  let value := Int.tmod (rand_value env c) 2
  if value = 0 then Turn90DegreeLeft (rand_advance c) else Turn90DegreeRight (rand_advance c)

def TurnTowardHero (env : Game_Map) (c : Game_Character) : Game_Character :=
  let sx := DistanceXfromPlayer env c
  let sy := DistanceYfromPlayer env c
  if cabs sx > cabs sy then Turn c (if sx > 0 then Left else Right)
  else if cabs sx < cabs sy then Turn c (if sy > 0 then Up else Down)
  else c

def TurnAwayFromHero (env : Game_Map) (c : Game_Character) : Game_Character :=
  let sx := DistanceXfromPlayer env c
  let sy := DistanceYfromPlayer env c
  if cabs sx > cabs sy then Turn c (if sx > 0 then Right else Left)
  else if cabs sx < cabs sy then Turn c (if sy > 0 then Down else Up)
  else c

def FaceRandomDirection (env : Game_Map) (c : Game_Character) : Game_Character :=
  Turn (rand_advance c) (Int.tmod (rand_value env c) 4)

def Wait (c : Game_Character) : Game_Character :=
  { c with wait_count := c.wait_count + 20 }

def SetGraphic (c : Game_Character) (name : String) (index : Int) : Game_Character :=
  { c with sprite_name := name, sprite_index := index, pattern := Frame_middle }

def CancelMoveRoute (c : Game_Character) : Game_Character :=
  { c with move_route_overwritten := false, move_frequency := c.original_move_frequency }

def ForceMoveRoute (c : Game_Character) (new_route : MoveRoute) (frequency : Int) :
    Game_Character :=
  let c1 := AddPendingMove (RemovePendingMove c)
  { c1 with original_move_frequency := c1.move_frequency,
            move_route := new_route, move_route_index := 0,
            move_route_overwritten := true, move_route_repeated := false,
            move_frequency := frequency, wait_count := 0, max_stop_count := 0 }

/-! ## The jump command -/

/-- The `switch` in the scan loop of `BeginJump`: movement commands are applied
(while `jumping` they only accumulate a displacement), all others are skipped. -/
def BeginJump_step (env : Game_Map) (c : Game_Character) (move_command : MoveCommand) :
    Game_Character :=
  let id := move_command.command_id
  if id = Code.move_up ∨ id = Code.move_right ∨ id = Code.move_down ∨ id = Code.move_left
      ∨ id = Code.move_upright ∨ id = Code.move_downright ∨ id = Code.move_downleft
      ∨ id = Code.move_upleft then Move env c id
  else if id = Code.move_random then MoveRandom env c
  else if id = Code.move_towards_hero then MoveTowardsPlayer env c
  else if id = Code.move_away_from_hero then MoveAwayFromPlayer env c
  else if id = Code.move_forward then MoveForward env c
  else c

/-- The scan loop of `BeginJump` over the commands from the current index on: the
result is `end_found`, the final `i` and the state. The first argument is the
list of the commands at the indices `i`, `i + 1`, ... up to the end of the route. -/
def BeginJump_scan (env : Game_Map) :
    List MoveCommand → Int → Game_Character → Bool × Int × Game_Character
  | [], i, c => (false, i, c)
  | move_command :: rest, i, c =>
    let c1 := BeginJump_step env c move_command
    if move_command.command_id = Code.end_jump then (true, i, c1)
    else BeginJump_scan env rest (i + 1) c1

/-- The commands `move_commands[i]` for `i` from `current_index` to the end; a
negative index, huge as an `unsigned int`, leaves none. -/
def commands_from (current_route : MoveRoute) (current_index : Int) : List MoveCommand :=
  if current_index < 0 then [] else current_route.move_commands.drop current_index.toNat

/-- The first five assignments of `BeginJump`. -/
def jump_start (c : Game_Character) : Game_Character :=
  { c with jump_x := c.x, jump_y := c.y, jump_plus_x := 0, jump_plus_y := 0, jumping := true }

/-- The wrap of `BeginJump` on one axis: the new jump origin and target coordinate
(`jump_x` and `new_x`, or `jump_y` and `new_y`). -/
def jump_wrap (loops : Bool) (map_size jump_origin new_pos : Int) : Int × Int :=
  if loops then
    if new_pos < 0 then (jump_origin + map_size, new_pos + map_size)
    else if new_pos ≥ map_size then (jump_origin - map_size, new_pos - map_size)
    else (jump_origin, new_pos)
  else (jump_origin, new_pos)

/-- The scan loop of `BeginJump` run from `current_index`: `end_found`, the final
`i` and the state. -/
def BeginJump_scanned (env : Game_Map) (current_route : MoveRoute) (current_index : Int)
    (c : Game_Character) : Bool × Int × Game_Character :=
  BeginJump_scan env (commands_from current_route current_index) current_index (jump_start c)

/-- The state of `BeginJump` when `IsLandable` is asked, after the wrap on both
axes, for the state `c1` the scan loop left. -/
def jump_landing (env : Game_Map) (c1 : Game_Character) : Game_Character :=
  { c1 with
    jump_x := (jump_wrap env.loop_horizontal env.width c1.jump_x (c1.jump_x + c1.jump_plus_x)).1,
    jump_y := (jump_wrap env.loop_vertical env.height c1.jump_y (c1.jump_y + c1.jump_plus_y)).1 }

/-- The value of `new_x` in `BeginJump` after the wrap. -/
def jump_target_x (env : Game_Map) (c1 : Game_Character) : Int :=
  (jump_wrap env.loop_horizontal env.width c1.jump_x (c1.jump_x + c1.jump_plus_x)).2

/-- The value of `new_y` in `BeginJump` after the wrap. -/
def jump_target_y (env : Game_Map) (c1 : Game_Character) : Int :=
  (jump_wrap env.loop_vertical env.height c1.jump_y (c1.jump_y + c1.jump_plus_y)).2

/-- The command `begin_jump`; the result is the new `*current_index` and the state. -/
def BeginJump (env : Game_Map) (current_route : MoveRoute) (current_index : Int)
    (c : Game_Character) : Int × Game_Character :=
  let scan := BeginJump_scanned env current_route current_index c
  let end_found := scan.1
  let i := scan.2.1
  let c1 := scan.2.2
  if !end_found then (i, { c1 with jumping := false })
  else
    let new_x := jump_target_x env c1
    let new_y := jump_target_y env c1
    let c2 := jump_landing env c1
    if ¬ (c2.jump_plus_x = 0 ∧ c2.jump_plus_y = 0) ∧ IsLandable env c2 new_x new_y = false then
      let c3 := { c2 with move_failed := true, jumping := false }
      if current_route.skippable then (i, c3) else (current_index, c3)
    else
      let c3 := { c2 with x := new_x, y := new_y, remaining_step := SCREEN_TILE_WIDTH,
                          stop_count := 0 }
      (i, { c3 with max_stop_count := stop_count_limit 9 c3.move_frequency,
                    move_failed := false })

/-! ## The move-route interpreter -/

/-- The cases of the `switch` of `MoveTypeCustom` from `switch_on` on. -/
def MoveTypeCustom_effects (move_command : MoveCommand) (c : Game_Character) :
    Game_Character :=
  let id := move_command.command_id
  if id = Code.switch_on then
    { c with switches_written := (move_command.parameter_a, true) :: c.switches_written,
             need_refresh := true }
  else if id = Code.switch_off then
    { c with switches_written := (move_command.parameter_a, false) :: c.switches_written,
             need_refresh := true }
  else if id = Code.change_graphic then
    SetGraphic c move_command.parameter_string move_command.parameter_a
  else if id = Code.play_sound_effect then
    if move_command.parameter_string ≠ "(OFF)" ∧ move_command.parameter_string ≠ "(Brak)" then
      { c with se_played :=
          (move_command.parameter_string, move_command.parameter_a, move_command.parameter_b)
            :: c.se_played }
    else c
  else if id = Code.walk_everywhere_on then { c with through := true }
  else if id = Code.walk_everywhere_off then { c with through := false }
  else if id = Code.stop_animation then { c with walk_animation := false }
  else if id = Code.start_animation then { c with walk_animation := true }
  else if id = Code.increase_transp then SetOpacity c (max 40 (c.opacity - 45))
  else if id = Code.decrease_transp then SetOpacity c (c.opacity + 45)
  else c

/-- The cases of the `switch` of `MoveTypeCustom` from `wait` to
`decrease_movement_frequence`, `begin_jump` apart, then the later cases. -/
def MoveTypeCustom_tuning (move_command : MoveCommand) (c : Game_Character) :
    Game_Character :=
  let id := move_command.command_id
  if id = Code.wait then Wait c
  else if id = Code.end_jump then c
  else if id = Code.lock_facing then { c with facing_locked := true }
  else if id = Code.unlock_facing then { c with facing_locked := false }
  else if id = Code.increase_movement_speed then { c with move_speed := min (c.move_speed + 1) 6 }
  else if id = Code.decrease_movement_speed then { c with move_speed := max (c.move_speed - 1) 1 }
  else if id = Code.increase_movement_frequence then
    { c with move_frequency := min (c.move_frequency + 1) 8 }
  else if id = Code.decrease_movement_frequence then
    { c with move_frequency := max (c.move_frequency - 1) 1 }
  else MoveTypeCustom_effects move_command c

/-- The cases of the `switch` of `MoveTypeCustom` from `face_up` to
`face_away_from_hero`, then the later cases. -/
def MoveTypeCustom_facing (env : Game_Map) (move_command : MoveCommand)
    (c : Game_Character) : Game_Character :=
  let id := move_command.command_id
  if id = Code.face_up then Turn c Up
  else if id = Code.face_right then Turn c Right
  else if id = Code.face_down then Turn c Down
  else if id = Code.face_left then Turn c Left
  else if id = Code.turn_90_degree_right then Turn90DegreeRight c
  else if id = Code.turn_90_degree_left then Turn90DegreeLeft c
  else if id = Code.turn_180_degree then Turn180Degree c
  else if id = Code.turn_90_degree_random then Turn90DegreeLeftOrRight env c
  else if id = Code.face_random_direction then FaceRandomDirection env c
  else if id = Code.face_hero then TurnTowardHero env c
  else if id = Code.face_away_from_hero then TurnAwayFromHero env c
  else MoveTypeCustom_tuning move_command c

/-- The `switch` of `MoveTypeCustom` for every command but `begin_jump`: the
movement commands, then the later cases. -/
def MoveTypeCustom_simple (env : Game_Map) (move_command : MoveCommand)
    (c : Game_Character) : Game_Character :=
  let id := move_command.command_id
  if id = Code.move_up ∨ id = Code.move_right ∨ id = Code.move_down ∨ id = Code.move_left
      ∨ id = Code.move_upright ∨ id = Code.move_downright ∨ id = Code.move_downleft
      ∨ id = Code.move_upleft then Move env c id
  else if id = Code.move_random then MoveRandom env c
  else if id = Code.move_towards_hero then MoveTowardsPlayer env c
  else if id = Code.move_away_from_hero then MoveAwayFromPlayer env c
  else if id = Code.move_forward then MoveForward env c
  else MoveTypeCustom_facing env move_command c

/-- The `switch` of `MoveTypeCustom`: the new `active_route_index` and the state. -/
def MoveTypeCustom_command (env : Game_Map) (active_route : MoveRoute)
    (move_command : MoveCommand) (active_route_index : Int) (c : Game_Character) :
    Int × Game_Character :=
  if move_command.command_id = Code.begin_jump then
    BeginJump env active_route active_route_index c
  else (active_route_index, MoveTypeCustom_simple env move_command c)

/-- The test `(size_t)active_route_index < move_commands.size()`: a negative
index is huge as a `size_t`. -/
def index_in_route (active_route : MoveRoute) (active_route_index : Int) : Bool :=
  decide (0 ≤ active_route_index ∧ active_route_index < active_route.move_commands.length)

/-- The `for` loop of `MoveTypeCustom`, from `active_route_index` on; the first
argument bounds the number of iterations, and the length of the route is enough
since the index grows on every iteration. -/
def MoveTypeCustom_loop (env : Game_Map) (active_route : MoveRoute) :
    Nat → Int → Game_Character → Int × Game_Character
  | 0, active_route_index, c => (active_route_index, c)
  | fuel + 1, active_route_index, c =>
    if !index_in_route active_route active_route_index then (active_route_index, c)
    else if !IsStopping c ∨ c.wait_count > 0 ∨ c.stop_count < c.max_stop_count then
      (active_route_index, c)
    else
      match active_route.move_commands[active_route_index.toNat]? with
      | none => (active_route_index, c)
      | some move_command =>
        let r := MoveTypeCustom_command env active_route move_command active_route_index c
        if r.2.move_failed then
          (if active_route.skippable then r.1 + 1 else r.1, r.2)
        else MoveTypeCustom_loop env active_route fuel (r.1 + 1) r.2

/-- The body of `if (IsStopping())` in `MoveTypeCustom`. -/
def MoveTypeCustom_body (env : Game_Map) (active_route : MoveRoute)
    (active_route_index : Int) (c : Game_Character) : Int × Game_Character :=
  let c1 := { c with move_failed := false }
  if !index_in_route active_route active_route_index then
    if active_route.repeat_ then (0, { c1 with move_route_repeated := true })
    else if c1.move_route_overwritten then
      (active_route_index, { RemovePendingMove (CancelMoveRoute c1) with stop_count := 0 })
    else (active_route_index, c1)
  else
    MoveTypeCustom_loop env active_route active_route.move_commands.length active_route_index c1

/-- The route `MoveTypeCustom` runs: the forced route when one is installed and the
original route otherwise. -/
def active_route (c : Game_Character) : MoveRoute :=
  if c.move_route_overwritten then c.move_route else c.original_move_route

/-- The index `MoveTypeCustom` starts from, read from the route it runs. -/
def active_route_index (c : Game_Character) : Int :=
  if c.move_route_overwritten then c.move_route_index else c.original_move_route_index

def MoveTypeCustom (env : Game_Map) (c : Game_Character) : Game_Character :=
  let overwrite_changed := c.move_route_overwritten
  let r := if IsStopping c then
             MoveTypeCustom_body env (active_route c) (active_route_index c) c
           else (active_route_index c, c)
  let c1 := r.2
  if overwrite_changed ≠ c1.move_route_overwritten then
    if c1.move_route_overwritten then { c1 with original_move_route_index := r.1 }
    else { c1 with move_route_index := r.1 }
  else
    if c1.move_route_overwritten then { c1 with move_route_index := r.1 }
    else { c1 with original_move_route_index := r.1 }

/-! ## Self-movement policies -/

def MoveTypeRandom (env : Game_Map) (c : Game_Character) : Game_Character :=
  if IsStopping c then
    let v := Int.tmod (rand_value env c) 6
    let c1 := rand_advance c
    if v = 0 then { c1 with stop_count := 0 }
    else if v = 1 ∨ v = 2 then MoveRandom env c1
    else MoveForward env c1
  else c

def MoveTypeCycleLeftRight (env : Game_Map) (c : Game_Character) : Game_Character :=
  if IsStopping c then
    let c1 := Move env c (if c.cycle_stat then Left else Right)
    if c1.move_failed then
      let c2 := { Wait c1 with stop_count := 0 }
      { c2 with cycle_stat := if c2.move_failed then !c2.cycle_stat else c2.cycle_stat }
    else c1
  else c

def MoveTypeCycleUpDown (env : Game_Map) (c : Game_Character) : Game_Character :=
  if IsStopping c then
    let c1 := Move env c (if c.cycle_stat then Up else Down)
    if c1.move_failed then
      let c2 := { Wait c1 with stop_count := 0 }
      { c2 with cycle_stat := !c2.cycle_stat }
    else c1
  else c

def MoveTypeTowardsPlayer (env : Game_Map) (c : Game_Character) : Game_Character :=
  if IsStopping c then
    let sx := c.x - player_GetX env c
    let sy := c.y - player_GetY env c
    if cabs sx + cabs sy ≥ 20 then MoveRandom env c
    else
      let v := Int.tmod (rand_value env c) 6
      let c1 := rand_advance c
      if v = 0 then MoveRandom env c1
      else if v = 1 then MoveForward env c1
      else MoveTowardsPlayer env c1
  else c

def MoveTypeAwayFromPlayer (env : Game_Map) (c : Game_Character) : Game_Character :=
  if IsStopping c then
    let sx := c.x - player_GetX env c
    let sy := c.y - player_GetY env c
    if cabs sx + cabs sy ≥ 20 then MoveRandom env c
    else
      let v := Int.tmod (rand_value env c) 6
      let c1 := rand_advance c
      if v = 0 then MoveRandom env c1
      else if v = 1 then MoveForward env c1
      else MoveAwayFromPlayer env c1
  else c

def UpdateSelfMovement (env : Game_Map) (c : Game_Character) : Game_Character :=
  if c.move_type = MoveType_random then MoveTypeRandom env c
  else if c.move_type = MoveType_vertical then MoveTypeCycleUpDown env c
  else if c.move_type = MoveType_horizontal then MoveTypeCycleLeftRight env c
  else if c.move_type = MoveType_toward then MoveTypeTowardsPlayer env c
  else if c.move_type = MoveType_away then MoveTypeAwayFromPlayer env c
  else if c.move_type = MoveType_custom then MoveTypeCustom env c
  else c

/-! ## The tick -/

def UpdateMove (c : Game_Character) : Game_Character :=
  let c1 :=
    if c.remaining_step > 0 then
      { c with remaining_step := truncQ ((c.remaining_step : ℚ) - pow2 (1 + c.move_speed)) }
    else c
  { c1 with anime_count := c1.anime_count
      + (if c1.animation_type ≠ AnimType_fixed_graphic ∧ c1.walk_animation then 1 else 0) }

/-- The amount `UpdateJump` subtracts, a `double`; `none` when the integer
division of the second branch divides by zero. -/
def UpdateJump_amount (move_speed : Int) : Option ℚ :=
  if move_speed < 5 then some (48 / (2 + pow2 (3 - move_speed)))
  else (cdiv 64 (7 - move_speed)).map (fun k => (k : ℚ))

def UpdateJump (c : Game_Character) : Option Game_Character :=
  (UpdateJump_amount c.move_speed).map (fun k =>
    let c1 := { c with remaining_step := truncQ ((c.remaining_step : ℚ) - k) }
    if c1.remaining_step ≤ 0 then { c1 with jumping := false } else c1)

def UpdateStop (c : Game_Character) : Game_Character :=
  let c1 := if c.pattern ≠ c.original_pattern ∧ !IsContinuous c then
      { c with anime_count := c.anime_count + 1 } else c
  { c1 with stop_count := c1.stop_count + 1 }

/-- The first statement of `Update`: jump, locomotion and stop advance. -/
def Update_phase (c : Game_Character) : Option Game_Character :=
  if IsJumping c then
    (UpdateJump c).map (fun c1 =>
      { c1 with anime_count := c1.anime_count + (if IsSpinning c1 then 1 else 0) })
  else if IsContinuous c ∨ IsSpinning c then some (UpdateStop (UpdateMove c))
  else if IsMoving c then some (UpdateMove c)
  else some (UpdateStop c)

/-- The body of `if (anime_count >= GetSteppingSpeed())` in `Update`. -/
def Update_pattern (c : Game_Character) : Game_Character :=
  let c1 :=
    if IsSpinning c then { c with sprite_direction := Int.tmod (c.sprite_direction + 1) 4 }
    else if !IsContinuous c ∧ IsStopping c then
      { c with pattern := c.original_pattern,
               last_pattern := if c.last_pattern = Frame_left then Frame_right else Frame_left }
    else if c.last_pattern = Frame_left then
      if c.pattern = Frame_right then
        { c with pattern := Frame_middle, last_pattern := Frame_right }
      else { c with pattern := Frame_right }
    else
      if c.pattern = Frame_left then
        { c with pattern := Frame_middle, last_pattern := Frame_left }
      else { c with pattern := Frame_left }
  { c1 with anime_count := 0 }

/-- The end of `Update`: the wait timer and the idle dispatch. -/
def Update_dispatch (env : Game_Map) (c : Game_Character) : Game_Character :=
  if c.wait_count > 0 then { c with wait_count := c.wait_count - 1 }
  else if c.stop_count ≥ c.max_stop_count then
    if c.move_route_overwritten then MoveTypeCustom env c
    else if !IsMessageBlocking env ∧ !env.interpreter_running then UpdateSelfMovement env c
    else c
  else c

/-- One tick; `none` when a division by zero occurs. -/
def Update (env : Game_Map) (c : Game_Character) : Option Game_Character :=
  (Update_phase c).bind (fun c1 =>
    (GetSteppingSpeed c1).map (fun stepping_speed =>
      let c2 := if c1.anime_count ≥ stepping_speed then Update_pattern c1 else c1
      Update_dispatch env c2))

/-! ## Operations on a character

The calls the rest of the engine makes on a character: the tick, the movement
primitive, the interpreter step, and the installation and cancellation of a
forced route. Each carries the collaborators' state at the time of the call. -/

inductive Op where
  | update (env : Game_Map)
  | move (env : Game_Map) (dir : Int)
  | custom (env : Game_Map)
  | force (new_route : MoveRoute) (frequency : Int)
  | cancel

/-- The effect of one operation; `none` when a tick divides by zero. -/
def Op.apply : Op → Game_Character → Option Game_Character
  | .update env, c => Update env c
  | .move env dir, c => some (Move env c dir)
  | .custom env, c => some (MoveTypeCustom env c)
  | .force new_route frequency, c => some (ForceMoveRoute c new_route frequency)
  | .cancel, c => some (CancelMoveRoute c)

/-- The effect of a sequence of operations, first to last. -/
def run : List Op → Game_Character → Option Game_Character
  | [], c => some c
  | op :: ops, c => (op.apply c).bind (run ops)

/-- Whether the operation is a direct call of `CancelMoveRoute`. -/
def Op.isCancel : Op → Bool
  | .cancel => true
  | _ => false

/-- Whether the operation is a call of `ForceMoveRoute`. -/
def Op.isForce : Op → Bool
  | .force _ _ => true
  | _ => false

/-! ## Reference definitions -/

/-- The unit vector of a direction code as the direction encoding gives it: up is
(0, -1), right (1, 0), down (0, 1), left (-1, 0), and a diagonal is the sum of
its two components. -/
def unit_vector (dir : Int) : Int × Int :=
  if dir = Up then (0, -1)
  else if dir = Right then (1, 0)
  else if dir = Down then (0, 1)
  else if dir = Left then (-1, 0)
  else if dir = UpRight then (1, -1)
  else if dir = DownRight then (1, 1)
  else if dir = DownLeft then (-1, 1)
  else if dir = UpLeft then (-1, -1)
  else (0, 0)

/-- The remaining step after one jump tick with the amount `UpdateJump` subtracts
written out for the move speeds 1 to 6: 8, 12, 16, 96/5 (truncated on storing),
32 and 64. -/
def jump_step (move_speed r : Int) : Int :=
  if move_speed = 1 then r - 8
  else if move_speed = 2 then r - 12
  else if move_speed = 3 then r - 16
  else if move_speed = 4 then (if 20 ≤ r then r - 20 else r - 19)
  else if move_speed = 5 then r - 32
  else r - 64

/-- The sum of the unit vectors of a list of move commands. -/
def displacement (ms : List MoveCommand) : Int × Int :=
  ((ms.map (fun m => (unit_vector m.command_id).1)).sum,
   (ms.map (fun m => (unit_vector m.command_id).2)).sum)

/-- The stepping speeds for the move speeds 1 to 6 while spinning. -/
def spinning_speeds : List Int := [24, 16, 12, 8, 6, 4]

/-- The stepping speeds for the move speeds 1 to 6 while moving and not spinning. -/
def moving_speeds : List Int := [12, 10, 8, 6, 5, 4]

/-- The stepping speeds for the move speeds 1 to 6 otherwise. -/
def standing_speeds : List Int := [16, 12, 10, 8, 7, 6]

/-- The state `c2` differs from `c` at most in the fields a movement command
writes while the character is jumping: the facing, the accumulated jump
displacement and the count of `rand()` calls. -/
def JumpAccum (c c2 : Game_Character) : Prop :=
  ∃ d sd px py n, c2 = { c with direction := d, sprite_direction := sd, jump_plus_x := px,
                                jump_plus_y := py, rand_calls := n }

/-- The state after the movement commands `ms` are applied in order. -/
def moves_applied (env : Game_Map) (ms : List MoveCommand) (c : Game_Character) :
    Game_Character :=
  ms.foldl (fun c m => Move env c m.command_id) c

/-- The state `c2` differs from `c` at most in the fields the commands of the
interpreter other than the movement commands and `begin_jump` write; `move_speed`
is unchanged or moved one step within 1..6. -/
def SimpleWrite (c c2 : Game_Character) : Prop :=
  ∃ (direction sprite_direction : Int) (move_failed : Bool)
    (stop_count max_stop_count : Int) (rand_calls : Nat) (wait_count : Int)
    (facing_locked : Bool) (move_speed move_frequency : Int)
    (switches_written : List (Int × Bool)) (need_refresh : Bool) (sprite_name : String)
    (sprite_index pattern : Int) (se_played : List (String × Int × Int))
    (through walk_animation : Bool) (opacity : Int),
    c2 = { c with direction := direction, sprite_direction := sprite_direction,
                  move_failed := move_failed, stop_count := stop_count,
                  max_stop_count := max_stop_count, rand_calls := rand_calls,
                  wait_count := wait_count, facing_locked := facing_locked,
                  move_speed := move_speed, move_frequency := move_frequency,
                  switches_written := switches_written, need_refresh := need_refresh,
                  sprite_name := sprite_name, sprite_index := sprite_index,
                  pattern := pattern, se_played := se_played, through := through,
                  walk_animation := walk_animation, opacity := opacity }
      ∧ (move_speed = c.move_speed ∨ move_speed = min (c.move_speed + 1) 6
          ∨ move_speed = max (c.move_speed - 1) 1)

/-- The state `c2` differs from `c` at most in the fields `BeginJump` writes, and
either no jump is under way afterwards and the position and `remaining_step` are
unchanged, or a jump is under way with `remaining_step = 256`. -/
def JumpWrite (c c2 : Game_Character) : Prop :=
  ∃ (direction sprite_direction jump_plus_x jump_plus_y : Int) (rand_calls : Nat)
    (jump_x jump_y : Int) (jumping move_failed : Bool)
    (x y remaining_step stop_count max_stop_count : Int),
    c2 = { c with direction := direction, sprite_direction := sprite_direction,
                  jump_plus_x := jump_plus_x, jump_plus_y := jump_plus_y,
                  rand_calls := rand_calls, jump_x := jump_x, jump_y := jump_y,
                  jumping := jumping, move_failed := move_failed, x := x, y := y,
                  remaining_step := remaining_step, stop_count := stop_count,
                  max_stop_count := max_stop_count }
      ∧ ((jumping = false ∧ remaining_step = c.remaining_step ∧ x = c.x ∧ y = c.y)
          ∨ (jumping = true ∧ remaining_step = 256))

/-- The state `c2` differs from `c` at most in the bookkeeping fields that
`MoveTypeCustom`, the self-movement policies and the end of `Update` write
themselves: `move_failed`, `move_route_repeated`, the two route indices,
`stop_count`, `wait_count` and `cycle_stat`. -/
def RouteWrite (c c2 : Game_Character) : Prop :=
  ∃ (move_failed move_route_repeated : Bool) (move_route_index original_move_route_index : Int)
    (stop_count wait_count : Int) (cycle_stat : Bool),
    c2 = { c with move_failed := move_failed, move_route_repeated := move_route_repeated,
                  move_route_index := move_route_index,
                  original_move_route_index := original_move_route_index,
                  stop_count := stop_count, wait_count := wait_count,
                  cycle_stat := cycle_stat }

/-- The state `c2` differs from `c` at most in the fields the first part of
`Update` writes without moving the character: `anime_count`, `stop_count`,
`pattern`, `last_pattern` and `sprite_direction`. -/
def TickWrite (c c2 : Game_Character) : Prop :=
  ∃ (anime_count stop_count pattern last_pattern sprite_direction : Int),
    c2 = { c with anime_count := anime_count, stop_count := stop_count, pattern := pattern,
                  last_pattern := last_pattern, sprite_direction := sprite_direction }

/-- A property of the character that every step of `Update`, `Move` and
`MoveTypeCustom` keeps: `Move`, a `rand()` call, the writes of a command of the
interpreter and of `BeginJump` on a stopping character, the bookkeeping writes,
the end of a forced route, the locomotion and jump advance and the animation
writes of a tick. -/
structure Stable (env : Game_Map) (P : Game_Character → Prop) : Prop where
  move : ∀ c d, P c → P (Move env c d)
  rand : ∀ c, P c → P (rand_advance c)
  write : ∀ c c2, IsStopping c = true → P c → SimpleWrite c c2 → P c2
  jump : ∀ c c2, IsStopping c = true → P c → JumpWrite c c2 → P c2
  route : ∀ c c2, P c → RouteWrite c c2 → P c2
  cancel : ∀ c, P c → c.move_route_overwritten = true →
    P (RemovePendingMove (CancelMoveRoute c))
  walk : ∀ c, P c → c.jumping = false → P (UpdateMove c)
  fly : ∀ c c2, P c → c.jumping = true → UpdateJump c = some c2 → P c2
  tick : ∀ c c2, P c → TickWrite c c2 → P c2

/-- The number of subpixels one `UpdateMove` covers at a move speed. -/
def walk_unit (move_speed : Int) : Int := 2 ^ (1 + move_speed).toNat

/-- The number of subpixels one `UpdateJump` covers at a move speed in 1..6 while
`remaining_step` is at least 20; at speed 4 it is 20, the truncation of 19.2. -/
def jump_unit (move_speed : Int) : Int :=
  if move_speed = 1 then 8
  else if move_speed = 2 then 12
  else if move_speed = 3 then 16
  else if move_speed = 4 then 20
  else if move_speed = 5 then 32
  else 64

/-- The invariant of the step counter: the move speed is in 1..6,
`remaining_step` is in -8..256, a walking character has a whole number of
`UpdateMove` units left, and a jumping character has a positive `remaining_step`
that differs from 256 by a whole number of `UpdateJump` units. -/
def StepInv (c : Game_Character) : Prop :=
  1 ≤ c.move_speed ∧ c.move_speed ≤ 6 ∧ -8 ≤ c.remaining_step ∧ c.remaining_step ≤ 256
    ∧ (c.jumping = false → 0 < c.remaining_step →
        c.remaining_step % walk_unit c.move_speed = 0)
    ∧ (c.jumping = true → 0 < c.remaining_step
        ∧ c.remaining_step % jump_unit c.move_speed = 256 % jump_unit c.move_speed)

/-- The fields behind a forced route that no move command writes: the identity of
the character, the pending-move registry, the overwrite flag and the saved move
frequency. -/
def forced_fields (c : Game_Character) : Nat × List Nat × Bool × Int :=
  (c.self_id, c.pending_moves, c.move_route_overwritten, c.original_move_frequency)

/-- The fields the walk cycle reads and writes. -/
def walk_fields (c : Game_Character) : Int × Int × Int × Int × Bool × Int × Int :=
  (c.pattern, c.last_pattern, c.anime_count, c.animation_type, c.walk_animation,
   c.move_speed, c.original_pattern)

/-- One tick of the walk cycle of a moving character at move speed 4, on
`pattern`, `last_pattern` and `anime_count`: the count grows by one and at 6 the
pattern steps and the count restarts. -/
def walk_tick (w : Int × Int × Int) : Int × Int × Int :=
  let n := w.2.2 + 1
  if n ≥ 6 then
    if w.2.1 = Frame_left then
      (if w.1 = Frame_right then (Frame_middle, Frame_right, 0) else (Frame_right, w.2.1, 0))
    else
      (if w.1 = Frame_left then (Frame_middle, Frame_left, 0) else (Frame_left, w.2.1, 0))
  else (w.1, w.2.1, n)

/-! ## Concrete inputs -/

/-- A map of 20 by 15 tiles without looping on which every cell is valid, passable
and landable; the hero stands at (0, 0), no touch event triggers and `rand()`
returns 0. -/
def env_open : Game_Map :=
  { width := 20, height := 15, loop_horizontal := false, loop_vertical := false,
    RoundX := fun x => x, RoundY := fun y => y, IsValid := fun _ _ => true,
    IsPassable := fun _ _ _ _ => true, IsLandable := fun _ _ _ => true,
    interpreter_running := false, message_waiting := false, continue_events := false,
    player_x := 0, player_y := 0, player_through := false,
    CheckEventTriggerTouch := fun _ _ _ => false, rand := fun _ => 0 }

/-- The map `env_open` with no cell passable or landable. -/
def env_blocked : Game_Map :=
  { env_open with IsPassable := fun _ _ _ _ => false, IsLandable := fun _ _ _ => false }

/-- A move command with the given id and no parameters. -/
def command (id : Int) : MoveCommand := ⟨id, 0, 0, ""⟩

/-- An event at (3, 3) with move speed 4 and frequency 3, facing right, without
route. -/
def event_33 : Game_Character :=
  { Game_Character.new 7 false 3 3 4 3 ⟨[], false, false⟩ with
    direction := Right, sprite_direction := Right, sprite_name := "hero1" }

/-- The event `event_33` after five idle ticks. -/
def event_33_idle : Game_Character := { event_33 with stop_count := 5 }

/-- The event `event_33` with walk-everywhere on. -/
def event_33_through : Game_Character := { event_33 with through := true }

/-- The event `event_33` without a graphic. -/
def event_33_blank : Game_Character := { event_33 with sprite_name := "" }

/-- The event `event_33` in the middle of a jump, at its first tick. -/
def event_33_jumping : Game_Character :=
  { event_33 with jumping := true, remaining_step := 256 }

/-- An event at (0, 0) with move speed 3, facing down, right after a step. -/
def event_walking : Game_Character :=
  { Game_Character.new 8 false 0 0 3 3 ⟨[], false, false⟩ with remaining_step := 256 }

/-- The event `event_33` under a forced empty route with frequency 6. -/
def event_33_forced : Game_Character := ForceMoveRoute event_33 ⟨[], false, false⟩ 6

/-- The event `event_33` under a forced empty repeating route with frequency 6. -/
def event_33_looping : Game_Character := ForceMoveRoute event_33 ⟨[], true, false⟩ 6

/-- The route `begin_jump; move_right; move_right; end_jump`. -/
def jump_route : MoveRoute :=
  ⟨[command Code.begin_jump, command Code.move_right, command Code.move_right,
    command Code.end_jump], false, false⟩

/-- The route `jump_route` with the flag `skippable`. -/
def jump_route_skippable : MoveRoute := { jump_route with skippable := true }

/-- The route `begin_jump; move_right; move_right` without `end_jump`. -/
def jump_route_open : MoveRoute :=
  ⟨[command Code.begin_jump, command Code.move_right, command Code.move_right], false, false⟩

/-- An event at (5, 5) with move speed 2 and frequency 8 whose own route is
`jump_route`, run as a custom move type. -/
def event_55 : Game_Character :=
  { Game_Character.new 9 false 5 5 2 8 jump_route with
    move_type := MoveType_custom, sprite_name := "hero1" }

/-- An event at (3, 3) whose own skippable route is `move_up; move_right`. -/
def event_stepper : Game_Character :=
  { Game_Character.new 7 false 3 3 4 3
      ⟨[command Code.move_up, command Code.move_right], false, true⟩ with
    move_type := MoveType_custom, sprite_name := "hero1" }

/-- The event `event_33` facing up. -/
def event_33_up : Game_Character := { event_33 with direction := Up, sprite_direction := Up }

/-- The opposite of a cardinal direction: `(d + 2) mod 4`. -/
def opposite (d : Int) : Int := Int.tmod (d + 2) 4

/-- The direction the move-toward algorithm tries first for a hero distance
`(sx, sy)`: the horizontal one (left if `sx > 0`, else right) when `|sx| > |sy|`,
otherwise the vertical one (up if `sy > 0`, else down). -/
def toward_first (sx sy : Int) : Int :=
  if cabs sx > cabs sy then (if sx > 0 then Left else Right)
  else (if sy > 0 then Up else Down)

/-- The direction on the other axis, which the move-toward algorithm falls back
to. -/
def toward_second (sx sy : Int) : Int :=
  if cabs sx > cabs sy then (if sy > 0 then Up else Down)
  else (if sx > 0 then Left else Right)

/-- The hero distance on the axis of the fallback direction. -/
def other_distance (sx sy : Int) : Int :=
  if cabs sx > cabs sy then sy else sx

/-- A first attempt in the direction `first` and, only when it failed and the
distance `other` on the other axis is non-zero, a second attempt in the
direction `second`. -/
def two_attempts (env : Game_Map) (c : Game_Character) (first second other : Int) :
    Game_Character :=
  let c1 := Move env c first
  if c1.move_failed = true ∧ other ≠ 0 then Move env c1 second else c1

/-- The cycle policy as the self-movement policies describe it: a stopping
character moves in the direction `cycle_stat` selects (`forth` when false, `back`
when true); on failure it waits (20 more ticks of `wait_count`), resets
`stop_count` and flips `cycle_stat`. -/
def cycle_policy (env : Game_Map) (c : Game_Character) (forth back : Int) : Game_Character :=
  if IsStopping c then
    let c1 := Move env c (if c.cycle_stat then back else forth)
    if c1.move_failed then
      { c1 with wait_count := c1.wait_count + 20, stop_count := 0, cycle_stat := !c1.cycle_stat }
    else c1
  else c

/-- The map `env_open` on which no cell can be left or entered upwards. -/
def env_no_up : Game_Map :=
  { env_open with IsPassable := fun _ _ d _ => decide (d ≠ Up) }

/-- The fields an idle dispatch may write and a tick spent waiting leaves alone:
the position, the direction, `move_failed`, the two route indices, the overwrite
flag and the move frequency. -/
def idle_fields (c : Game_Character) : Int × Int × Int × Bool × Int × Int × Bool × Int :=
  (c.x, c.y, c.direction, c.move_failed, c.move_route_index, c.original_move_route_index,
   c.move_route_overwritten, c.move_frequency)

/-- The event `event_33_idle` with three ticks left to wait. -/
def event_33_waiting : Game_Character := { event_33_idle with wait_count := 3 }

/-- The value of `active_route_index` and the state when `MoveTypeCustom` reaches
its write-back: those the body of `if (IsStopping())` leaves, or those on entry. -/
def MoveTypeCustom_run (env : Game_Map) (c : Game_Character) : Int × Game_Character :=
  if IsStopping c then MoveTypeCustom_body env (active_route c) (active_route_index c) c
  else (active_route_index c, c)

/-- The two stored route indices and the overwrite flag. -/
def route_fields (c : Game_Character) : Int × Int × Bool :=
  (c.move_route_index, c.original_move_route_index, c.move_route_overwritten)

/-- The event `event_33` whose own route was left at index 2, under a forced empty
route with frequency 6. -/
def event_33_paused : Game_Character :=
  ForceMoveRoute { event_33 with original_move_route_index := 2 } ⟨[], false, false⟩ 6

/-- A read `move_commands[i]` with the index taken as a `size_t`: `none` when it
lies outside the route. -/
def read_command (current_route : MoveRoute) (i : Int) : Option MoveCommand :=
  if 0 ≤ i ∧ i < current_route.move_commands.length then
    current_route.move_commands[i.toNat]?
  else none

/-- The scan loop of `BeginJump` by index, as the source writes it:
`for (i = *current_index; i < size; ++i)` reading `move_commands[i]`. The result
is `none` when a read lies outside the route or when the loop has not ended within
the number of iterations given first. -/
def BeginJump_scan_at (env : Game_Map) (current_route : MoveRoute) :
    Nat → Int → Game_Character → Option (Bool × Int × Game_Character)
  | 0, _, _ => none
  | fuel + 1, i, c =>
    if !index_in_route current_route i then some (false, i, c)
    else
      match read_command current_route i with
      | none => none
      | some move_command =>
        let c1 := BeginJump_step env c move_command
        if move_command.command_id = Code.end_jump then some (true, i, c1)
        else BeginJump_scan_at env current_route fuel (i + 1) c1

/-- The part of `BeginJump` after the scan loop, for the result `scan` of the
loop. -/
def BeginJump_finish (env : Game_Map) (current_route : MoveRoute) (current_index : Int)
    (scan : Bool × Int × Game_Character) : Int × Game_Character :=
  let end_found := scan.1
  let i := scan.2.1
  let c1 := scan.2.2
  if !end_found then (i, { c1 with jumping := false })
  else
    let new_x := jump_target_x env c1
    let new_y := jump_target_y env c1
    let c2 := jump_landing env c1
    if ¬ (c2.jump_plus_x = 0 ∧ c2.jump_plus_y = 0) ∧ IsLandable env c2 new_x new_y = false then
      let c3 := { c2 with move_failed := true, jumping := false }
      if current_route.skippable then (i, c3) else (current_index, c3)
    else
      let c3 := { c2 with x := new_x, y := new_y, remaining_step := SCREEN_TILE_WIDTH,
                          stop_count := 0 }
      (i, { c3 with max_stop_count := stop_count_limit 9 c3.move_frequency,
                    move_failed := false })

/-- The command `begin_jump` with the reads of its scan loop checked; `bound` is
the number of iterations allowed to the loop. -/
def BeginJump_at (env : Game_Map) (current_route : MoveRoute) (bound : Nat)
    (current_index : Int) (c : Game_Character) : Option (Int × Game_Character) :=
  (BeginJump_scan_at env current_route bound current_index (jump_start c)).map
    (BeginJump_finish env current_route current_index)

/-- The `switch` of `MoveTypeCustom` with the reads of `BeginJump` checked. -/
def MoveTypeCustom_command_at (env : Game_Map) (active_route : MoveRoute) (bound : Nat)
    (move_command : MoveCommand) (active_route_index : Int) (c : Game_Character) :
    Option (Int × Game_Character) :=
  if move_command.command_id = Code.begin_jump then
    BeginJump_at env active_route bound active_route_index c
  else some (active_route_index, MoveTypeCustom_simple env move_command c)

/-- The `for` loop of `MoveTypeCustom` with every read of a command checked: the
result is `none` when a read, here or in `BeginJump`, lies outside the route, or
when a loop has not ended within the number of iterations allowed (`bound` for the
scan of `BeginJump`, the next argument for this loop). -/
def MoveTypeCustom_loop_at (env : Game_Map) (active_route : MoveRoute) (bound : Nat) :
    Nat → Int → Game_Character → Option (Int × Game_Character)
  | 0, _, _ => none
  | fuel + 1, active_route_index, c =>
    if !index_in_route active_route active_route_index then some (active_route_index, c)
    else if !IsStopping c ∨ c.wait_count > 0 ∨ c.stop_count < c.max_stop_count then
      some (active_route_index, c)
    else
      match read_command active_route active_route_index with
      | none => none
      | some move_command =>
        (MoveTypeCustom_command_at env active_route bound move_command active_route_index c).bind
          (fun r =>
            if r.2.move_failed then
              some (if active_route.skippable then r.1 + 1 else r.1, r.2)
            else MoveTypeCustom_loop_at env active_route bound fuel (r.1 + 1) r.2)

/-- A map of 20 by 15 tiles looping in both directions, open everywhere; the hero
stands at (11, 8). -/
def env_loop : Game_Map :=
  { env_open with loop_horizontal := true, loop_vertical := true,
                  RoundX := fun x => x % 20, RoundY := fun y => y % 15,
                  player_x := 11, player_y := 8 }

/-- An event at (0, 0) with move speed 3 and frequency 3, without route. -/
def event_00 : Game_Character :=
  { Game_Character.new 8 false 0 0 3 3 ⟨[], false, false⟩ with sprite_name := "hero1" }

/-- The event `event_00` moved to (11, 8). -/
def event_118 : Game_Character := { event_00 with x := 11, y := 8 }

/-- The map `env_loop` with the hero at (0, 0). -/
def env_loop_origin : Game_Map := { env_loop with player_x := 0, player_y := 0 }

/-- The event `event_33` under the forced route `jump_route` with frequency 6 and
then under a forced empty route with frequency 8. -/
def event_33_twice : Game_Character :=
  ForceMoveRoute (ForceMoveRoute event_33 jump_route 6) ⟨[], false, false⟩ 8

/-- The part of `Update` before the wait timer and the idle dispatch: the jump,
locomotion and stop advance and the pattern step when it is due. -/
def Update_animate (c : Game_Character) : Option Game_Character :=
  (Update_phase c).bind (fun c1 =>
    (GetSteppingSpeed c1).map (fun stepping_speed =>
      if c1.anime_count ≥ stepping_speed then Update_pattern c1 else c1))

/-- The step counter and the jump flag. -/
def step_fields (c : Game_Character) : Int × Bool := (c.remaining_step, c.jumping)

theorem truncQ_of_nonneg (q : ℚ) (h : 0 ≤ q) : truncQ q = ⌊q⌋ := by
  unfold truncQ
  rw [Int.tdiv_eq_ediv (Rat.num_nonneg.2 h) (by positivity)]
  exact (Rat.floor_def' q).symm

theorem truncQ_neg (q : ℚ) : truncQ (-q) = -truncQ q := by
  unfold truncQ
  simp [Int.neg_tdiv]

theorem truncQ_of_nonpos (q : ℚ) (h : q ≤ 0) : truncQ q = ⌈q⌉ := by
  have h1 : truncQ (-q) = ⌊-q⌋ := truncQ_of_nonneg (-q) (by linarith)
  rw [truncQ_neg] at h1
  have h2 : ⌈q⌉ = -⌊-q⌋ := by
    have := Int.ceil_neg (a := -q)
    simpa using this
  rw [h2, ← h1]; ring

theorem truncQ_intCast (n : Int) : truncQ (n : ℚ) = n := by
  simp [truncQ]

theorem pow2_of_nonneg (e : Int) (h : 0 ≤ e) : pow2 e = ((2 ^ e.toNat : Int) : ℚ) := by
  unfold pow2
  obtain ⟨n, rfl⟩ := Int.eq_ofNat_of_zero_le h
  simp

theorem truncQ_sub_pow2 (r e : Int) (h : 0 ≤ e) :
    truncQ ((r : ℚ) - pow2 e) = r - 2 ^ e.toNat := by
  rw [pow2_of_nonneg e h]
  have : ((r : ℚ) - ((2 ^ e.toNat : Int) : ℚ)) = ((r - 2 ^ e.toNat : Int) : ℚ) := by
    push_cast; ring
  rw [this, truncQ_intCast]

theorem truncQ_pow2 (e : Int) (h : 0 ≤ e) : truncQ (pow2 e) = 2 ^ e.toNat := by
  rw [pow2_of_nonneg e h, truncQ_intCast]

/-- The idle threshold `Move` and `BeginJump` store. -/
theorem stop_count_limit_nine (f : Int) :
    stop_count_limit 9 f = if f > 7 then 0 else 2 ^ (9 - f).toNat := by
  unfold stop_count_limit
  split
  · rfl
  · rw [truncQ_pow2 _ (by omega)]

/-! ## Facing -/

theorem Turn_sprite_direction (c : Game_Character) (dir : Int) :
    (Turn c dir).sprite_direction = dir := rfl

/-- C18. For a sprite direction in 0..3, four `Turn90DegreeRight` return it to its
starting value, two `Turn180Degree` do so too, and `Turn90DegreeLeft` undoes
`Turn90DegreeRight`; the character is arbitrary otherwise, so neither a facing lock
nor the animation type matters. -/
theorem turn_round_trip (c : Game_Character)
    (h : c.sprite_direction = 0 ∨ c.sprite_direction = 1 ∨ c.sprite_direction = 2
      ∨ c.sprite_direction = 3) :
    (Turn90DegreeRight (Turn90DegreeRight (Turn90DegreeRight (Turn90DegreeRight c)))).sprite_direction
        = c.sprite_direction
      ∧ (Turn180Degree (Turn180Degree c)).sprite_direction = c.sprite_direction
      ∧ (Turn90DegreeLeft (Turn90DegreeRight c)).sprite_direction = c.sprite_direction := by
  rcases h with h | h | h | h <;>
    simp only [Turn90DegreeRight, Turn90DegreeLeft, Turn180Degree, Turn, h] <;> decide

theorem turn_round_trip_witness :
    (Turn90DegreeRight (Turn90DegreeRight (Turn90DegreeRight
        (Turn90DegreeRight { event_33 with facing_locked := true })))).sprite_direction = 1
      ∧ (Turn180Degree (Turn180Degree { event_33 with facing_locked := true })).sprite_direction = 1
      ∧ (Turn90DegreeLeft (Turn90DegreeRight { event_33 with facing_locked := true })).sprite_direction
          = 1 :=
  turn_round_trip { event_33 with facing_locked := true } (Or.inr (Or.inl rfl))

/-! ## Opacity -/

/-- C19. `SetOpacity(v)` stores `min(255, max(0, v))`, a value in 0..255, and for a
prior opacity in 0..255 the command `increase_transp` stores `max(40, opacity - 45)`
and `decrease_transp` stores `min(255, opacity + 45)`. -/
theorem opacity_clamp (env : Game_Map) (c : Game_Character) (v : Int)
    (up down : MoveCommand) (hup : up.command_id = Code.increase_transp)
    (hdown : down.command_id = Code.decrease_transp)
    (h0 : 0 ≤ c.opacity) (h255 : c.opacity ≤ 255) :
    (SetOpacity c v).opacity = min 255 (max 0 v)
      ∧ 0 ≤ (SetOpacity c v).opacity ∧ (SetOpacity c v).opacity ≤ 255
      ∧ (MoveTypeCustom_simple env up c).opacity = max 40 (c.opacity - 45)
      ∧ (MoveTypeCustom_simple env down c).opacity = min 255 (c.opacity + 45) := by
  refine ⟨?_, ?_, ?_, ?_, ?_⟩
  · simp only [SetOpacity]; omega
  · simp only [SetOpacity]; omega
  · simp only [SetOpacity]; omega
  · simp only [MoveTypeCustom_simple, MoveTypeCustom_facing, MoveTypeCustom_tuning,
      MoveTypeCustom_effects, hup, SetOpacity]
    norm_num
    omega
  · simp only [MoveTypeCustom_simple, MoveTypeCustom_facing, MoveTypeCustom_tuning,
      MoveTypeCustom_effects, hdown, SetOpacity]
    norm_num
    omega

theorem opacity_clamp_witness :
    (SetOpacity event_33 300).opacity = min 255 (max 0 300)
      ∧ 0 ≤ (SetOpacity event_33 300).opacity ∧ (SetOpacity event_33 300).opacity ≤ 255
      ∧ (MoveTypeCustom_simple env_open (command Code.increase_transp) event_33).opacity
          = max 40 (event_33.opacity - 45)
      ∧ (MoveTypeCustom_simple env_open (command Code.decrease_transp) event_33).opacity
          = min 255 (event_33.opacity + 45) :=
  opacity_clamp env_open event_33 300 (command Code.increase_transp)
    (command Code.decrease_transp) rfl rfl (by decide) (by decide)

/-! ## The movement primitive -/

theorem step_unit_vector (dir : Int) (h0 : 0 ≤ dir) (h7 : dir ≤ 7) :
    (step_x dir, step_y dir) = unit_vector dir := by
  interval_cases dir <;> decide

theorem Move_jumping (env : Game_Map) (c : Game_Character) (dir : Int) (h : c.jumping = true) :
    Move env c dir = { Move_facing c dir with
      jump_plus_x := c.jump_plus_x + step_x dir, jump_plus_y := c.jump_plus_y + step_y dir } := by
  simp [Move, Move_facing, h]

theorem Move_blocked_eq (env : Game_Map) (c : Game_Character) (dir : Int)
    (hj : c.jumping = false)
    (hblk : IsPassable env (Move_facing c dir) c.x c.y dir = false) :
    Move env c dir =
      if Move_touch env c dir then
        { Move_facing c dir with move_failed := true, stop_count := 0,
                                 max_stop_count := stop_count_limit 9 c.move_frequency }
      else { Move_facing c dir with move_failed := true } := by
  simp only [Move_facing] at hblk
  simp only [Move, Move_touch, Move_facing, hj, hblk]
  split_ifs <;> simp_all

theorem Move_passable_eq (env : Game_Map) (c : Game_Character) (dir : Int)
    (hj : c.jumping = false)
    (hpass : IsPassable env (Move_facing c dir) c.x c.y dir = true) :
    Move env c dir =
      { Move_facing c dir with
          move_failed := false, x := env.RoundX (c.x + step_x dir),
          y := env.RoundY (c.y + step_y dir), remaining_step := SCREEN_TILE_WIDTH,
          stop_count := 0, max_stop_count := stop_count_limit 9 c.move_frequency } := by
  simp only [Move_facing, hj] at hpass
  simp [Move, Move_facing, hj, hpass, BeginMove]

theorem Move_sprite_direction_eq (env : Game_Map) (c : Game_Character) (dir : Int) :
    (Move env c dir).sprite_direction = Move_sprite_direction c dir := by
  unfold Move
  simp only [Move_facing, BeginMove]
  split_ifs <;> rfl

/-- C3, as amended. A blocked cardinal `Move` of a non-jumping character whose
direction is not fixed sets `move_failed`, leaves `x`, `y` and `remaining_step`
unchanged and turns `direction` and `sprite_direction` to `dir`; when the
touch-trigger check returns true it also resets `stop_count` to 0 and sets
`max_stop_count` to `frequency > 7 ? 0 : 2^(9 - frequency)`, and when the check
returns false it leaves `stop_count` and `max_stop_count` unchanged. -/
theorem Move_blocked (env : Game_Map) (c : Game_Character) (dir : Int)
    (hj : c.jumping = false) (hfix : IsDirectionFixed c = false)
    (hdir : 0 ≤ dir ∧ dir ≤ 3)
    (hblk : IsPassable env (Move_facing c dir) c.x c.y dir = false) :
    (Move env c dir).move_failed = true
      ∧ (Move env c dir).x = c.x ∧ (Move env c dir).y = c.y
      ∧ (Move env c dir).remaining_step = c.remaining_step
      ∧ (Move env c dir).direction = dir ∧ (Move env c dir).sprite_direction = dir
      ∧ (Move_touch env c dir = true →
          (Move env c dir).stop_count = 0
          ∧ (Move env c dir).max_stop_count
              = if c.move_frequency > 7 then 0 else 2 ^ (9 - c.move_frequency).toNat)
      ∧ (Move_touch env c dir = false →
          (Move env c dir).stop_count = c.stop_count
          ∧ (Move env c dir).max_stop_count = c.max_stop_count) := by
  have hs : Move_sprite_direction c dir = dir := by
    have : ¬ dir > 3 := by omega
    simp [Move_sprite_direction, hfix, this]
  rw [Move_blocked_eq env c dir hj hblk]
  by_cases ht : Move_touch env c dir = true
  · simp [ht, Move_facing, hs, stop_count_limit_nine]
  · simp [ht, Move_facing, hs]

theorem Move_blocked_witness :
    (Move env_blocked event_33_idle Up).move_failed = true
      ∧ (Move env_blocked event_33_idle Up).x = 3 ∧ (Move env_blocked event_33_idle Up).y = 3
      ∧ (Move env_blocked event_33_idle Up).remaining_step = 0
      ∧ (Move env_blocked event_33_idle Up).direction = Up
      ∧ (Move env_blocked event_33_idle Up).sprite_direction = Up
      ∧ (Move_touch env_blocked event_33_idle Up = true →
          (Move env_blocked event_33_idle Up).stop_count = 0
          ∧ (Move env_blocked event_33_idle Up).max_stop_count
              = if event_33_idle.move_frequency > 7 then 0
                else 2 ^ (9 - event_33_idle.move_frequency).toNat)
      ∧ (Move_touch env_blocked event_33_idle Up = false →
          (Move env_blocked event_33_idle Up).stop_count = 5
          ∧ (Move env_blocked event_33_idle Up).max_stop_count = 0) :=
  Move_blocked env_blocked event_33_idle Up rfl (by decide) (by decide) (by decide)

/-- C3, counterexample. The event at (3, 3) facing right with frequency 3 and
`stop_count = 5` is blocked moving up and no touch event triggers: `stop_count`
stays 5 and `max_stop_count` stays 0 instead of becoming 0 and 64. -/
theorem Move_blocked_counterexample :
    event_33_idle.jumping = false ∧ IsDirectionFixed event_33_idle = false
      ∧ IsPassable env_blocked (Move_facing event_33_idle Up) 3 3 Up = false
      ∧ (Move env_blocked event_33_idle Up).stop_count = 5
      ∧ (Move env_blocked event_33_idle Up).max_stop_count = 0
      ∧ ¬ ((Move env_blocked event_33_idle Up).stop_count = 0
            ∧ (Move env_blocked event_33_idle Up).max_stop_count = 64) := by
  decide

/-- C4. A passable `Move` of a non-jumping character in a direction 0..7 puts the
character on the rounded neighbouring cell along the unit vector of the direction,
sets `remaining_step` to 256, clears `move_failed`, resets `stop_count` and sets
`max_stop_count` to `frequency > 7 ? 0 : 2^(9 - frequency)`. -/
theorem Move_passable (env : Game_Map) (c : Game_Character) (dir : Int)
    (hj : c.jumping = false) (hdir : 0 ≤ dir ∧ dir ≤ 7)
    (hpass : IsPassable env (Move_facing c dir) c.x c.y dir = true) :
    ((Move env c dir).x, (Move env c dir).y)
        = (env.RoundX (c.x + (unit_vector dir).1), env.RoundY (c.y + (unit_vector dir).2))
      ∧ (Move env c dir).remaining_step = 256
      ∧ (Move env c dir).move_failed = false
      ∧ (Move env c dir).stop_count = 0
      ∧ (Move env c dir).max_stop_count
          = if c.move_frequency > 7 then 0 else 2 ^ (9 - c.move_frequency).toNat := by
  have hv := step_unit_vector dir hdir.1 hdir.2
  rw [Move_passable_eq env c dir hj hpass, ← hv]
  simp [stop_count_limit_nine]

theorem Move_passable_witness :
    ((Move env_open event_33 Down).x, (Move env_open event_33 Down).y)
        = (env_open.RoundX (event_33.x + (unit_vector Down).1),
            env_open.RoundY (event_33.y + (unit_vector Down).2))
      ∧ (Move env_open event_33 Down).remaining_step = 256
      ∧ (Move env_open event_33 Down).move_failed = false
      ∧ (Move env_open event_33 Down).stop_count = 0
      ∧ (Move env_open event_33 Down).max_stop_count
          = if event_33.move_frequency > 7 then 0 else 2 ^ (9 - event_33.move_frequency).toNat :=
  Move_passable env_open event_33 Down rfl (by decide) (by decide)

/-- C20, as amended. `Move(dir)` of a character whose direction is not fixed keeps
the sprite on its axis for a diagonal `dir` in 4..7: a vertical sprite direction
(up or down) becomes the vertical component of the diagonal (up for up-right and
up-left, down otherwise) and a horizontal one (right or left) becomes its
horizontal component (right for up-right and down-right, left otherwise); for a
cardinal `dir` the sprite direction becomes `dir`. -/
theorem Move_diagonal_sprite (env : Game_Map) (c : Game_Character) (dir : Int)
    (hfix : IsDirectionFixed c = false) :
    (4 ≤ dir → dir ≤ 7 → c.sprite_direction = Up ∨ c.sprite_direction = Down →
        (Move env c dir).sprite_direction = if dir = UpRight ∨ dir = UpLeft then Up else Down)
      ∧ (4 ≤ dir → dir ≤ 7 → c.sprite_direction = Right ∨ c.sprite_direction = Left →
        (Move env c dir).sprite_direction
          = if dir = UpRight ∨ dir = DownRight then Right else Left)
      ∧ (0 ≤ dir → dir ≤ 3 → (Move env c dir).sprite_direction = dir) := by
  rw [Move_sprite_direction_eq]
  refine ⟨?_, ?_, ?_⟩
  · intro h4 h7 hs
    have hd : dir > 3 := by omega
    rcases hs with hs | hs <;>
      (simp only [Move_sprite_direction, hfix, hd, hs]; interval_cases dir <;> decide)
  · intro h4 h7 hs
    have hd : dir > 3 := by omega
    rcases hs with hs | hs <;>
      (simp only [Move_sprite_direction, hfix, hd, hs]; interval_cases dir <;> decide)
  · intro h0 h3
    have hd : ¬ dir > 3 := by omega
    simp [Move_sprite_direction, hfix, hd]

theorem Move_diagonal_sprite_witness :
    (Move env_open event_33_up UpRight).sprite_direction = Up
      ∧ (Move env_open event_33 UpRight).sprite_direction = Right
      ∧ (Move env_open event_33 Down).sprite_direction = Down :=
  ⟨(Move_diagonal_sprite env_open event_33_up UpRight rfl).1 (by decide) (by decide)
      (Or.inl rfl),
   (Move_diagonal_sprite env_open event_33 UpRight rfl).2.1 (by decide) (by decide)
      (Or.inl rfl),
   (Move_diagonal_sprite env_open event_33 Down rfl).2.2 (by decide) (by decide)⟩

/-- C20, counterexample. The event facing up, whose direction is not fixed, moves
up-right: its sprite direction is up afterwards, the vertical component of the
diagonal, and not right, the horizontal one. -/
theorem Move_diagonal_sprite_counterexample :
    IsDirectionFixed event_33_up = false ∧ event_33_up.sprite_direction = Up
      ∧ (Move env_open event_33_up UpRight).sprite_direction = Up
      ∧ ¬ ((Move env_open event_33_up UpRight).sprite_direction = Right) := by
  decide

/-! ## Passability and landability -/

/-- C9, as amended. For a character that is not through, a cardinal direction `d`
and a position where `IsPassable(x, y, d)` holds, the map reports the target cell
passable when entered from the opposite direction `(d + 2) mod 4`. -/
theorem IsPassable_target (env : Game_Map) (c : Game_Character) (x y d : Int)
    (hd : 0 ≤ d ∧ d ≤ 3) (hthrough : c.through = false)
    (h : IsPassable env c x y d = true) :
    env.IsPassable (env.RoundX (x + (unit_vector d).1)) (env.RoundY (y + (unit_vector d).2))
      ((d + 2) % 4) c = true := by
  obtain ⟨h0, h3⟩ := hd
  have hd3 : ¬ d > 3 := by omega
  have hm : Int.tmod (d + 2) 4 = (d + 2) % 4 := by
    interval_cases d <;> decide
  have hx : (if d = Right then (1 : Int) else if d = Left then -1 else 0) = (unit_vector d).1 := by
    interval_cases d <;> decide
  have hy : (if d = Down then (1 : Int) else if d = Up then -1 else 0) = (unit_vector d).2 := by
    interval_cases d <;> decide
  simp only [IsPassable, hd3, if_false, IsPassable_cardinal, hthrough, hx, hy, hm] at h
  by_contra hc
  simp only [Bool.not_eq_true] at hc
  rw [hc] at h
  simp at h

theorem IsPassable_target_witness :
    env_open.IsPassable (env_open.RoundX (3 + (unit_vector Up).1))
      (env_open.RoundY (3 + (unit_vector Up).2)) ((Up + 2) % 4) event_33 = true :=
  IsPassable_target env_open event_33 3 3 Up (by decide) rfl (by decide)

/-- C9, counterexample. For the through event at (3, 3), `IsPassable(3, 3, Up)`
holds although the map reports the target cell (3, 2) impassable from below. -/
theorem IsPassable_target_counterexample :
    IsPassable env_blocked event_33_through 3 3 Up = true
      ∧ env_blocked.IsPassable (env_blocked.RoundX (3 + (unit_vector Up).1))
          (env_blocked.RoundY (3 + (unit_vector Up).2)) ((Up + 2) % 4) event_33_through
          = false := by
  decide

/-- C10, as amended. `IsLandable(x, y)` holds exactly when the cell is valid and
the character is through, or the map reports the cell landable and it is not the
case that the hero is at (x, y), the hero is not through, the character has a
graphic (a non-empty sprite name) and the character is not the hero. -/
theorem IsLandable_iff (env : Game_Map) (c : Game_Character) (x y : Int) :
    IsLandable env c x y = true ↔
      env.IsValid x y = true ∧
        (c.through = true ∨
          (env.IsLandable x y c = true ∧
            ¬ (player_IsInPosition env c x y = true ∧ player_GetThrough env c = false
                ∧ c.sprite_name.isEmpty = false ∧ c.is_player = false))) := by
  unfold IsLandable
  cases env.IsValid x y <;> cases c.through <;> cases env.IsLandable x y c <;>
    cases player_IsInPosition env c x y <;> cases player_GetThrough env c <;>
    cases c.sprite_name.isEmpty <;> cases c.is_player <;> simp

/-- C10, counterexample. The event without a graphic may land on the cell (0, 0)
the hero occupies, although it is neither through nor the hero and the hero is
not through. -/
theorem IsLandable_counterexample :
    IsLandable env_open event_33_blank 0 0 = true
      ∧ ¬ (env_open.IsValid 0 0 = true ∧
            (event_33_blank.through = true ∨
              (env_open.IsLandable 0 0 event_33_blank = true ∧
                ¬ (player_IsInPosition env_open event_33_blank 0 0 = true
                    ∧ player_GetThrough env_open event_33_blank = false
                    ∧ event_33_blank.is_player = false)))) := by
  decide

/-! ## Stepping speed -/

/-- The stepping speed for a move speed in 1..6, read from the three tables. -/
theorem GetSteppingSpeed_of_speed (c : Game_Character) (s : Int) (hs : c.move_speed = s)
    (h1 : 1 ≤ s) (h6 : s ≤ 6) :
    GetSteppingSpeed c =
      if IsSpinning c = true then spinning_speeds[(s - 1).toNat]?
      else if IsMoving c = true then moving_speeds[(s - 1).toNat]?
      else standing_speeds[(s - 1).toNat]? := by
  unfold GetSteppingSpeed
  simp only [hs]
  interval_cases s <;> (split_ifs <;> first | rfl | (exfalso; omega))

theorem GetSteppingSpeed_some (c : Game_Character) (h1 : 1 ≤ c.move_speed)
    (h6 : c.move_speed ≤ 6) : ∃ v, GetSteppingSpeed c = some v := by
  rw [GetSteppingSpeed_of_speed c c.move_speed rfl h1 h6]
  generalize c.move_speed = s at h1 h6
  interval_cases s <;> (split_ifs <;> exact ⟨_, rfl⟩)

/-- C7. For a move speed in 1..6 `GetSteppingSpeed` divides by a non-zero number
and returns the entry of the table for the state of the character: 24, 16, 12, 8,
6, 4 when spinning, 12, 10, 8, 6, 5, 4 when moving and not spinning, and 16, 12,
10, 8, 7, 6 otherwise; the result is at least 4 and does not grow with the speed. -/
theorem GetSteppingSpeed_table (c : Game_Character)
    (h1 : 1 ≤ c.move_speed) (h6 : c.move_speed ≤ 6) :
    (IsSpinning c = true → GetSteppingSpeed c = spinning_speeds[(c.move_speed - 1).toNat]?)
      ∧ (IsSpinning c = false → IsMoving c = true →
          GetSteppingSpeed c = moving_speeds[(c.move_speed - 1).toNat]?)
      ∧ (IsSpinning c = false → IsMoving c = false →
          GetSteppingSpeed c = standing_speeds[(c.move_speed - 1).toNat]?)
      ∧ (∃ v, GetSteppingSpeed c = some v ∧ 4 ≤ v ∧
          ∀ c2 : Game_Character, IsSpinning c2 = IsSpinning c → IsMoving c2 = IsMoving c →
            c.move_speed ≤ c2.move_speed → c2.move_speed ≤ 6 →
            ∃ v2, GetSteppingSpeed c2 = some v2 ∧ v2 ≤ v) := by
  have hk := GetSteppingSpeed_of_speed c c.move_speed rfl h1 h6
  refine ⟨fun h => by rw [hk]; simp [h], fun h h2 => by rw [hk]; simp [h, h2],
    fun h h2 => by rw [hk]; simp [h, h2], ?_⟩
  generalize hs : c.move_speed = s at hk h1 h6
  have hmono : ∀ (c2 : Game_Character), IsSpinning c2 = IsSpinning c →
      IsMoving c2 = IsMoving c → s ≤ c2.move_speed → c2.move_speed ≤ 6 →
      GetSteppingSpeed c2 =
        if IsSpinning c = true then spinning_speeds[(c2.move_speed - 1).toNat]?
        else if IsMoving c = true then moving_speeds[(c2.move_speed - 1).toNat]?
        else standing_speeds[(c2.move_speed - 1).toNat]? := by
    intro c2 e1 e2 l1 l2
    rw [GetSteppingSpeed_of_speed c2 c2.move_speed rfl (by omega) l2, e1, e2]
  cases hsp : IsSpinning c <;> cases hmv : IsMoving c <;>
    simp only [hsp, hmv, Bool.false_eq_true, if_false, if_true] at hk hmono <;>
    interval_cases s <;>
    (refine ⟨_, hk, by decide, ?_⟩
     intro c2 e1 e2 l1 l2
     rw [hmono c2 e1 e2 l1 l2]
     generalize c2.move_speed = s2 at l1 l2
     interval_cases s2 <;> exact ⟨_, rfl, by decide⟩)

theorem GetSteppingSpeed_table_witness :
    (IsSpinning event_33 = true →
        GetSteppingSpeed event_33 = spinning_speeds[(event_33.move_speed - 1).toNat]?)
      ∧ (IsSpinning event_33 = false → IsMoving event_33 = true →
          GetSteppingSpeed event_33 = moving_speeds[(event_33.move_speed - 1).toNat]?)
      ∧ (IsSpinning event_33 = false → IsMoving event_33 = false →
          GetSteppingSpeed event_33 = standing_speeds[(event_33.move_speed - 1).toNat]?)
      ∧ (∃ v, GetSteppingSpeed event_33 = some v ∧ 4 ≤ v ∧
          ∀ c2 : Game_Character, IsSpinning c2 = IsSpinning event_33 →
            IsMoving c2 = IsMoving event_33 →
            event_33.move_speed ≤ c2.move_speed → c2.move_speed ≤ 6 →
            ∃ v2, GetSteppingSpeed c2 = some v2 ∧ v2 ≤ v) :=
  GetSteppingSpeed_table event_33 (by decide) (by decide)

/-! ## Locomotion and jump advance -/

theorem UpdateMove_remaining_step (c : Game_Character) (h : 0 ≤ 1 + c.move_speed) :
    (UpdateMove c).remaining_step =
      if c.remaining_step > 0 then c.remaining_step - 2 ^ (1 + c.move_speed).toNat
      else c.remaining_step := by
  unfold UpdateMove
  by_cases hr : c.remaining_step > 0
  · simp [hr, truncQ_sub_pow2 _ _ h]
  · simp [hr]

theorem UpdateMove_move_speed (c : Game_Character) :
    (UpdateMove c).move_speed = c.move_speed := by
  unfold UpdateMove
  split_ifs <;> rfl

theorem UpdateMove_jumping (c : Game_Character) :
    (UpdateMove c).jumping = c.jumping := by
  unfold UpdateMove
  split_ifs <;> rfl

theorem UpdateMove_iterate_move_speed (c : Game_Character) (k : Nat) :
    (UpdateMove^[k] c).move_speed = c.move_speed := by
  induction k with
  | zero => rfl
  | succ n ih => rw [Function.iterate_succ_apply', UpdateMove_move_speed, ih]

theorem UpdateMove_iterate_remaining_step (c : Game_Character) (s : Nat)
    (h1 : 1 ≤ s) (h6 : s ≤ 6) (hs : c.move_speed = s) (hr : c.remaining_step = 256) (k : Nat) :
    (UpdateMove^[k] c).remaining_step
      = if k ≤ 2 ^ (7 - s) then 256 - (k : Int) * 2 ^ (1 + s) else 0 := by
  induction k with
  | zero => simp [hr]
  | succ n ih =>
    rw [Function.iterate_succ_apply', UpdateMove_remaining_step, ih,
      UpdateMove_iterate_move_speed, hs]
    · have e : (1 + (s : Int)).toNat = 1 + s := by omega
      rw [e]
      interval_cases s <;> simp <;> split_ifs <;> omega
    · rw [UpdateMove_iterate_move_speed, hs]; omega

/-- C5. For a move speed `s` in 1..6 and `remaining_step = 256`, every `UpdateMove`
of the first `2^(7-s)` subtracts exactly `2^(1+s)`, `remaining_step` is never
negative, it is positive before and 0 after exactly `2^(7-s)` applications,
`IsMoving` is false then, and further applications leave it at 0. -/
theorem UpdateMove_steps (c : Game_Character) (s : Nat) (h1 : 1 ≤ s) (h6 : s ≤ 6)
    (hs : c.move_speed = s) (hr : c.remaining_step = 256) :
    (∀ k, k < 2 ^ (7 - s) →
        (UpdateMove^[k + 1] c).remaining_step
          = (UpdateMove^[k] c).remaining_step - 2 ^ (1 + s))
      ∧ (∀ k, k ≤ 2 ^ (7 - s) → (UpdateMove^[k] c).remaining_step = 256 - (k : Int) * 2 ^ (1 + s))
      ∧ (∀ k, 0 ≤ (UpdateMove^[k] c).remaining_step)
      ∧ (∀ k, k < 2 ^ (7 - s) → 0 < (UpdateMove^[k] c).remaining_step)
      ∧ (UpdateMove^[2 ^ (7 - s)] c).remaining_step = 0
      ∧ IsMoving (UpdateMove^[2 ^ (7 - s)] c) = false
      ∧ (∀ k, 2 ^ (7 - s) ≤ k → (UpdateMove^[k] c).remaining_step = 0) := by
  have key := UpdateMove_iterate_remaining_step c s h1 h6 hs hr
  have hend : (UpdateMove^[2 ^ (7 - s)] c).remaining_step = 0 := by
    rw [key]; interval_cases s <;> simp
  refine ⟨?_, ?_, ?_, ?_, hend, ?_, ?_⟩
  · intro k hk
    rw [key, key]
    interval_cases s <;> simp at hk ⊢ <;> split_ifs <;> omega
  · intro k hk
    rw [key]; simp [hk]
  · intro k
    rw [key]
    interval_cases s <;> simp <;> split_ifs <;> omega
  · intro k hk
    rw [key]
    interval_cases s <;> simp at hk ⊢ <;> split_ifs <;> omega
  · simp [IsMoving, hend]
  · intro k hk
    rw [key]
    interval_cases s <;> simp at hk ⊢ <;> intro hle <;> omega

theorem UpdateMove_steps_witness :
    (UpdateMove^[1] event_walking).remaining_step = 240
      ∧ (UpdateMove^[16] event_walking).remaining_step = 0
      ∧ IsMoving (UpdateMove^[16] event_walking) = false
      ∧ (UpdateMove^[17] event_walking).remaining_step = 0 :=
  ⟨(UpdateMove_steps event_walking 3 (by decide) (by decide) rfl rfl).2.1 1 (by decide),
   (UpdateMove_steps event_walking 3 (by decide) (by decide) rfl rfl).2.2.2.2.1,
   (UpdateMove_steps event_walking 3 (by decide) (by decide) rfl rfl).2.2.2.2.2.1,
   (UpdateMove_steps event_walking 3 (by decide) (by decide) rfl rfl).2.2.2.2.2.2 17
     (by decide)⟩

theorem truncQ_sub_int (r k : Int) : truncQ ((r : ℚ) - (k : ℚ)) = r - k := by
  have : ((r : ℚ) - (k : ℚ)) = ((r - k : Int) : ℚ) := by push_cast; ring
  rw [this, truncQ_intCast]

theorem truncQ_sub_jump_four (r : Int) :
    truncQ ((r : ℚ) - 96 / 5) = if 20 ≤ r then r - 20 else r - 19 := by
  split
  · next h =>
    have hq : (20 : ℚ) ≤ (r : ℚ) := by exact_mod_cast h
    rw [truncQ_of_nonneg _ (by linarith), Int.floor_eq_iff]
    push_cast
    constructor <;> linarith
  · next h =>
    have hq : (r : ℚ) ≤ 19 := by
      have : r ≤ 19 := by omega
      exact_mod_cast this
    rw [truncQ_of_nonpos _ (by linarith), Int.ceil_eq_iff]
    push_cast
    constructor <;> linarith

/-- The amounts `UpdateJump` subtracts for the move speeds 1 to 6. -/
theorem UpdateJump_amount_table :
    UpdateJump_amount 1 = some 8 ∧ UpdateJump_amount 2 = some 12
      ∧ UpdateJump_amount 3 = some 16 ∧ UpdateJump_amount 4 = some (96 / 5)
      ∧ UpdateJump_amount 5 = some 32 ∧ UpdateJump_amount 6 = some 64 := by
  refine ⟨?_, ?_, ?_, ?_, ?_, ?_⟩ <;> norm_num [UpdateJump_amount, pow2, cdiv]
  all_goals rfl

/-- One `UpdateJump` for a move speed in 1..6. -/
theorem UpdateJump_eq (c : Game_Character) (h1 : 1 ≤ c.move_speed) (h6 : c.move_speed ≤ 6) :
    UpdateJump c = some
      (if jump_step c.move_speed c.remaining_step ≤ 0 then
        { c with remaining_step := jump_step c.move_speed c.remaining_step, jumping := false }
      else { c with remaining_step := jump_step c.move_speed c.remaining_step }) := by
  obtain ⟨t1, t2, t3, t4, t5, t6⟩ := UpdateJump_amount_table
  unfold UpdateJump
  generalize hs : c.move_speed = s at h1 h6
  have e8 : ((8 : ℚ)) = ((8 : Int) : ℚ) := by norm_num
  have e12 : ((12 : ℚ)) = ((12 : Int) : ℚ) := by norm_num
  have e16 : ((16 : ℚ)) = ((16 : Int) : ℚ) := by norm_num
  have e32 : ((32 : ℚ)) = ((32 : Int) : ℚ) := by norm_num
  have e64 : ((64 : ℚ)) = ((64 : Int) : ℚ) := by norm_num
  interval_cases s
  · simp only [t1, Option.map_some', e8, truncQ_sub_int]; simp [jump_step]
  · simp only [t2, Option.map_some', e12, truncQ_sub_int]; simp [jump_step]
  · simp only [t3, Option.map_some', e16, truncQ_sub_int]; simp [jump_step]
  · simp only [t4, Option.map_some', truncQ_sub_jump_four]; simp [jump_step]
  · simp only [t5, Option.map_some', e32, truncQ_sub_int]; simp [jump_step]
  · simp only [t6, Option.map_some', e64, truncQ_sub_int]; simp [jump_step]

/-- C6, at the failing input. With move speed 4 the first tick of a jump takes
`remaining_step` from 256 to 236: the amount is 48/(2 + 2^(-1)) = 19.2 and the
difference 236.8 is truncated; the table of the source comment has 24 for this
speed, which would give 232. -/
theorem UpdateJump_speed_four :
    event_33_jumping.move_speed = 4 ∧ event_33_jumping.remaining_step = 256
      ∧ (UpdateJump event_33_jumping).map (fun c => (c.remaining_step, c.jumping))
          = some (236, true)
      ∧ (UpdateJump event_33_jumping).map (fun c => c.remaining_step) ≠ some (256 - 24) := by
  rw [UpdateJump_eq event_33_jumping (by decide) (by decide)]
  decide

/-! ## Forced routes -/

/-- C12. For a stopping character under a forced route whose index is at or past
the end of the command list, `MoveTypeCustom` changes nothing but the fields named
here, so it executes no command. Without `repeat` it clears `move_failed` and
`move_route_overwritten`, restores the saved move frequency, takes the character
out of the pending-move registry and resets `stop_count`; with `repeat` it clears
`move_failed`, sets the index to 0 and `move_route_repeated`, and the route stays
forced. -/
theorem MoveTypeCustom_route_end (env : Game_Map) (c : Game_Character)
    (hstop : IsStopping c = true) (hforced : c.move_route_overwritten = true)
    (hend : (c.move_route.move_commands.length : Int) ≤ c.move_route_index) :
    (c.move_route.repeat_ = false →
        MoveTypeCustom env c =
          { c with move_failed := false, move_route_overwritten := false,
                   move_frequency := c.original_move_frequency,
                   pending_moves := c.pending_moves.filter (fun i => i != c.self_id),
                   stop_count := 0 }
        ∧ c.self_id ∉ (MoveTypeCustom env c).pending_moves)
      ∧ (c.move_route.repeat_ = true →
        MoveTypeCustom env c =
          { c with move_failed := false, move_route_repeated := true, move_route_index := 0 }
        ∧ (MoveTypeCustom env c).move_route_overwritten = true) := by
  have hnot : index_in_route c.move_route c.move_route_index = false := by
    simp only [index_in_route, decide_eq_false_iff_not]
    omega
  constructor
  · intro hrep
    have e : MoveTypeCustom env c =
        { c with move_failed := false, move_route_overwritten := false,
                 move_frequency := c.original_move_frequency,
                 pending_moves := c.pending_moves.filter (fun i => i != c.self_id),
                 stop_count := 0 } := by
      simp [MoveTypeCustom, MoveTypeCustom_body, active_route, active_route_index, hstop,
        hforced, hnot, hrep, RemovePendingMove, CancelMoveRoute]
    rw [e]
    exact ⟨rfl, by simp [List.mem_filter]⟩
  · intro hrep
    have e : MoveTypeCustom env c =
        { c with move_failed := false, move_route_repeated := true, move_route_index := 0 } := by
      simp [MoveTypeCustom, MoveTypeCustom_body, active_route, active_route_index, hstop,
        hforced, hnot, hrep]
    rw [e]
    exact ⟨rfl, hforced⟩

theorem MoveTypeCustom_route_end_witness :
    (MoveTypeCustom env_open event_33_forced).move_route_overwritten = false
      ∧ (MoveTypeCustom env_open event_33_forced).move_frequency = 3
      ∧ event_33_forced.self_id ∉ (MoveTypeCustom env_open event_33_forced).pending_moves
      ∧ (MoveTypeCustom env_open event_33_forced).stop_count = 0
      ∧ (MoveTypeCustom env_open event_33_looping).move_route_index = 0
      ∧ (MoveTypeCustom env_open event_33_looping).move_route_repeated = true
      ∧ (MoveTypeCustom env_open event_33_looping).move_route_overwritten = true := by
  have h1 := (MoveTypeCustom_route_end env_open event_33_forced (by decide) rfl
    (by decide)).1 rfl
  have h2 := (MoveTypeCustom_route_end env_open event_33_looping (by decide) rfl
    (by decide)).2 rfl
  refine ⟨?_, ?_, h1.2, ?_, ?_, ?_, h2.2⟩
  · rw [h1.1]
  · rw [h1.1]; rfl
  · rw [h1.1]
  · rw [h2.1]
  · rw [h2.1]

/-! ## The jump command -/

theorem JumpAccum_refl (c : Game_Character) : JumpAccum c c :=
  ⟨c.direction, c.sprite_direction, c.jump_plus_x, c.jump_plus_y, c.rand_calls, rfl⟩

theorem JumpAccum.trans {a b c : Game_Character} (h1 : JumpAccum a b) (h2 : JumpAccum b c) :
    JumpAccum a c := by
  obtain ⟨d, sd, px, py, n, rfl⟩ := h1
  obtain ⟨d2, sd2, px2, py2, n2, rfl⟩ := h2
  exact ⟨d2, sd2, px2, py2, n2, rfl⟩

theorem JumpAccum.jumping {a b : Game_Character} (h : JumpAccum a b) : b.jumping = a.jumping := by
  obtain ⟨d, sd, px, py, n, rfl⟩ := h; rfl

theorem JumpAccum.move_failed {a b : Game_Character} (h : JumpAccum a b) :
    b.move_failed = a.move_failed := by
  obtain ⟨d, sd, px, py, n, rfl⟩ := h; rfl

theorem Move_accum (env : Game_Map) (c : Game_Character) (dir : Int) (h : c.jumping = true) :
    JumpAccum c (Move env c dir) := by
  rw [Move_jumping env c dir h]
  exact ⟨_, _, _, _, _, rfl⟩

theorem rand_advance_accum (c : Game_Character) : JumpAccum c (rand_advance c) :=
  ⟨_, _, _, _, _, rfl⟩

theorem Move_twice_accum (env : Game_Map) (c : Game_Character) (d1 d2 : Int) (p : Prop)
    [Decidable p] (h : c.jumping = true) :
    JumpAccum c (if p then Move env (Move env c d1) d2 else Move env c d1) := by
  have h1 := Move_accum env c d1 h
  split
  · exact h1.trans (Move_accum env _ d2 (by rw [h1.jumping, h]))
  · exact h1

theorem MoveTowardsPlayer_accum (env : Game_Map) (c : Game_Character) (h : c.jumping = true) :
    JumpAccum c (MoveTowardsPlayer env c) := by
  unfold MoveTowardsPlayer
  simp only []
  split
  · split
    · exact Move_twice_accum env c _ _ _ h
    · exact Move_twice_accum env c _ _ _ h
  · exact JumpAccum_refl c

theorem MoveAwayFromPlayer_accum (env : Game_Map) (c : Game_Character) (h : c.jumping = true) :
    JumpAccum c (MoveAwayFromPlayer env c) := by
  unfold MoveAwayFromPlayer
  simp only []
  split
  · split
    · exact Move_twice_accum env c _ _ _ h
    · exact Move_twice_accum env c _ _ _ h
  · exact JumpAccum_refl c

theorem BeginJump_step_accum (env : Game_Map) (c : Game_Character) (m : MoveCommand)
    (h : c.jumping = true) : JumpAccum c (BeginJump_step env c m) := by
  unfold BeginJump_step
  simp only []
  split_ifs
  · exact Move_accum env c _ h
  · exact (rand_advance_accum c).trans (Move_accum env _ _ (by simpa [rand_advance] using h))
  · exact MoveTowardsPlayer_accum env c h
  · exact MoveAwayFromPlayer_accum env c h
  · exact Move_accum env c _ h
  · exact JumpAccum_refl c

theorem BeginJump_scan_accum (env : Game_Map) (cmds : List MoveCommand) :
    ∀ (i : Int) (c : Game_Character), c.jumping = true →
      JumpAccum c (BeginJump_scan env cmds i c).2.2 := by
  induction cmds with
  | nil => intro i c _; exact JumpAccum_refl c
  | cons m rest ih =>
    intro i c h
    have h1 := BeginJump_step_accum env c m h
    unfold BeginJump_scan
    simp only []
    split
    · exact h1
    · exact h1.trans (ih _ _ (by rw [h1.jumping, h]))

theorem BeginJump_step_of_not_move (env : Game_Map) (c : Game_Character) (m : MoveCommand)
    (h : m.command_id < 0 ∨ 11 < m.command_id) : BeginJump_step env c m = c := by
  unfold BeginJump_step
  simp only [Code.move_up, Code.move_right, Code.move_down, Code.move_left,
    Code.move_upright, Code.move_downright, Code.move_downleft, Code.move_upleft,
    Code.move_random, Code.move_towards_hero, Code.move_away_from_hero, Code.move_forward]
  split_ifs <;> first | rfl | (exfalso; omega)

theorem BeginJump_step_directional (env : Game_Map) (c : Game_Character) (m : MoveCommand)
    (h : 0 ≤ m.command_id ∧ m.command_id ≤ 7) :
    BeginJump_step env c m = Move env c m.command_id := by
  unfold BeginJump_step
  simp only [Code.move_up, Code.move_right, Code.move_down, Code.move_left,
    Code.move_upright, Code.move_downright, Code.move_downleft, Code.move_upleft,
    Code.move_random, Code.move_towards_hero, Code.move_away_from_hero, Code.move_forward]
  split_ifs with h1
  · rfl
  all_goals (exfalso; omega)

theorem BeginJump_scan_append (env : Game_Map) (mid rest : List MoveCommand)
    (hmid : ∀ m ∈ mid, m.command_id ≠ Code.end_jump) :
    ∀ (i : Int) (c : Game_Character),
      BeginJump_scan env (mid ++ rest) i c
        = BeginJump_scan env rest (i + mid.length) (mid.foldl (BeginJump_step env) c) := by
  induction mid with
  | nil => intro i c; simp
  | cons m mid ih =>
    intro i c
    have hm : m.command_id ≠ Code.end_jump := hmid m (List.mem_cons_self _ _)
    have ih2 := ih (fun x hx => hmid x (List.mem_cons_of_mem _ hx)) (i + 1) (BeginJump_step env c m)
    have e1 : BeginJump_scan env (m :: (mid ++ rest)) i c
        = BeginJump_scan env (mid ++ rest) (i + 1) (BeginJump_step env c m) := by
      simp only [BeginJump_scan, hm, if_false]
    have e2 : i + 1 + (mid.length : Int) = i + ((m :: mid).length : Int) := by
      simp only [List.length_cons]; push_cast; ring
    rw [List.cons_append, e1, ih2, List.foldl_cons, e2]

theorem BeginJump_scan_end (env : Game_Map) (e : MoveCommand) (post : List MoveCommand)
    (he : e.command_id = Code.end_jump) (i : Int) (c : Game_Character) :
    BeginJump_scan env (e :: post) i c = (true, i, c) := by
  simp only [BeginJump_scan, he, if_true]
  rw [BeginJump_step_of_not_move env c e (by rw [he]; right; decide)]

theorem BeginJump_scan_no_end (env : Game_Map) (cmds : List MoveCommand)
    (h : ∀ m ∈ cmds, m.command_id ≠ Code.end_jump) (i : Int) (c : Game_Character) :
    BeginJump_scan env cmds i c
      = (false, i + cmds.length, cmds.foldl (BeginJump_step env) c) := by
  have := BeginJump_scan_append env cmds [] h i c
  simpa [BeginJump_scan] using this

theorem commands_from_append (route : MoveRoute) (pre rest : List MoveCommand)
    (h : route.move_commands = pre ++ rest) :
    commands_from route pre.length = rest := by
  unfold commands_from
  have : ¬ ((pre.length : Int) < 0) := by omega
  simp [this, h]

/-- The scan of `BeginJump` for a route whose first `end_jump` at or after the
index of the `begin_jump` is known. -/
theorem BeginJump_scanned_found (env : Game_Map) (route : MoveRoute)
    (pre mid post : List MoveCommand) (e : MoveCommand) (c : Game_Character)
    (hroute : route.move_commands = pre ++ (mid ++ e :: post))
    (hmid : ∀ m ∈ mid, m.command_id ≠ Code.end_jump)
    (he : e.command_id = Code.end_jump) :
    BeginJump_scanned env route pre.length c
      = (true, (pre.length : Int) + mid.length,
          mid.foldl (BeginJump_step env) (jump_start c)) := by
  unfold BeginJump_scanned
  rw [commands_from_append route pre _ hroute, BeginJump_scan_append env mid _ hmid,
    BeginJump_scan_end env e post he]

theorem BeginJump_scanned_accum (env : Game_Map) (route : MoveRoute) (i : Int)
    (c : Game_Character) :
    JumpAccum (jump_start c) (BeginJump_scanned env route i c).2.2 :=
  BeginJump_scan_accum env _ _ _ rfl

theorem foldl_step_directional (env : Game_Map) (ms : List MoveCommand)
    (hms : ∀ m ∈ ms, 0 ≤ m.command_id ∧ m.command_id ≤ 7) :
    ∀ c : Game_Character, ms.foldl (BeginJump_step env) c = moves_applied env ms c := by
  induction ms with
  | nil => intro c; rfl
  | cons m ms ih =>
    intro c
    simp only [List.foldl_cons, moves_applied]
    rw [BeginJump_step_directional env c m (hms m (List.mem_cons_self _ _)),
      ih (fun x hx => hms x (List.mem_cons_of_mem _ hx))]
    rfl

theorem moves_applied_jump_plus (env : Game_Map) (ms : List MoveCommand)
    (hms : ∀ m ∈ ms, 0 ≤ m.command_id ∧ m.command_id ≤ 7) :
    ∀ c : Game_Character, c.jumping = true →
      (moves_applied env ms c).jump_plus_x = c.jump_plus_x + (displacement ms).1
      ∧ (moves_applied env ms c).jump_plus_y = c.jump_plus_y + (displacement ms).2 := by
  induction ms with
  | nil => intro c _; simp [moves_applied, displacement]
  | cons m ms ih =>
    intro c hj
    have hm := hms m (List.mem_cons_self _ _)
    have hv := step_unit_vector m.command_id hm.1 hm.2
    have h1 := Move_jumping env c m.command_id hj
    have ih2 := ih (fun x hx => hms x (List.mem_cons_of_mem _ hx)) (Move env c m.command_id)
      (by rw [(Move_accum env c _ hj).jumping, hj])
    have e : moves_applied env (m :: ms) c = moves_applied env ms (Move env c m.command_id) := rfl
    rw [e, ih2.1, ih2.2, h1]
    simp only [displacement, List.map_cons, List.sum_cons, ← hv]
    constructor <;> ring

theorem JumpAccum.fields {a b : Game_Character} (h : JumpAccum a b) :
    b.x = a.x ∧ b.y = a.y ∧ b.remaining_step = a.remaining_step ∧ b.jump_x = a.jump_x
      ∧ b.jump_y = a.jump_y ∧ b.move_frequency = a.move_frequency
      ∧ b.stop_count = a.stop_count ∧ b.move_speed = a.move_speed := by
  obtain ⟨d, sd, px, py, n, rfl⟩ := h
  exact ⟨rfl, rfl, rfl, rfl, rfl, rfl, rfl, rfl⟩

theorem BeginJump_of_found (env : Game_Map) (route : MoveRoute) (i idx : Int)
    (c c1 : Game_Character) (h : BeginJump_scanned env route i c = (true, idx, c1)) :
    BeginJump env route i c =
      if ¬ (c1.jump_plus_x = 0 ∧ c1.jump_plus_y = 0)
          ∧ IsLandable env (jump_landing env c1) (jump_target_x env c1) (jump_target_y env c1)
              = false then
        (if route.skippable then idx else i,
          { jump_landing env c1 with move_failed := true, jumping := false })
      else
        (idx, { jump_landing env c1 with
                  x := jump_target_x env c1, y := jump_target_y env c1,
                  remaining_step := SCREEN_TILE_WIDTH, stop_count := 0,
                  max_stop_count := stop_count_limit 9 c1.move_frequency,
                  move_failed := false }) := by
  unfold BeginJump
  simp only [h, Bool.not_true, Bool.false_eq_true, if_false]
  have e1 : (jump_landing env c1).jump_plus_x = c1.jump_plus_x := rfl
  have e2 : (jump_landing env c1).jump_plus_y = c1.jump_plus_y := rfl
  rw [e1, e2]
  split_ifs <;> rfl

theorem BeginJump_of_not_found (env : Game_Map) (route : MoveRoute) (i idx : Int)
    (c c1 : Game_Character) (h : BeginJump_scanned env route i c = (false, idx, c1)) :
    BeginJump env route i c = (idx, { c1 with jumping := false }) := by
  unfold BeginJump
  simp only [h, Bool.not_false, if_true]

theorem jump_wrap_diff (loops : Bool) (size origin new : Int) :
    (jump_wrap loops size origin new).2 - (jump_wrap loops size origin new).1 = new - origin := by
  unfold jump_wrap
  split_ifs <;> simp

theorem jump_landing_not_looping (env : Game_Map) (c1 : Game_Character)
    (h : env.loop_horizontal = false ∧ env.loop_vertical = false) :
    jump_landing env c1 = c1
      ∧ jump_target_x env c1 = c1.jump_x + c1.jump_plus_x
      ∧ jump_target_y env c1 = c1.jump_y + c1.jump_plus_y := by
  refine ⟨?_, ?_, ?_⟩
  · simp only [jump_landing, jump_wrap, h.1, h.2, Bool.false_eq_true, if_false]
  · simp only [jump_target_x, jump_wrap, h.1, Bool.false_eq_true, if_false]
  · simp only [jump_target_y, jump_wrap, h.2, Bool.false_eq_true, if_false]

theorem BeginJump_step_begin (env : Game_Map) (c : Game_Character) (b : MoveCommand)
    (hb : b.command_id = Code.begin_jump) : BeginJump_step env c b = c :=
  BeginJump_step_of_not_move env c b (by rw [hb]; right; decide)

/-- C14. On a map that does not loop, `BeginJump` at a `begin_jump` followed by
directional move commands `ms` and an `end_jump` succeeds when the displacement of
`ms` is zero or the target cell is landable for the character as the scan left
it: the character is put on the start cell plus the displacement, the jump
origin is the start cell, `jumping` is set, `remaining_step` is 256, `move_failed`
is cleared, `stop_count` is reset and the route index is the position of the
`end_jump`. -/
theorem BeginJump_lands (env : Game_Map) (route : MoveRoute) (c : Game_Character)
    (pre ms post : List MoveCommand) (b e : MoveCommand)
    (hroute : route.move_commands = pre ++ (b :: ms ++ e :: post))
    (hb : b.command_id = Code.begin_jump) (he : e.command_id = Code.end_jump)
    (hms : ∀ m ∈ ms, 0 ≤ m.command_id ∧ m.command_id ≤ 7)
    (hloop : env.loop_horizontal = false ∧ env.loop_vertical = false)
    (hland : displacement ms = (0, 0)
      ∨ IsLandable env (moves_applied env ms (jump_start c)) (c.x + (displacement ms).1)
          (c.y + (displacement ms).2) = true) :
    (BeginJump env route pre.length c).1 = pre.length + ms.length + 1
      ∧ route.move_commands[pre.length + ms.length + 1]? = some e
      ∧ (BeginJump env route pre.length c).2.x = c.x + (displacement ms).1
      ∧ (BeginJump env route pre.length c).2.y = c.y + (displacement ms).2
      ∧ (BeginJump env route pre.length c).2.jump_x = c.x
      ∧ (BeginJump env route pre.length c).2.jump_y = c.y
      ∧ (BeginJump env route pre.length c).2.jumping = true
      ∧ (BeginJump env route pre.length c).2.remaining_step = 256
      ∧ (BeginJump env route pre.length c).2.move_failed = false
      ∧ (BeginJump env route pre.length c).2.stop_count = 0 := by
  have hmid : ∀ m ∈ b :: ms, m.command_id ≠ Code.end_jump := by
    intro m hm
    rcases List.mem_cons.1 hm with rfl | hm
    · exact fun h => absurd (hb.symm.trans h) (by decide)
    · intro h
      have h7 := (hms m hm).2
      rw [h] at h7
      exact absurd h7 (by decide)
  have hscan := BeginJump_scanned_found env route pre (b :: ms) post e c
    hroute hmid he
  rw [List.foldl_cons, BeginJump_step_begin env _ b hb, foldl_step_directional env ms hms]
    at hscan
  have hacc : JumpAccum (jump_start c) (moves_applied env ms (jump_start c)) := by
    have := BeginJump_scanned_accum env route pre.length c
    rw [hscan] at this; exact this
  obtain ⟨hx, hy, hr, hjx, hjy, hf, hsc, hsp⟩ := hacc.fields
  have hjump := hacc.jumping
  obtain ⟨hpx, hpy⟩ := moves_applied_jump_plus env ms hms (jump_start c) rfl
  obtain ⟨hl1, hl2, hl3⟩ := jump_landing_not_looping env (moves_applied env ms (jump_start c)) hloop
  have hget : route.move_commands[pre.length + ms.length + 1]? = some e := by
    have e1 : pre ++ (b :: ms ++ e :: post) = (pre ++ b :: ms) ++ e :: post := by simp
    have e2 : (pre ++ b :: ms).length = pre.length + ms.length + 1 := by
      simp only [List.length_append, List.length_cons]; omega
    rw [hroute, e1, List.getElem?_append_right (by omega), e2]
    simp
  have hnofail : ¬ (¬ ((moves_applied env ms (jump_start c)).jump_plus_x = 0
        ∧ (moves_applied env ms (jump_start c)).jump_plus_y = 0)
      ∧ IsLandable env (jump_landing env (moves_applied env ms (jump_start c)))
          (jump_target_x env (moves_applied env ms (jump_start c)))
          (jump_target_y env (moves_applied env ms (jump_start c))) = false) := by
    rintro ⟨hne, hnl⟩
    have j1 : (jump_start c).jump_x = c.x := rfl
    have j2 : (jump_start c).jump_y = c.y := rfl
    have j3 : (jump_start c).jump_plus_x = 0 := rfl
    have j4 : (jump_start c).jump_plus_y = 0 := rfl
    rw [hl1, hl2, hl3, hjx, hjy, hpx, hpy, j1, j2, j3, j4, zero_add, zero_add] at hnl
    rw [hpx, hpy, j3, j4, zero_add, zero_add] at hne
    rcases hland with h0 | hL
    · apply hne
      rw [h0]; exact ⟨rfl, rfl⟩
    · rw [hL] at hnl; exact absurd hnl (by decide)
  rw [BeginJump_of_found env route _ _ c _ hscan, if_neg hnofail]
  refine ⟨?_, hget, ?_, ?_, ?_, ?_, ?_, rfl, rfl, rfl⟩
  · simp only [List.length_cons]; push_cast; ring
  · show jump_target_x env _ = _
    rw [hl2, hjx, hpx]; simp only [jump_start, zero_add]
  · show jump_target_y env _ = _
    rw [hl3, hjy, hpy]; simp only [jump_start, zero_add]
  · exact (congrArg Game_Character.jump_x hl1).trans hjx
  · exact (congrArg Game_Character.jump_y hl1).trans hjy
  · exact (congrArg Game_Character.jumping hl1).trans hjump

theorem BeginJump_lands_witness :
    (BeginJump env_open jump_route 0 event_55).1 = 3
      ∧ jump_route.move_commands[3]? = some (command Code.end_jump)
      ∧ (BeginJump env_open jump_route 0 event_55).2.x = 7
      ∧ (BeginJump env_open jump_route 0 event_55).2.y = 5
      ∧ (BeginJump env_open jump_route 0 event_55).2.jump_x = 5
      ∧ (BeginJump env_open jump_route 0 event_55).2.jump_y = 5
      ∧ (BeginJump env_open jump_route 0 event_55).2.jumping = true
      ∧ (BeginJump env_open jump_route 0 event_55).2.remaining_step = 256
      ∧ (BeginJump env_open jump_route 0 event_55).2.move_failed = false
      ∧ (BeginJump env_open jump_route 0 event_55).2.stop_count = 0 :=
  BeginJump_lands env_open jump_route event_55 [] [command Code.move_right, command Code.move_right]
    [] (command Code.begin_jump) (command Code.end_jump) rfl rfl rfl (by decide) (by decide)
    (Or.inr (by decide))

/-! ## The interpreter loop -/

theorem MoveTypeCustom_loop_succ (env : Game_Map) (route : MoveRoute) (fuel : Nat) (i : Int)
    (c : Game_Character) (cmd : MoveCommand)
    (hin : index_in_route route i = true) (hstop : IsStopping c = true)
    (hw : c.wait_count ≤ 0) (hs : c.max_stop_count ≤ c.stop_count)
    (hcmd : route.move_commands[i.toNat]? = some cmd) :
    MoveTypeCustom_loop env route (fuel + 1) i c =
      if (MoveTypeCustom_command env route cmd i c).2.move_failed = true then
        (if route.skippable then (MoveTypeCustom_command env route cmd i c).1 + 1
          else (MoveTypeCustom_command env route cmd i c).1,
         (MoveTypeCustom_command env route cmd i c).2)
      else MoveTypeCustom_loop env route fuel ((MoveTypeCustom_command env route cmd i c).1 + 1)
        (MoveTypeCustom_command env route cmd i c).2 := by
  have h1 : ¬ (c.wait_count > 0) := by omega
  have h2 : ¬ (c.stop_count < c.max_stop_count) := by omega
  rw [MoveTypeCustom_loop]
  simp only [hin, hstop, h1, h2, hcmd, Bool.not_true, Bool.false_eq_true, if_false, or_self]

theorem MoveTypeCustom_loop_out (env : Game_Map) (route : MoveRoute) (fuel : Nat) (i : Int)
    (c : Game_Character) (hin : index_in_route route i = false) :
    MoveTypeCustom_loop env route fuel i c = (i, c) := by
  cases fuel with
  | zero => rfl
  | succ n => rw [MoveTypeCustom_loop]; simp [hin]

theorem getElem?_middle (pre post : List MoveCommand) (b : MoveCommand) :
    (pre ++ b :: post)[((pre.length : Nat) : Int).toNat]? = some b := by
  rw [Int.toNat_ofNat, List.getElem?_append_right (le_refl _)]
  simp

theorem index_in_route_middle (route : MoveRoute) (pre post : List MoveCommand)
    (b : MoveCommand) (h : route.move_commands = pre ++ b :: post) :
    index_in_route route pre.length = true := by
  simp [index_in_route, h]

theorem MoveTypeCustom_command_begin (env : Game_Map) (route : MoveRoute) (b : MoveCommand)
    (i : Int) (c : Game_Character) (hb : b.command_id = Code.begin_jump) :
    MoveTypeCustom_command env route b i c = BeginJump env route i c := by
  simp [MoveTypeCustom_command, hb]

/-- C15. For a `begin_jump` whose first `end_jump` lies `mid.length + 1` commands
further, `BeginJump` leaves `move_failed` set exactly when the accumulated
displacement is non-zero and the wrapped target cell is not landable. On failure
`x`, `y` and `remaining_step` are unchanged, `jumping` is false, `BeginJump`
returns the position of the `end_jump` for a skippable route and the position of
the `begin_jump` otherwise, and the interpreter loop stops with the index past
the `end_jump` for a skippable route and at the `begin_jump` otherwise. -/
theorem BeginJump_fails_iff (env : Game_Map) (route : MoveRoute) (c : Game_Character)
    (pre mid post : List MoveCommand) (b e : MoveCommand)
    (hroute : route.move_commands = pre ++ (b :: mid ++ e :: post))
    (hb : b.command_id = Code.begin_jump) (he : e.command_id = Code.end_jump)
    (hmid : ∀ m ∈ mid, m.command_id ≠ Code.end_jump) :
    ((BeginJump env route pre.length c).2.move_failed = true ↔
        ¬ ((BeginJump_scanned env route pre.length c).2.2.jump_plus_x = 0
            ∧ (BeginJump_scanned env route pre.length c).2.2.jump_plus_y = 0)
        ∧ IsLandable env (jump_landing env (BeginJump_scanned env route pre.length c).2.2)
            (jump_target_x env (BeginJump_scanned env route pre.length c).2.2)
            (jump_target_y env (BeginJump_scanned env route pre.length c).2.2) = false)
      ∧ ((BeginJump env route pre.length c).2.move_failed = true →
          (BeginJump env route pre.length c).2.x = c.x
          ∧ (BeginJump env route pre.length c).2.y = c.y
          ∧ (BeginJump env route pre.length c).2.remaining_step = c.remaining_step
          ∧ (BeginJump env route pre.length c).2.jumping = false
          ∧ (BeginJump env route pre.length c).1
              = if route.skippable then (pre.length : Int) + mid.length + 1 else pre.length)
      ∧ (∀ fuel : Nat, IsStopping c = true → c.wait_count ≤ 0 →
          c.max_stop_count ≤ c.stop_count →
          (BeginJump env route pre.length c).2.move_failed = true →
          MoveTypeCustom_loop env route (fuel + 1) pre.length c
            = (if route.skippable then (pre.length : Int) + mid.length + 2 else pre.length,
               (BeginJump env route pre.length c).2)) := by
  have hmid2 : ∀ m ∈ b :: mid, m.command_id ≠ Code.end_jump := by
    intro m hm
    rcases List.mem_cons.1 hm with rfl | hm
    · exact fun h => absurd (hb.symm.trans h) (by decide)
    · exact hmid m hm
  have hscan := BeginJump_scanned_found env route pre (b :: mid) post e c hroute hmid2 he
  have hacc := BeginJump_scanned_accum env route pre.length c
  generalize hS : (b :: mid).foldl (BeginJump_step env) (jump_start c) = S at hscan
  rw [hscan] at hacc ⊢
  simp only [] at hacc ⊢
  obtain ⟨hx, hy, hr, hjx, hjy, hf, hsc, hsp⟩ := hacc.fields
  have hB := BeginJump_of_found env route _ _ c _ hscan
  have hlen : ((pre.length : Int) + ((b :: mid).length : Int)) = pre.length + mid.length + 1 := by
    simp only [List.length_cons]; push_cast; ring
  by_cases hfail : ¬ (S.jump_plus_x = 0 ∧ S.jump_plus_y = 0)
      ∧ IsLandable env (jump_landing env S) (jump_target_x env S) (jump_target_y env S) = false
  · rw [if_pos hfail] at hB
    have hidx : (BeginJump env route pre.length c).1
        = if route.skippable then (pre.length : Int) + mid.length + 1 else pre.length := by
      rw [hB, hlen]
    have hmf : (BeginJump env route pre.length c).2.move_failed = true := by rw [hB]
    refine ⟨⟨fun _ => hfail, fun _ => hmf⟩, fun _ => ⟨?_, ?_, ?_, ?_, hidx⟩, ?_⟩
    · rw [hB]; exact hx
    · rw [hB]; exact hy
    · rw [hB]; exact hr
    · rw [hB]
    · intro fuel hstop hw hs _
      rw [MoveTypeCustom_loop_succ env route fuel pre.length c b
        (index_in_route_middle route pre _ b hroute) hstop hw hs
        (by rw [hroute]; exact getElem?_middle pre _ b),
        MoveTypeCustom_command_begin env route b _ c hb, if_pos hmf, hidx]
      split_ifs
      · congr 1
      · rfl
  · rw [if_neg hfail] at hB
    have hmf : (BeginJump env route pre.length c).2.move_failed = false := by rw [hB]
    refine ⟨⟨fun h => ?_, fun h => absurd h hfail⟩, fun h => ?_, fun _ _ _ _ h => ?_⟩ <;>
      (rw [hmf] at h; exact absurd h (by decide))

/-- C16. For a `begin_jump` with no `end_jump` at or after it, `BeginJump` returns
the length of the command list as the route index and the state the scan of
exactly the commands from the `begin_jump` to the end of the list leaves, with
`jumping` cleared: `x`, `y` and `remaining_step` are unchanged and the index is
outside the route. The interpreter loop ends in that state with an index at or
past the length of the list, so the route counts as ended on the next call. -/
theorem BeginJump_without_end (env : Game_Map) (route : MoveRoute) (c : Game_Character)
    (pre rest : List MoveCommand) (b : MoveCommand)
    (hroute : route.move_commands = pre ++ b :: rest)
    (hb : b.command_id = Code.begin_jump)
    (hno : ∀ m ∈ rest, m.command_id ≠ Code.end_jump) :
    BeginJump env route pre.length c
        = ((route.move_commands.length : Int),
            { (b :: rest).foldl (BeginJump_step env) (jump_start c) with jumping := false })
      ∧ (BeginJump env route pre.length c).2.x = c.x
      ∧ (BeginJump env route pre.length c).2.y = c.y
      ∧ (BeginJump env route pre.length c).2.remaining_step = c.remaining_step
      ∧ (BeginJump env route pre.length c).2.jumping = false
      ∧ index_in_route route (BeginJump env route pre.length c).1 = false
      ∧ (∀ fuel : Nat, IsStopping c = true → c.wait_count ≤ 0 →
          c.max_stop_count ≤ c.stop_count →
          (MoveTypeCustom_loop env route (fuel + 1) pre.length c).2
              = (BeginJump env route pre.length c).2
            ∧ (route.move_commands.length : Int)
                ≤ (MoveTypeCustom_loop env route (fuel + 1) pre.length c).1
            ∧ index_in_route route (MoveTypeCustom_loop env route (fuel + 1) pre.length c).1
                = false) := by
  have hno2 : ∀ m ∈ b :: rest, m.command_id ≠ Code.end_jump := by
    intro m hm
    rcases List.mem_cons.1 hm with rfl | hm
    · exact fun h => absurd (hb.symm.trans h) (by decide)
    · exact hno m hm
  have hscan : BeginJump_scanned env route pre.length c
      = (false, (route.move_commands.length : Int),
          (b :: rest).foldl (BeginJump_step env) (jump_start c)) := by
    unfold BeginJump_scanned
    rw [commands_from_append route pre _ hroute, BeginJump_scan_no_end env _ hno2, hroute]
    simp only [List.length_append, List.length_cons]
    push_cast
    rfl
  have hacc := BeginJump_scanned_accum env route pre.length c
  generalize hS : (b :: rest).foldl (BeginJump_step env) (jump_start c) = S at hscan
  rw [hscan] at hacc
  simp only [] at hacc
  obtain ⟨hx, hy, hr, hjx, hjy, hf, hsc, hsp⟩ := hacc.fields
  have hB := BeginJump_of_not_found env route _ _ c _ hscan
  have hout : ∀ k : Int, (route.move_commands.length : Int) ≤ k →
      index_in_route route k = false := by
    intro k hk
    simp only [index_in_route, decide_eq_false_iff_not]
    omega
  rw [hB]
  refine ⟨rfl, hx, hy, hr, rfl, hout _ (le_refl _), ?_⟩
  intro fuel hstop hw hs
  rw [MoveTypeCustom_loop_succ env route fuel pre.length c b
    (index_in_route_middle route pre _ b hroute) hstop hw hs
    (by rw [hroute]; exact getElem?_middle pre _ b),
    MoveTypeCustom_command_begin env route b _ c hb, hB]
  simp only []
  split_ifs
  · exact ⟨rfl, by omega, hout _ (by omega)⟩
  · exact ⟨rfl, le_refl _, hout _ (le_refl _)⟩
  · rw [MoveTypeCustom_loop_out env route fuel _ _ (hout _ (by omega))]
    exact ⟨rfl, by simp, hout _ (by omega)⟩

theorem BeginJump_fails_iff_witness :
    (BeginJump env_blocked jump_route 0 event_55).2.move_failed = true
      ∧ ((BeginJump env_blocked jump_route 0 event_55).2.x = 5
          ∧ (BeginJump env_blocked jump_route 0 event_55).2.y = 5
          ∧ (BeginJump env_blocked jump_route 0 event_55).2.remaining_step = 0
          ∧ (BeginJump env_blocked jump_route 0 event_55).2.jumping = false
          ∧ (BeginJump env_blocked jump_route 0 event_55).1 = 0)
      ∧ (MoveTypeCustom_loop env_blocked jump_route_skippable 1 0 event_55).1 = 4 := by
  have h := BeginJump_fails_iff env_blocked jump_route event_55 []
    [command Code.move_right, command Code.move_right] [] (command Code.begin_jump)
    (command Code.end_jump) rfl rfl rfl (by decide)
  have h2 := BeginJump_fails_iff env_blocked jump_route_skippable event_55 []
    [command Code.move_right, command Code.move_right] [] (command Code.begin_jump)
    (command Code.end_jump) rfl rfl rfl (by decide)
  have hf := h.1.2 (by decide)
  have hf2 := h2.1.2 (by decide)
  refine ⟨hf, h.2.1 hf, ?_⟩
  have h3 := h2.2.2 0 (by decide) (by decide) (by decide) hf2
  exact congrArg Prod.fst h3

theorem BeginJump_without_end_witness :
    (BeginJump env_open jump_route_open 0 event_55).1 = 3
      ∧ (BeginJump env_open jump_route_open 0 event_55).2.x = 5
      ∧ (BeginJump env_open jump_route_open 0 event_55).2.y = 5
      ∧ (BeginJump env_open jump_route_open 0 event_55).2.remaining_step = 0
      ∧ (BeginJump env_open jump_route_open 0 event_55).2.jumping = false
      ∧ index_in_route jump_route_open (BeginJump env_open jump_route_open 0 event_55).1
          = false := by
  have h := BeginJump_without_end env_open jump_route_open event_55 []
    [command Code.move_right, command Code.move_right] (command Code.begin_jump) rfl rfl
    (by decide)
  exact ⟨congrArg Prod.fst h.1, h.2.1, h.2.2.1, h.2.2.2.1, h.2.2.2.2.1, h.2.2.2.2.2.1⟩

theorem BeginJump_jumping_iff (env : Game_Map) (route : MoveRoute) (i : Int)
    (c : Game_Character) (h : (BeginJump env route i c).2.jumping = true) :
    (BeginJump env route i c).2.x - (BeginJump env route i c).2.jump_x
        = (BeginJump env route i c).2.jump_plus_x
      ∧ (BeginJump env route i c).2.y - (BeginJump env route i c).2.jump_y
        = (BeginJump env route i c).2.jump_plus_y
      ∧ (BeginJump env route i c).2.remaining_step = 256
      ∧ (BeginJump env route i c).2.move_failed = false := by
  rcases hscan : BeginJump_scanned env route i c with ⟨found, idx, S⟩
  cases found with
  | false =>
    rw [BeginJump_of_not_found env route i idx c S hscan] at h
    exact absurd h (by simp)
  | true =>
    have hB := BeginJump_of_found env route i idx c S hscan
    by_cases hfail : ¬ (S.jump_plus_x = 0 ∧ S.jump_plus_y = 0)
        ∧ IsLandable env (jump_landing env S) (jump_target_x env S) (jump_target_y env S) = false
    · rw [if_pos hfail] at hB
      rw [hB] at h; exact absurd h (by simp)
    · rw [if_neg hfail] at hB
      rw [hB]
      refine ⟨?_, ?_, rfl, rfl⟩
      · show jump_target_x env S - (jump_landing env S).jump_x = S.jump_plus_x
        have := jump_wrap_diff env.loop_horizontal env.width S.jump_x (S.jump_x + S.jump_plus_x)
        simp only [jump_target_x, jump_landing]
        omega
      · show jump_target_y env S - (jump_landing env S).jump_y = S.jump_plus_y
        have := jump_wrap_diff env.loop_vertical env.height S.jump_y (S.jump_y + S.jump_plus_y)
        simp only [jump_target_y, jump_landing]
        omega

/-- C17. While jumping, `GetRealX` is `x * 256 - (x - jump_x) * remaining_step`
and `GetRealY` likewise, so they are `jump_x * 256` and `jump_y * 256` at
`remaining_step = 256` and `x * 256` and `y * 256` at `remaining_step = 0`; and
after a `BeginJump` that leaves the character jumping, on any map, `x - jump_x` is
the accumulated `jump_plus_x` and `y - jump_y` is `jump_plus_y`, with
`remaining_step = 256`. -/
theorem jump_line (env : Game_Map) (route : MoveRoute) (i : Int) (c : Game_Character) :
    (c.jumping = true →
        GetRealX c = c.x * 256 - (c.x - c.jump_x) * c.remaining_step
        ∧ GetRealY c = c.y * 256 - (c.y - c.jump_y) * c.remaining_step
        ∧ (c.remaining_step = 256 → GetRealX c = c.jump_x * 256 ∧ GetRealY c = c.jump_y * 256)
        ∧ (c.remaining_step = 0 → GetRealX c = c.x * 256 ∧ GetRealY c = c.y * 256))
      ∧ ((BeginJump env route i c).2.jumping = true →
        (BeginJump env route i c).2.x - (BeginJump env route i c).2.jump_x
            = (BeginJump env route i c).2.jump_plus_x
          ∧ (BeginJump env route i c).2.y - (BeginJump env route i c).2.jump_y
            = (BeginJump env route i c).2.jump_plus_y
          ∧ (BeginJump env route i c).2.remaining_step = 256
          ∧ GetRealX (BeginJump env route i c).2 = (BeginJump env route i c).2.jump_x * 256
          ∧ GetRealY (BeginJump env route i c).2 = (BeginJump env route i c).2.jump_y * 256) := by
  have real : ∀ c : Game_Character, c.jumping = true →
      GetRealX c = c.x * 256 - (c.x - c.jump_x) * c.remaining_step
      ∧ GetRealY c = c.y * 256 - (c.y - c.jump_y) * c.remaining_step := by
    intro c hj
    simp [GetRealX, GetRealY, IsMoving, IsJumping, hj]
  constructor
  · intro hj
    obtain ⟨hx, hy⟩ := real c hj
    refine ⟨hx, hy, fun h => ?_, fun h => ?_⟩
    · rw [hx, hy, h]; constructor <;> ring
    · rw [hx, hy, h]; constructor <;> ring
  · intro hj
    obtain ⟨h1, h2, h3, _⟩ := BeginJump_jumping_iff env route i c hj
    obtain ⟨hx, hy⟩ := real _ hj
    refine ⟨h1, h2, h3, ?_, ?_⟩
    · rw [hx, h3]; ring
    · rw [hy, h3]; ring

theorem jump_line_witness :
    GetRealX event_33_jumping = event_33_jumping.jump_x * 256
      ∧ GetRealY event_33_jumping = event_33_jumping.jump_y * 256
      ∧ (BeginJump env_open jump_route 0 event_55).2.x
          - (BeginJump env_open jump_route 0 event_55).2.jump_x = 2
      ∧ GetRealX (BeginJump env_open jump_route 0 event_55).2 = 5 * 256 :=
  ⟨((jump_line env_open jump_route 0 event_33_jumping).1 rfl).2.2.1 rfl |>.1,
   ((jump_line env_open jump_route 0 event_33_jumping).1 rfl).2.2.1 rfl |>.2,
   ((jump_line env_open jump_route 0 event_55).2 (by decide)).1,
   ((jump_line env_open jump_route 0 event_55).2 (by decide)).2.2.2.1⟩

theorem MoveTypeCustom_simple_directional (env : Game_Map) (c : Game_Character)
    (m : MoveCommand) (h : 0 ≤ m.command_id ∧ m.command_id ≤ 7) :
    MoveTypeCustom_simple env m c = Move env c m.command_id := by
  have hd : m.command_id = Code.move_up ∨ m.command_id = Code.move_right
      ∨ m.command_id = Code.move_down ∨ m.command_id = Code.move_left
      ∨ m.command_id = Code.move_upright ∨ m.command_id = Code.move_downright
      ∨ m.command_id = Code.move_downleft ∨ m.command_id = Code.move_upleft := by
    obtain ⟨h0, h7⟩ := h
    generalize m.command_id = k at h0 h7
    interval_cases k <;> decide
  rw [MoveTypeCustom_simple]
  exact if_pos hd

theorem MoveTypeCustom_command_directional (env : Game_Map) (route : MoveRoute)
    (c : Game_Character) (m : MoveCommand) (i : Int)
    (h : 0 ≤ m.command_id ∧ m.command_id ≤ 7) :
    MoveTypeCustom_command env route m i c = (i, Move env c m.command_id) := by
  have hb : m.command_id ≠ Code.begin_jump := by
    intro hb; rw [hb] at h; exact absurd h.2 (by decide)
  simp only [MoveTypeCustom_command, hb, if_false, MoveTypeCustom_simple_directional env c m h]

/-- C13. For a stopping character with `wait_count = 0` and
`stop_count >= max_stop_count` whose active route index points at a directional
move command that is blocked, one `MoveTypeCustom` call yields the state that
`Move` alone gives (after `move_failed` is cleared on entry) with the active index
written back as `i + 1` for a skippable route and `i` otherwise: no further
command runs, `x` and `y` are unchanged and `move_failed` is set. -/
theorem MoveTypeCustom_blocked (env : Game_Map) (c : Game_Character) (m : MoveCommand)
    (hstop : IsStopping c = true) (hw : c.wait_count = 0)
    (hs : c.max_stop_count ≤ c.stop_count)
    (hi : 0 ≤ active_route_index c)
    (hm : (active_route c).move_commands[(active_route_index c).toNat]? = some m)
    (hdir : 0 ≤ m.command_id ∧ m.command_id ≤ 7)
    (hblk : IsPassable env (Move_facing { c with move_failed := false } m.command_id) c.x c.y
      m.command_id = false) :
    MoveTypeCustom env c =
        (if c.move_route_overwritten then
          { Move env { c with move_failed := false } m.command_id with
            move_route_index :=
              if (active_route c).skippable then active_route_index c + 1
              else active_route_index c }
        else
          { Move env { c with move_failed := false } m.command_id with
            original_move_route_index :=
              if (active_route c).skippable then active_route_index c + 1
              else active_route_index c })
      ∧ (MoveTypeCustom env c).x = c.x ∧ (MoveTypeCustom env c).y = c.y
      ∧ (MoveTypeCustom env c).move_failed = true
      ∧ active_route_index (MoveTypeCustom env c)
          = if (active_route c).skippable then active_route_index c + 1
            else active_route_index c := by
  have hlt : (active_route_index c).toNat < (active_route c).move_commands.length := by
    by_contra hge
    rw [List.getElem?_eq_none (by omega)] at hm
    exact absurd hm (by simp)
  have hin : index_in_route (active_route c) (active_route_index c) = true := by
    simp only [index_in_route, decide_eq_true_eq]
    omega
  obtain ⟨n, hn⟩ : ∃ n, (active_route c).move_commands.length = n + 1 :=
    ⟨(active_route c).move_commands.length - 1, by omega⟩
  have hj : c.jumping = false := by
    simp only [IsStopping, IsMoving, IsJumping] at hstop
    cases hc : c.jumping
    · rfl
    · rw [hc] at hstop; simp at hstop
  have hmove := Move_blocked_eq env { c with move_failed := false } m.command_id hj hblk
  have hfail : (Move env { c with move_failed := false } m.command_id).move_failed = true := by
    rw [hmove]; split_ifs <;> rfl
  have hov : (Move env { c with move_failed := false } m.command_id).move_route_overwritten
      = c.move_route_overwritten := by
    rw [hmove]; split_ifs <;> rfl
  have hx : (Move env { c with move_failed := false } m.command_id).x = c.x := by
    rw [hmove]; split_ifs <;> rfl
  have hy : (Move env { c with move_failed := false } m.command_id).y = c.y := by
    rw [hmove]; split_ifs <;> rfl
  have hbody : MoveTypeCustom_body env (active_route c) (active_route_index c) c
      = (if (active_route c).skippable then active_route_index c + 1 else active_route_index c,
          Move env { c with move_failed := false } m.command_id) := by
    unfold MoveTypeCustom_body
    simp only [hin, Bool.not_true, Bool.false_eq_true, if_false, hn]
    rw [MoveTypeCustom_loop_succ env (active_route c) n (active_route_index c)
      { c with move_failed := false } m hin hstop (le_of_eq hw) hs hm,
      MoveTypeCustom_command_directional env _ _ m _ hdir]
    simp only [hfail, if_true]
  generalize Move env { c with move_failed := false } m.command_id = M at hfail hov hx hy hbody ⊢
  generalize (if (active_route c).skippable then active_route_index c + 1
    else active_route_index c) = k at hbody ⊢
  have hres : MoveTypeCustom env c =
      (if c.move_route_overwritten then { M with move_route_index := k }
        else { M with original_move_route_index := k }) := by
    unfold MoveTypeCustom
    simp only [hstop, if_true, hbody, hov, ne_eq, not_true_eq_false, if_false]
  refine ⟨hres, ?_, ?_, ?_, ?_⟩
  · rw [hres]; split_ifs <;> exact hx
  · rw [hres]; split_ifs <;> exact hy
  · rw [hres]; split_ifs <;> exact hfail
  · rw [hres]
    cases hc : c.move_route_overwritten
    · simp only [Bool.false_eq_true, if_false, active_route_index, hov, hc]
    · simp only [if_true, active_route_index, hov, hc]

theorem MoveTypeCustom_blocked_witness :
    (MoveTypeCustom env_blocked event_stepper).x = 3
      ∧ (MoveTypeCustom env_blocked event_stepper).y = 3
      ∧ (MoveTypeCustom env_blocked event_stepper).move_failed = true
      ∧ active_route_index (MoveTypeCustom env_blocked event_stepper) = 1 := by
  have h := MoveTypeCustom_blocked env_blocked event_stepper (command Code.move_up)
    (by decide) rfl (by decide) (by decide) rfl (by decide) (by decide)
  exact ⟨h.2.1, h.2.2.1, h.2.2.2.1, h.2.2.2.2⟩

/-! ## The commands of the interpreter -/

theorem SimpleWrite_refl (c : Game_Character) : SimpleWrite c c :=
  ⟨_, _, _, _, _, _, _, _, _, _, _, _, _, _, _, _, _, _, _, rfl, Or.inl rfl⟩

theorem ite_prop {α : Type} (P : α → Prop) (p : Prop) [Decidable p] (a b : α)
    (ha : P a) (hb : P b) : P (if p then a else b) := by
  split <;> assumption

theorem MoveTypeCustom_effects_write (m : MoveCommand) (c : Game_Character) :
    SimpleWrite c (MoveTypeCustom_effects m c) := by
  rw [MoveTypeCustom_effects]
  repeat' apply ite_prop (SimpleWrite c)
  all_goals exact ⟨_, _, _, _, _, _, _, _, _, _, _, _, _, _, _, _, _, _, _, rfl, Or.inl rfl⟩

theorem MoveTypeCustom_tuning_write (m : MoveCommand) (c : Game_Character) :
    SimpleWrite c (MoveTypeCustom_tuning m c) := by
  rw [MoveTypeCustom_tuning]
  repeat' apply ite_prop (SimpleWrite c)
  all_goals first
    | exact MoveTypeCustom_effects_write m c
    | exact ⟨_, _, _, _, _, _, _, _, _, _, _, _, _, _, _, _, _, _, _, rfl, Or.inl rfl⟩
    | exact ⟨_, _, _, _, _, _, _, _, _, _, _, _, _, _, _, _, _, _, _, rfl, Or.inr (Or.inl rfl)⟩
    | exact ⟨_, _, _, _, _, _, _, _, _, _, _, _, _, _, _, _, _, _, _, rfl, Or.inr (Or.inr rfl)⟩

theorem MoveTypeCustom_facing_write (env : Game_Map) (m : MoveCommand) (c : Game_Character) :
    SimpleWrite c (MoveTypeCustom_facing env m c) := by
  rw [MoveTypeCustom_facing]
  unfold Turn90DegreeLeftOrRight TurnTowardHero TurnAwayFromHero
  repeat' apply ite_prop (SimpleWrite c)
  all_goals first
    | exact MoveTypeCustom_tuning_write m c
    | exact ⟨_, _, _, _, _, _, _, _, _, _, _, _, _, _, _, _, _, _, _, rfl, Or.inl rfl⟩
    | exact ⟨_, _, _, _, _, _, _, _, _, _, _, _, _, _, _, _, _, _, _, rfl, Or.inr (Or.inl rfl)⟩
    | exact ⟨_, _, _, _, _, _, _, _, _, _, _, _, _, _, _, _, _, _, _, rfl, Or.inr (Or.inr rfl)⟩

/-- What one command other than `begin_jump` does: a `Move`, one of the three
movement commands built on it, or writes to the fields listed in `SimpleWrite`. -/
theorem MoveTypeCustom_simple_cases (env : Game_Map) (m : MoveCommand) (c : Game_Character) :
    (∃ d, MoveTypeCustom_simple env m c = Move env c d)
      ∨ MoveTypeCustom_simple env m c = MoveRandom env c
      ∨ MoveTypeCustom_simple env m c = MoveTowardsPlayer env c
      ∨ MoveTypeCustom_simple env m c = MoveAwayFromPlayer env c
      ∨ SimpleWrite c (MoveTypeCustom_simple env m c) := by
  rw [MoveTypeCustom_simple]
  split_ifs
  · exact Or.inl ⟨_, rfl⟩
  · exact Or.inr (Or.inl rfl)
  · exact Or.inr (Or.inr (Or.inl rfl))
  · exact Or.inr (Or.inr (Or.inr (Or.inl rfl)))
  · exact Or.inl ⟨_, rfl⟩
  · exact Or.inr (Or.inr (Or.inr (Or.inr (MoveTypeCustom_facing_write env m c))))

/-! ## Properties kept by every step -/

theorem BeginJump_write (env : Game_Map) (route : MoveRoute) (i : Int) (c : Game_Character) :
    JumpWrite c (BeginJump env route i c).2 := by
  have hacc := BeginJump_scanned_accum env route i c
  rcases hscan : BeginJump_scanned env route i c with ⟨found, idx, S⟩
  rw [hscan] at hacc
  obtain ⟨d, sd, px, py, n, rfl⟩ := hacc
  cases found with
  | false =>
    rw [BeginJump_of_not_found env route i idx c _ hscan]
    exact ⟨_, _, _, _, _, _, _, _, _, _, _, _, _, _, rfl, Or.inl ⟨rfl, rfl, rfl, rfl⟩⟩
  | true =>
    rw [BeginJump_of_found env route i idx c _ hscan]
    split
    · exact ⟨_, _, _, _, _, _, _, _, _, _, _, _, _, _, rfl, Or.inl ⟨rfl, rfl, rfl, rfl⟩⟩
    · exact ⟨_, _, _, _, _, _, _, _, _, _, _, _, _, _, rfl, Or.inr ⟨rfl, rfl⟩⟩

theorem RouteWrite_refl (c : Game_Character) : RouteWrite c c :=
  ⟨_, _, _, _, _, _, _, rfl⟩

theorem Stable.moves {env : Game_Map} {P : Game_Character → Prop} (hP : Stable env P)
    (c : Game_Character) (h : P c) :
    P (MoveRandom env c) ∧ P (MoveTowardsPlayer env c) ∧ P (MoveAwayFromPlayer env c)
      ∧ P (MoveForward env c) := by
  refine ⟨hP.move _ _ (hP.rand c h), ?_, ?_, hP.move _ _ h⟩
  · unfold MoveTowardsPlayer
    refine ite_prop P _ _ _ (ite_prop P _ _ _ (ite_prop P _ _ _ ?_ ?_)
      (ite_prop P _ _ _ ?_ ?_)) h
    all_goals first
      | exact hP.move _ _ h
      | exact hP.move _ _ (hP.move _ _ h)
  · unfold MoveAwayFromPlayer
    refine ite_prop P _ _ _ (ite_prop P _ _ _ (ite_prop P _ _ _ ?_ ?_)
      (ite_prop P _ _ _ ?_ ?_)) h
    all_goals first
      | exact hP.move _ _ h
      | exact hP.move _ _ (hP.move _ _ h)

theorem Stable.command {env : Game_Map} {P : Game_Character → Prop} (hP : Stable env P)
    (route : MoveRoute) (m : MoveCommand) (i : Int) (c : Game_Character)
    (hstop : IsStopping c = true) (h : P c) :
    P (MoveTypeCustom_command env route m i c).2 := by
  unfold MoveTypeCustom_command
  split
  · exact hP.jump c _ hstop h (BeginJump_write env route i c)
  · show P (MoveTypeCustom_simple env m c)
    obtain ⟨h1, h2, h3, _⟩ := hP.moves c h
    rcases MoveTypeCustom_simple_cases env m c with ⟨d, e⟩ | e | e | e | hw
    · rw [e]; exact hP.move _ _ h
    · rw [e]; exact h1
    · rw [e]; exact h2
    · rw [e]; exact h3
    · exact hP.write c _ hstop h hw

theorem Stable.loop {env : Game_Map} {P : Game_Character → Prop} (hP : Stable env P)
    (route : MoveRoute) :
    ∀ (fuel : Nat) (i : Int) (c : Game_Character), P c →
      P (MoveTypeCustom_loop env route fuel i c).2 := by
  intro fuel
  induction fuel with
  | zero => intro i c h; exact h
  | succ n ih =>
    intro i c h
    rw [MoveTypeCustom_loop]
    split
    · exact h
    · split
      · exact h
      · next hgo =>
        have hstop : IsStopping c = true := by
          by_contra hc
          apply hgo
          left
          simpa using hc
        split
        · exact h
        · next m _ =>
          have hc := hP.command route m i c hstop h
          simp only []
          split
          · exact hc
          · exact ih _ _ hc

theorem Stable.body {env : Game_Map} {P : Game_Character → Prop} (hP : Stable env P)
    (route : MoveRoute) (i : Int) (c : Game_Character) (h : P c) :
    P (MoveTypeCustom_body env route i c).2 := by
  have h1 : P { c with move_failed := false } :=
    hP.route c _ h ⟨_, _, _, _, _, _, _, rfl⟩
  unfold MoveTypeCustom_body
  simp only []
  split
  · split
    · exact hP.route c _ h ⟨_, _, _, _, _, _, _, rfl⟩
    · split
      · next hov =>
        have h2 := hP.cancel _ h1 hov
        exact hP.route _ _ h2 ⟨_, _, _, _, _, _, _, rfl⟩
      · exact h1
  · exact hP.loop route _ _ _ h1

theorem Stable.custom {env : Game_Map} {P : Game_Character → Prop} (hP : Stable env P)
    (c : Game_Character) (h : P c) : P (MoveTypeCustom env c) := by
  unfold MoveTypeCustom
  simp only []
  have hr : P (if IsStopping c = true then
      MoveTypeCustom_body env (active_route c) (active_route_index c) c
      else (active_route_index c, c)).2 := by
    split
    · exact hP.body _ _ c h
    · exact h
  refine ite_prop P _ _ _ (ite_prop P _ _ _ ?_ ?_) (ite_prop P _ _ _ ?_ ?_)
  all_goals exact hP.route _ _ hr ⟨_, _, _, _, _, _, _, rfl⟩

theorem UpdateStop_write (c : Game_Character) : TickWrite c (UpdateStop c) := by
  unfold UpdateStop
  simp only []
  split <;> exact ⟨_, _, _, _, _, rfl⟩

theorem Update_pattern_write (c : Game_Character) : TickWrite c (Update_pattern c) := by
  unfold Update_pattern
  simp only []
  split_ifs <;> exact ⟨_, _, _, _, _, rfl⟩

theorem Stable.policies {env : Game_Map} {P : Game_Character → Prop} (hP : Stable env P)
    (c : Game_Character) (h : P c) : P (UpdateSelfMovement env c) := by
  have hr := hP.rand c h
  obtain ⟨m1, m2, m3, m4⟩ := hP.moves c h
  obtain ⟨r1, r2, r3, r4⟩ := hP.moves _ hr
  unfold UpdateSelfMovement
  refine ite_prop P _ _ _ ?_ (ite_prop P _ _ _ ?_ (ite_prop P _ _ _ ?_ (ite_prop P _ _ _ ?_
    (ite_prop P _ _ _ ?_ (ite_prop P _ _ _ (hP.custom c h) h)))))
  · unfold MoveTypeRandom
    refine ite_prop P _ _ _ (ite_prop P _ _ _ ?_ (ite_prop P _ _ _ r1 r4)) h
    exact hP.route _ _ hr ⟨_, _, _, _, _, _, _, rfl⟩
  · unfold MoveTypeCycleUpDown
    refine ite_prop P _ _ _ (ite_prop P _ _ _ ?_ (hP.move _ _ h)) h
    exact hP.route _ _ (hP.move _ _ h) ⟨_, _, _, _, _, _, _, rfl⟩
  · unfold MoveTypeCycleLeftRight
    refine ite_prop P _ _ _ (ite_prop P _ _ _ ?_ (hP.move _ _ h)) h
    exact hP.route _ _ (hP.move _ _ h) ⟨_, _, _, _, _, _, _, rfl⟩
  · unfold MoveTypeTowardsPlayer
    exact ite_prop P _ _ _ (ite_prop P _ _ _ m1 (ite_prop P _ _ _ r1 (ite_prop P _ _ _ r4 r2))) h
  · unfold MoveTypeAwayFromPlayer
    exact ite_prop P _ _ _ (ite_prop P _ _ _ m1 (ite_prop P _ _ _ r1 (ite_prop P _ _ _ r4 r3))) h

theorem Stable.dispatch {env : Game_Map} {P : Game_Character → Prop} (hP : Stable env P)
    (c : Game_Character) (h : P c) : P (Update_dispatch env c) := by
  unfold Update_dispatch
  refine ite_prop P _ _ _ ?_ (ite_prop P _ _ _ (ite_prop P _ _ _ (hP.custom c h)
    (ite_prop P _ _ _ (hP.policies c h) h)) h)
  exact hP.route _ _ h ⟨_, _, _, _, _, _, _, rfl⟩

theorem Stable.phase {env : Game_Map} {P : Game_Character → Prop} (hP : Stable env P)
    (c c1 : Game_Character) (h : P c) (h1 : Update_phase c = some c1) : P c1 := by
  unfold Update_phase at h1
  by_cases hj : IsJumping c = true
  · rw [if_pos hj] at h1
    rcases hu : UpdateJump c with _ | cj
    · rw [hu] at h1; exact absurd h1 (by simp)
    · rw [hu] at h1
      simp only [Option.map_some', Option.some.injEq] at h1
      rw [← h1]
      exact hP.tick _ _ (hP.fly c cj h hj hu) ⟨_, _, _, _, _, rfl⟩
  · rw [if_neg hj] at h1
    have hj2 : c.jumping = false := by simpa [IsJumping] using hj
    have hw := hP.walk c h hj2
    split_ifs at h1 <;> simp only [Option.some.injEq] at h1 <;> rw [← h1]
    · exact hP.tick _ _ hw (UpdateStop_write _)
    · exact hw
    · exact hP.tick _ _ h (UpdateStop_write _)

theorem Stable.update {env : Game_Map} {P : Game_Character → Prop} (hP : Stable env P)
    (c c2 : Game_Character) (h : P c) (h2 : Update env c = some c2) : P c2 := by
  unfold Update at h2
  rcases hp : Update_phase c with _ | c1
  · rw [hp] at h2; exact absurd h2 (by simp)
  · rw [hp] at h2
    simp only [Option.some_bind] at h2
    have h1 := hP.phase c c1 h hp
    rcases hs : GetSteppingSpeed c1 with _ | v
    · rw [hs] at h2; exact absurd h2 (by simp)
    · rw [hs] at h2
      simp only [Option.map_some', Option.some.injEq] at h2
      rw [← h2]
      apply hP.dispatch
      exact ite_prop P _ _ _ (hP.tick _ _ h1 (Update_pattern_write _)) h1

/-! ## Forced routes and the pending-move registry -/

theorem Move_forced_fields (env : Game_Map) (c : Game_Character) (d : Int) :
    forced_fields (Move env c d) = forced_fields c := by
  unfold Move Move_facing BeginMove
  simp only []
  split_ifs <;> rfl

theorem UpdateMove_forced_fields (c : Game_Character) :
    forced_fields (UpdateMove c) = forced_fields c := by
  unfold UpdateMove
  simp only []
  split_ifs <;> rfl

theorem UpdateJump_forced_fields (c c2 : Game_Character) (h : UpdateJump c = some c2) :
    forced_fields c2 = forced_fields c := by
  unfold UpdateJump at h
  rcases ha : UpdateJump_amount c.move_speed with _ | k
  · rw [ha] at h; exact absurd h (by simp)
  · rw [ha] at h
    simp only [Option.map_some', Option.some.injEq] at h
    rw [← h]
    split_ifs <;> rfl

/-- A property that depends on the fields behind a forced route only and survives
the end of a forced route is kept by every step. -/
theorem Stable_of_forced (env : Game_Map) (P : Game_Character → Prop)
    (hdep : ∀ c c2, forced_fields c2 = forced_fields c → P c → P c2)
    (hcancel : ∀ c, P c → c.move_route_overwritten = true →
      P (RemovePendingMove (CancelMoveRoute c))) : Stable env P where
  move := fun c d h => hdep c _ (Move_forced_fields env c d) h
  rand := fun c h => hdep c _ rfl h
  write := fun c c2 _ h hw => by
    obtain ⟨_, _, _, _, _, _, _, _, _, _, _, _, _, _, _, _, _, _, _, rfl, _⟩ := hw
    exact hdep c _ rfl h
  jump := fun c c2 _ h hw => by
    obtain ⟨_, _, _, _, _, _, _, _, _, _, _, _, _, _, rfl, _⟩ := hw
    exact hdep c _ rfl h
  route := fun c c2 h hw => by
    obtain ⟨_, _, _, _, _, _, _, rfl⟩ := hw
    exact hdep c _ rfl h
  cancel := hcancel
  walk := fun c h _ => hdep c _ (UpdateMove_forced_fields c) h
  fly := fun c c2 h _ hu => hdep c _ (UpdateJump_forced_fields c c2 hu) h
  tick := fun c c2 h hw => by
    obtain ⟨_, _, _, _, _, rfl⟩ := hw
    exact hdep c _ rfl h

/-- A property kept by every step is kept by a tick, a `Move` and an interpreter
call. -/
theorem Stable.op {P : Game_Character → Prop} (hP : ∀ env, Stable env P) (op : Op)
    (hf : op.isForce = false) (hc : op.isCancel = false) (c c2 : Game_Character) (h : P c)
    (h2 : op.apply c = some c2) : P c2 := by
  cases op with
  | update env => exact (hP env).update c c2 h h2
  | move env dir =>
    simp only [Op.apply, Option.some.injEq] at h2
    rw [← h2]; exact (hP env).move c dir h
  | custom env =>
    simp only [Op.apply, Option.some.injEq] at h2
    rw [← h2]; exact (hP env).custom c h
  | force r f => exact absurd hf (by simp [Op.isForce])
  | cancel => exact absurd hc (by simp [Op.isCancel])

/-- A property kept by every operation of a sequence holds after the sequence. -/
theorem run_preserves (P : Game_Character → Prop) (ok : Op → Prop)
    (hop : ∀ op c c2, ok op → P c → op.apply c = some c2 → P c2) :
    ∀ (ops : List Op) (c c2 : Game_Character), (∀ op ∈ ops, ok op) → P c →
      run ops c = some c2 → P c2 := by
  intro ops
  induction ops with
  | nil =>
    intro c c2 _ h h2
    simp only [run, Option.some.injEq] at h2
    rw [← h2]; exact h
  | cons op ops ih =>
    intro c c2 hok h h2
    simp only [run] at h2
    rcases h1 : op.apply c with _ | c1
    · rw [h1] at h2; exact absurd h2 (by simp)
    · rw [h1] at h2
      simp only [Option.some_bind] at h2
      exact ih c1 c2 (fun o ho => hok o (List.mem_cons_of_mem _ ho))
        (hop op c c1 (hok op (List.mem_cons_self _ _)) h h1) h2

theorem mem_filter_self (c : Game_Character) :
    c.self_id ∉ (RemovePendingMove (CancelMoveRoute c)).pending_moves := by
  simp [RemovePendingMove, CancelMoveRoute, List.mem_filter]

/-- C2, as amended. In every state reached from a character that is neither
overwritten nor registered by ticks, `Move` calls, interpreter calls,
`ForceMoveRoute` and `CancelMoveRoute`, `move_route_overwritten` implies that the
character is in the pending-move registry; when no `CancelMoveRoute` is called
directly (a forced route may still end inside `MoveTypeCustom`, which takes the
character out of the registry itself) the two are equivalent. -/
theorem overwritten_registered (ops : List Op) (c c2 : Game_Character)
    (h0 : c.move_route_overwritten = false) (h1 : c.self_id ∉ c.pending_moves)
    (hrun : run ops c = some c2) :
    (c2.move_route_overwritten = true → c2.self_id ∈ c2.pending_moves)
      ∧ ((∀ op ∈ ops, op.isCancel = false) →
          (c2.move_route_overwritten = true ↔ c2.self_id ∈ c2.pending_moves)) := by
  have dep : ∀ (c c2 : Game_Character), forced_fields c2 = forced_fields c →
      c2.self_id = c.self_id ∧ c2.pending_moves = c.pending_moves
        ∧ c2.move_route_overwritten = c.move_route_overwritten := by
    intro c c2 h
    simp only [forced_fields, Prod.mk.injEq] at h
    exact ⟨h.1, h.2.1, h.2.2.1⟩
  have force_mem : ∀ (c : Game_Character) r f,
      (ForceMoveRoute c r f).self_id ∈ (ForceMoveRoute c r f).pending_moves := by
    intro c r f
    simp [ForceMoveRoute, AddPendingMove, RemovePendingMove]
  constructor
  · have hS : ∀ env, Stable env
        (fun c => c.move_route_overwritten = true → c.self_id ∈ c.pending_moves) := by
      intro env
      apply Stable_of_forced
      · intro c c2 h hc
        obtain ⟨e1, e2, e3⟩ := dep c c2 h
        rw [e1, e2, e3]; exact hc
      · intro c _ _ h
        exact absurd h (by simp [RemovePendingMove, CancelMoveRoute])
    refine run_preserves
      (fun c => c.move_route_overwritten = true → c.self_id ∈ c.pending_moves)
      (fun _ => True) ?_ ops c c2 (fun _ _ => trivial)
      (fun h => by rw [h0] at h; exact absurd h (by decide)) hrun
    intro op c c2 _ h h2
    cases op with
    | force r f =>
      simp only [Op.apply, Option.some.injEq] at h2
      rw [← h2]; exact fun _ => force_mem c r f
    | cancel =>
      simp only [Op.apply, Option.some.injEq] at h2
      rw [← h2]; exact fun h => absurd h (by simp [CancelMoveRoute])
    | update env => exact Stable.op hS (.update env) rfl rfl c c2 h h2
    | move env dir => exact Stable.op hS (.move env dir) rfl rfl c c2 h h2
    | custom env => exact Stable.op hS (.custom env) rfl rfl c c2 h h2
  · intro hops
    have hS : ∀ env, Stable env
        (fun c => c.move_route_overwritten = true ↔ c.self_id ∈ c.pending_moves) := by
      intro env
      apply Stable_of_forced
      · intro c c2 h hc
        obtain ⟨e1, e2, e3⟩ := dep c c2 h
        rw [e1, e2, e3]; exact hc
      · intro c _ _
        constructor
        · intro h; exact absurd h (by simp [RemovePendingMove, CancelMoveRoute])
        · intro h; exact absurd h (mem_filter_self c)
    refine run_preserves
      (fun c => c.move_route_overwritten = true ↔ c.self_id ∈ c.pending_moves)
      (fun op => op.isCancel = false) ?_ ops c c2 hops
      ⟨fun h => by rw [h0] at h; exact absurd h (by decide), fun h => absurd h h1⟩ hrun
    intro op c c2 hok h h2
    cases op with
    | force r f =>
      simp only [Op.apply, Option.some.injEq] at h2
      rw [← h2]
      exact ⟨fun _ => force_mem c r f, fun _ => rfl⟩
    | cancel => exact absurd hok (by simp [Op.isCancel])
    | update env => exact Stable.op hS (.update env) rfl rfl c c2 h h2
    | move env dir => exact Stable.op hS (.move env dir) rfl rfl c c2 h h2
    | custom env => exact Stable.op hS (.custom env) rfl rfl c c2 h h2

theorem overwritten_registered_witness :
    ((MoveTypeCustom env_open event_33_forced).move_route_overwritten = true →
        (MoveTypeCustom env_open event_33_forced).self_id
          ∈ (MoveTypeCustom env_open event_33_forced).pending_moves)
      ∧ ((∀ op ∈ [Op.force ⟨[], false, false⟩ 6, Op.custom env_open], op.isCancel = false) →
          ((MoveTypeCustom env_open event_33_forced).move_route_overwritten = true ↔
            (MoveTypeCustom env_open event_33_forced).self_id
              ∈ (MoveTypeCustom env_open event_33_forced).pending_moves)) :=
  overwritten_registered [Op.force ⟨[], false, false⟩ 6, Op.custom env_open] event_33
    (MoveTypeCustom env_open event_33_forced) rfl (by decide) rfl

/-- C2, counterexample. After `ForceMoveRoute` and a direct `CancelMoveRoute` the
event is not overwritten but still in the pending-move registry. -/
theorem overwritten_registered_counterexample :
    event_33.move_route_overwritten = false ∧ event_33.self_id ∉ event_33.pending_moves
      ∧ run [Op.force ⟨[], false, false⟩ 6, Op.cancel] event_33
          = some (CancelMoveRoute event_33_forced)
      ∧ (CancelMoveRoute event_33_forced).move_route_overwritten = false
      ∧ (CancelMoveRoute event_33_forced).self_id
          ∈ (CancelMoveRoute event_33_forced).pending_moves
      ∧ ¬ ((CancelMoveRoute event_33_forced).move_route_overwritten = true ↔
            (CancelMoveRoute event_33_forced).self_id
              ∈ (CancelMoveRoute event_33_forced).pending_moves) :=
  ⟨rfl, by decide, rfl, rfl, by decide, by decide⟩

/-- C11. `ForceMoveRoute(r, f)` sets the frequency to `f`, the route index to 0,
`move_route_overwritten`, clears `move_route_repeated` and sets `wait_count` and
`max_stop_count` to 0; after any ticks, `Move` calls, interpreter calls and
`CancelMoveRoute` calls that follow it without another `ForceMoveRoute`, a
`CancelMoveRoute` leaves the move frequency the character had before the
`ForceMoveRoute` and `move_route_overwritten` false. -/
theorem force_then_cancel (c : Game_Character) (r : MoveRoute) (f : Int) (ops : List Op)
    (c2 : Game_Character) (hops : ∀ op ∈ ops, op.isForce = false)
    (hrun : run ops (ForceMoveRoute c r f) = some c2) :
    (CancelMoveRoute c2).move_frequency = c.move_frequency
      ∧ (CancelMoveRoute c2).move_route_overwritten = false
      ∧ (CancelMoveRoute (ForceMoveRoute c r f)).move_frequency = c.move_frequency
      ∧ (ForceMoveRoute c r f).move_frequency = f
      ∧ (ForceMoveRoute c r f).move_route_index = 0
      ∧ (ForceMoveRoute c r f).move_route_overwritten = true
      ∧ (ForceMoveRoute c r f).move_route_repeated = false
      ∧ (ForceMoveRoute c r f).wait_count = 0
      ∧ (ForceMoveRoute c r f).max_stop_count = 0 := by
  have hS : ∀ env, Stable env (fun x => x.original_move_frequency = c.move_frequency) := by
    intro env
    apply Stable_of_forced
    · intro a b h ha
      simp only [forced_fields, Prod.mk.injEq] at h
      rw [h.2.2.2]; exact ha
    · intro a ha _; exact ha
  have key : c2.original_move_frequency = c.move_frequency := by
    refine run_preserves (fun x => x.original_move_frequency = c.move_frequency)
      (fun op => op.isForce = false) ?_ ops _ c2 hops rfl hrun
    intro op a b hok h h2
    cases op with
    | force r f => exact absurd hok (by simp [Op.isForce])
    | cancel =>
      simp only [Op.apply, Option.some.injEq] at h2
      rw [← h2]; exact h
    | update env => exact Stable.op hS (.update env) rfl rfl a b h h2
    | move env dir => exact Stable.op hS (.move env dir) rfl rfl a b h h2
    | custom env => exact Stable.op hS (.custom env) rfl rfl a b h h2
  exact ⟨key, rfl, rfl, rfl, rfl, rfl, rfl, rfl, rfl⟩

theorem force_then_cancel_witness :
    (CancelMoveRoute (MoveTypeCustom env_open event_33_forced)).move_frequency = 3
      ∧ (CancelMoveRoute (ForceMoveRoute event_33 jump_route 6)).move_frequency = 3
      ∧ (ForceMoveRoute event_33 jump_route 6).move_frequency = 6 :=
  ⟨(force_then_cancel event_33 ⟨[], false, false⟩ 6 [Op.custom env_open]
      (MoveTypeCustom env_open event_33_forced) (by decide) rfl).1,
   (force_then_cancel event_33 jump_route 6 [] _ (by decide) rfl).1,
   (force_then_cancel event_33 jump_route 6 [] _ (by decide) rfl).2.2.2.1⟩

/-! ## The step counter -/

theorem StepInv_of_fields {c c2 : Game_Character} (h : StepInv c)
    (hs : c2.move_speed = c.move_speed) (hj : c2.jumping = c.jumping)
    (hr : c2.remaining_step = c.remaining_step) : StepInv c2 := by
  unfold StepInv at h ⊢
  rw [hs, hj, hr]; exact h

theorem walk_unit_values (s : Int) (h1 : 1 ≤ s) (h6 : s ≤ 6) :
    walk_unit s = 4 ∨ walk_unit s = 8 ∨ walk_unit s = 16 ∨ walk_unit s = 32
      ∨ walk_unit s = 64 ∨ walk_unit s = 128 := by
  interval_cases s <;> decide

theorem jump_unit_values (s : Int) (h1 : 1 ≤ s) (h6 : s ≤ 6) :
    jump_unit s = 8 ∨ jump_unit s = 12 ∨ jump_unit s = 16 ∨ jump_unit s = 20
      ∨ jump_unit s = 32 ∨ jump_unit s = 64 := by
  interval_cases s <;> decide

theorem StepInv_start {c c2 : Game_Character} (h : StepInv c)
    (hs : c2.move_speed = c.move_speed) (hr : c2.remaining_step = 256) : StepInv c2 := by
  unfold StepInv at h ⊢
  obtain ⟨h1, h6, _⟩ := h
  rw [hs, hr]
  refine ⟨h1, h6, by omega, by omega, fun _ _ => ?_, fun _ => ⟨by omega, rfl⟩⟩
  rcases walk_unit_values c.move_speed h1 h6 with e | e | e | e | e | e <;> rw [e] <;> decide

theorem StepInv_stopped {c2 : Game_Character} (h1 : 1 ≤ c2.move_speed)
    (h6 : c2.move_speed ≤ 6) (hj : c2.jumping = false) (hlo : -8 ≤ c2.remaining_step)
    (hhi : c2.remaining_step ≤ 0) : StepInv c2 := by
  unfold StepInv
  refine ⟨h1, h6, hlo, by omega, fun _ hpos => by omega, fun h => ?_⟩
  rw [hj] at h; exact absurd h (by decide)

theorem IsStopping_iff (c : Game_Character) :
    IsStopping c = true ↔ c.jumping = false ∧ c.remaining_step ≤ 0 := by
  unfold IsStopping IsMoving IsJumping
  cases c.jumping <;> simp

theorem Move_step_fields (env : Game_Map) (c : Game_Character) (d : Int) :
    (Move env c d).move_speed = c.move_speed ∧ (Move env c d).jumping = c.jumping
      ∧ ((Move env c d).remaining_step = c.remaining_step
          ∨ (Move env c d).remaining_step = 256) := by
  unfold Move Move_facing BeginMove
  simp only []
  split_ifs <;> simp

theorem StepInv_Move (env : Game_Map) (c : Game_Character) (d : Int) (h : StepInv c) :
    StepInv (Move env c d) := by
  obtain ⟨hs, hj, hr | hr⟩ := Move_step_fields env c d
  · exact StepInv_of_fields h hs hj hr
  · exact StepInv_start h hs hr

theorem StepInv_UpdateMove (c : Game_Character) (h : StepInv c) (hj : c.jumping = false) :
    StepInv (UpdateMove c) := by
  have hs := UpdateMove_move_speed c
  have hjj := UpdateMove_jumping c
  obtain ⟨h1, h6, hlo, hhi, hw, _⟩ := h
  have hr := UpdateMove_remaining_step c (by omega)
  have hu : (2 : Int) ^ (1 + c.move_speed).toNat = walk_unit c.move_speed := rfl
  rw [hu] at hr
  unfold StepInv
  rw [hs, hjj, hr]
  have hw2 := hw hj
  refine ⟨h1, h6, ?_, ?_, ?_, ?_⟩
  · rcases walk_unit_values c.move_speed h1 h6 with e | e | e | e | e | e <;>
      rw [e] at hw2 ⊢ <;> split_ifs <;> omega
  · rcases walk_unit_values c.move_speed h1 h6 with e | e | e | e | e | e <;>
      rw [e] at hw2 ⊢ <;> split_ifs <;> omega
  · intro _
    rcases walk_unit_values c.move_speed h1 h6 with e | e | e | e | e | e <;>
      rw [e] at hw2 ⊢ <;> split_ifs <;> omega
  · intro h; rw [hj] at h; exact absurd h (by decide)

theorem jump_step_bounds (s r : Int) (h1 : 1 ≤ s) (h6 : s ≤ 6) (hpos : 0 < r)
    (hhi : r ≤ 256) (hmod : r % jump_unit s = 256 % jump_unit s) :
    -8 ≤ jump_step s r ∧ jump_step s r ≤ 256
      ∧ (0 < jump_step s r → jump_step s r % jump_unit s = 256 % jump_unit s) := by
  unfold jump_step jump_unit at *
  interval_cases s <;> simp at * <;> omega

theorem StepInv_UpdateJump (c c2 : Game_Character) (h : StepInv c) (hj : c.jumping = true)
    (hu : UpdateJump c = some c2) : StepInv c2 := by
  obtain ⟨h1, h6, hlo, hhi, _, hjmp⟩ := h
  obtain ⟨hpos, hmod⟩ := hjmp hj
  obtain ⟨b1, b2, b3⟩ := jump_step_bounds c.move_speed c.remaining_step h1 h6 hpos hhi hmod
  rw [UpdateJump_eq c h1 h6] at hu
  simp only [Option.some.injEq] at hu
  rw [← hu]
  split_ifs with hle
  · exact StepInv_stopped h1 h6 rfl b1 hle
  · have hp : 0 < jump_step c.move_speed c.remaining_step := by omega
    exact ⟨h1, h6, b1, b2, fun h => absurd (hj.symm.trans h) (by decide),
      fun _ => ⟨hp, b3 hp⟩⟩

theorem StepInv_stable (env : Game_Map) : Stable env StepInv where
  move := fun c d h => StepInv_Move env c d h
  rand := fun c h => StepInv_of_fields h rfl rfl rfl
  write := fun c c2 hstop h hw => by
    obtain ⟨_, _, _, _, _, _, _, _, s, _, _, _, _, _, _, _, _, _, _, rfl, hs⟩ := hw
    obtain ⟨hj, hr⟩ := (IsStopping_iff c).1 hstop
    obtain ⟨h1, h6, hlo, _⟩ := h
    apply StepInv_stopped
    · show 1 ≤ s
      rcases hs with e | e | e <;> omega
    · show s ≤ 6
      rcases hs with e | e | e <;> omega
    · exact hj
    · exact hlo
    · exact hr
  jump := fun c c2 hstop h hw => by
    obtain ⟨_, _, _, _, _, _, _, j, _, _, _, r, _, _, rfl, hc⟩ := hw
    obtain ⟨hj, hr⟩ := (IsStopping_iff c).1 hstop
    rcases hc with ⟨e1, e2, _, _⟩ | ⟨_, e2⟩
    · exact StepInv_of_fields h rfl (by show j = c.jumping; rw [e1, hj])
        (by show r = c.remaining_step; exact e2)
    · exact StepInv_start h rfl e2
  route := fun c c2 h hw => by
    obtain ⟨_, _, _, _, _, _, _, rfl⟩ := hw
    exact StepInv_of_fields h rfl rfl rfl
  cancel := fun c h _ => StepInv_of_fields h rfl rfl rfl
  walk := fun c h hj => StepInv_UpdateMove c h hj
  fly := fun c c2 h hj hu => StepInv_UpdateJump c c2 h hj hu
  tick := fun c c2 h hw => by
    obtain ⟨_, _, _, _, _, rfl⟩ := hw
    exact StepInv_of_fields h rfl rfl rfl

theorem Update_phase_some (c : Game_Character) (h : StepInv c) :
    ∃ c1, Update_phase c = some c1 := by
  unfold Update_phase
  split_ifs
  · rw [UpdateJump_eq c h.1 h.2.1]; exact ⟨_, rfl⟩
  · exact ⟨_, rfl⟩
  · exact ⟨_, rfl⟩
  · exact ⟨_, rfl⟩

theorem Update_some (env : Game_Map) (c : Game_Character) (h : StepInv c) :
    ∃ c2, Update env c = some c2 ∧ StepInv c2 := by
  obtain ⟨c1, h1⟩ := Update_phase_some c h
  have hinv := (StepInv_stable env).phase c c1 h h1
  obtain ⟨v, hv⟩ := GetSteppingSpeed_some c1 hinv.1 hinv.2.1
  have e : Update env c = some (Update_dispatch env
      (if c1.anime_count ≥ v then Update_pattern c1 else c1)) := by
    unfold Update
    rw [h1, Option.some_bind, hv, Option.map_some']
  exact ⟨_, e, (StepInv_stable env).update c _ h e⟩

theorem run_StepInv : ∀ (ops : List Op) (c : Game_Character), StepInv c →
    ∃ c2, run ops c = some c2 ∧ StepInv c2 := by
  intro ops
  induction ops with
  | nil => intro c h; exact ⟨c, rfl, h⟩
  | cons op ops ih =>
    intro c h
    have hop : ∃ c1, op.apply c = some c1 ∧ StepInv c1 := by
      cases op with
      | update env => exact Update_some env c h
      | move env dir => exact ⟨_, rfl, (StepInv_stable env).move c dir h⟩
      | custom env => exact ⟨_, rfl, (StepInv_stable env).custom c h⟩
      | force r f => exact ⟨_, rfl, StepInv_of_fields h rfl rfl rfl⟩
      | cancel => exact ⟨_, rfl, StepInv_of_fields h rfl rfl rfl⟩
    obtain ⟨c1, e1, h1⟩ := hop
    obtain ⟨c2, e2, h2⟩ := ih c1 h1
    exact ⟨c2, by simp only [run, e1, Option.some_bind, e2], h2⟩

/-- C1, as amended. From a stopped character (`remaining_step = 0`, not jumping)
with move speed in 1..6, every sequence of ticks, `Move` calls, interpreter calls,
`ForceMoveRoute` and `CancelMoveRoute` runs to a state with
`-8 <= remaining_step <= 256`, and `remaining_step` is positive whenever the
character is moving or jumping: it is below 0 only once a jump has ended. -/
theorem remaining_step_bounds (ops : List Op) (c : Game_Character)
    (h1 : 1 ≤ c.move_speed) (h6 : c.move_speed ≤ 6) (hr : c.remaining_step = 0)
    (hj : c.jumping = false) :
    ∃ c2, run ops c = some c2 ∧ -8 ≤ c2.remaining_step ∧ c2.remaining_step ≤ 256
      ∧ (IsStopping c2 = false → 0 < c2.remaining_step) := by
  have h0 : StepInv c := StepInv_stopped h1 h6 hj (by omega) (by omega)
  obtain ⟨c2, e, h2⟩ := run_StepInv ops c h0
  refine ⟨c2, e, h2.2.2.1, h2.2.2.2.1, fun hs => ?_⟩
  cases hjj : c2.jumping
  · simp only [IsStopping, IsMoving, IsJumping, hjj] at hs
    simpa using hs
  · exact (h2.2.2.2.2.2 hjj).1

theorem remaining_step_bounds_witness :
    ∃ c2, run [Op.update env_open, Op.update env_open] event_55 = some c2
      ∧ -8 ≤ c2.remaining_step ∧ c2.remaining_step ≤ 256
      ∧ (IsStopping c2 = false → 0 < c2.remaining_step) :=
  remaining_step_bounds [Op.update env_open, Op.update env_open] event_55 (by decide)
    (by decide) rfl rfl

/-- C1, counterexample. The event at (5, 5) with move speed 2 runs the route
`begin_jump; move_right; move_right; end_jump`: the first tick starts the jump with
`remaining_step = 256` and each of the next 22 ticks subtracts 12, which leaves
`remaining_step = -8` after 23 ticks. -/
theorem remaining_step_counterexample :
    1 ≤ event_55.move_speed ∧ event_55.move_speed ≤ 6 ∧ event_55.remaining_step = 0
      ∧ event_55.jumping = false
      ∧ (run (List.replicate 23 (Op.update env_open)) event_55).map
          (fun c => c.remaining_step) = some (-8)
      ∧ ¬ ((0 : Int) ≤ -8) := by
  refine ⟨by decide, by decide, rfl, rfl, ?_, by decide⟩
  decide!

/-! ## The walk cycle -/

theorem UpdateJump_not_moving (c c1 : Game_Character) (hj : c.jumping = true)
    (h : UpdateJump c = some c1) : IsMoving c1 = false := by
  unfold UpdateJump at h
  rcases ha : UpdateJump_amount c.move_speed with _ | k
  · rw [ha] at h; exact absurd h (by simp)
  · rw [ha] at h
    simp only [Option.map_some', Option.some.injEq] at h
    rw [← h]
    split_ifs with hle
    · simp only [IsMoving, IsJumping, Bool.not_false, Bool.true_and, decide_eq_false_iff_not]
      exact not_lt.2 hle
    · simp [IsMoving, IsJumping, hj]

theorem dispatch_walk_fields (env : Game_Map) (c : Game_Character)
    (hs : IsStopping c = false) : walk_fields (Update_dispatch env c) = walk_fields c := by
  have hc : walk_fields (MoveTypeCustom env c) = walk_fields c := by
    unfold MoveTypeCustom
    simp only [hs, Bool.false_eq_true, if_false, ne_eq, not_true_eq_false]
    split_ifs <;> rfl
  have hp : walk_fields (UpdateSelfMovement env c) = walk_fields c := by
    unfold UpdateSelfMovement MoveTypeRandom MoveTypeCycleUpDown MoveTypeCycleLeftRight
      MoveTypeTowardsPlayer MoveTypeAwayFromPlayer
    simp only [hs, Bool.false_eq_true, if_false]
    split_ifs <;> first | rfl | exact hc
  unfold Update_dispatch
  split_ifs <;> first | rfl | exact hc | exact hp

/-- One tick of a character that is moving when the pattern check runs, with
animation type `non_continuous`, walk animation on and move speed 4. -/
theorem walk_tick_update (env : Game_Map) (c c1 : Game_Character)
    (ha : c.animation_type = AnimType_non_continuous) (hw : c.walk_animation = true)
    (hs : c.move_speed = 4) (hp : Update_phase c = some c1) (hm : IsMoving c1 = true) :
    ∃ c2, Update env c = some c2 ∧
      walk_fields c2 =
        ((walk_tick (c.pattern, c.last_pattern, c.anime_count)).1,
         (walk_tick (c.pattern, c.last_pattern, c.anime_count)).2.1,
         (walk_tick (c.pattern, c.last_pattern, c.anime_count)).2.2,
         AnimType_non_continuous, true, 4, c.original_pattern) := by
  have hcont : IsContinuous c = false := by simp [IsContinuous, ha]
  have hspin : IsSpinning c = false := by simp [IsSpinning, ha]
  have hj : c.jumping = false := by
    cases hjj : c.jumping
    · rfl
    · exfalso
      unfold Update_phase at hp
      simp only [IsJumping, hjj, if_true] at hp
      rcases hu : UpdateJump c with _ | cj
      · rw [hu] at hp; exact absurd hp (by simp)
      · rw [hu] at hp
        simp only [Option.map_some', Option.some.injEq] at hp
        have := UpdateJump_not_moving c cj hjj hu
        rw [← hp] at hm
        simp only [IsMoving, IsJumping] at this hm
        rw [this] at hm
        exact absurd hm (by decide)
  have hmv : IsMoving c = true := by
    by_contra hn
    unfold Update_phase at hp
    simp only [IsJumping, hj, hcont, hspin, hn, Bool.false_eq_true, if_false, or_self,
      Option.some.injEq] at hp
    rw [← hp] at hm
    apply hn
    have e : IsMoving (UpdateStop c) = IsMoving c := by
      unfold UpdateStop; simp only []; split_ifs <;> rfl
    rw [← e]; exact hm
  have hc1 : c1 = UpdateMove c := by
    unfold Update_phase at hp
    simp only [IsJumping, hj, hcont, hspin, hmv, Bool.false_eq_true, if_false, or_self,
      if_true, Option.some.injEq] at hp
    exact hp.symm
  subst hc1
  have hr : c.remaining_step > 0 := by
    simpa [IsMoving, IsJumping, hj] using hmv
  have hform : UpdateMove c = { c with
      remaining_step := truncQ ((c.remaining_step : ℚ) - pow2 (1 + c.move_speed)),
      anime_count := c.anime_count + 1 } := by
    unfold UpdateMove
    simp [hr, ha, hw]
  have hss : GetSteppingSpeed (UpdateMove c) = some 6 := by
    have h4 : (UpdateMove c).move_speed = 4 := by rw [UpdateMove_move_speed, hs]
    have hsp2 : IsSpinning (UpdateMove c) = false := by rw [hform]; exact hspin
    rw [GetSteppingSpeed_of_speed (UpdateMove c) 4 h4 (by decide) (by decide), hsp2, hm]
    rfl
  have hstop : IsStopping (UpdateMove c) = false := by
    simp [IsStopping, hm]
  have hstop2 : IsStopping (Update_pattern (UpdateMove c)) = false := by
    have : IsStopping (Update_pattern (UpdateMove c)) = IsStopping (UpdateMove c) := by
      obtain ⟨_, _, _, _, _, e⟩ := Update_pattern_write (UpdateMove c)
      rw [e]; rfl
    rw [this, hstop]
  refine ⟨_, by unfold Update; rw [hp, Option.some_bind, hss, Option.map_some'], ?_⟩
  by_cases hge : (UpdateMove c).anime_count ≥ 6
  · rw [if_pos hge, dispatch_walk_fields env _ hstop2]
    have hge2 : c.anime_count + 1 ≥ 6 := by rw [hform] at hge; exact hge
    have hcont2 : IsContinuous (UpdateMove c) = false := by rw [hform]; exact hcont
    have hsp2 : IsSpinning (UpdateMove c) = false := by rw [hform]; exact hspin
    unfold Update_pattern
    simp only [hsp2, hcont2, hstop, Bool.false_eq_true, if_false, Bool.not_false, and_false,
      walk_tick, hge2, if_true]
    rw [hform]
    simp only [walk_fields, ha, hw, hs]
    split_ifs <;> rfl
  · rw [if_neg hge, dispatch_walk_fields env _ hstop]
    have hge2 : ¬ c.anime_count + 1 ≥ 6 := by rw [hform] at hge; exact hge
    simp only [walk_tick, hge2, if_false]
    rw [hform]
    simp only [walk_fields, ha, hw, hs]

/-! ## The movement policies -/

theorem Move_failed_eq (env : Game_Map) (c : Game_Character) (dir : Int)
    (hj : c.jumping = false) :
    (Move env c dir).move_failed = !IsPassable env (Move_facing c dir) c.x c.y dir := by
  cases h : IsPassable env (Move_facing c dir) c.x c.y dir with
  | false =>
    rw [Move_blocked_eq env c dir hj h]
    split <;> rfl
  | true =>
    rw [Move_passable_eq env c dir hj h]
    rfl

theorem Move_cycle_fields (env : Game_Map) (c : Game_Character) (dir : Int) :
    (Move env c dir).wait_count = c.wait_count ∧ (Move env c dir).cycle_stat = c.cycle_stat := by
  unfold Move
  simp only [Move_facing, BeginMove]
  split_ifs <;> exact ⟨rfl, rfl⟩

/-- C21. With `(sx, sy)` the hero distance `DistanceXfromPlayer`,
`DistanceYfromPlayer` of a non-jumping character: when it is not `(0, 0)`,
`MoveTowardsPlayer` makes a first `Move` in the horizontal direction (left if
`sx > 0`, else right) when `|sx| > |sy|` and in the vertical one (up if `sy > 0`,
else down) otherwise, and a second `Move` on the other axis exactly when the
first one failed (its target was not passable) and the distance on that axis is
non-zero; `MoveAwayFromPlayer` does the same with each direction replaced by
`(d + 2) mod 4`; when it is `(0, 0)` both leave the character as it is. -/
theorem MoveTowardsPlayer_axes (env : Game_Map) (c : Game_Character)
    (hj : c.jumping = false) :
    (¬ (DistanceXfromPlayer env c = 0 ∧ DistanceYfromPlayer env c = 0) →
        MoveTowardsPlayer env c
            = two_attempts env c
                (toward_first (DistanceXfromPlayer env c) (DistanceYfromPlayer env c))
                (toward_second (DistanceXfromPlayer env c) (DistanceYfromPlayer env c))
                (other_distance (DistanceXfromPlayer env c) (DistanceYfromPlayer env c))
          ∧ MoveAwayFromPlayer env c
            = two_attempts env c
                (opposite (toward_first (DistanceXfromPlayer env c) (DistanceYfromPlayer env c)))
                (opposite (toward_second (DistanceXfromPlayer env c) (DistanceYfromPlayer env c)))
                (other_distance (DistanceXfromPlayer env c) (DistanceYfromPlayer env c)))
      ∧ (DistanceXfromPlayer env c = 0 ∧ DistanceYfromPlayer env c = 0 →
          MoveTowardsPlayer env c = c ∧ MoveAwayFromPlayer env c = c)
      ∧ (∀ d, (Move env c d).move_failed = !IsPassable env (Move_facing c d) c.x c.y d) := by
  have o0 : opposite Up = Down := by decide
  have o1 : opposite Right = Left := by decide
  have o2 : opposite Down = Up := by decide
  have o3 : opposite Left = Right := by decide
  refine ⟨?_, ?_, fun d => Move_failed_eq env c d hj⟩
  · intro hne
    have hne2 : DistanceXfromPlayer env c ≠ 0 ∨ DistanceYfromPlayer env c ≠ 0 := by
      by_contra hc
      push_neg at hc
      exact hne hc
    unfold MoveTowardsPlayer MoveAwayFromPlayer two_attempts toward_first toward_second
      other_distance
    simp only [if_pos hne2]
    by_cases hax : cabs (DistanceXfromPlayer env c) > cabs (DistanceYfromPlayer env c)
    · simp only [if_pos hax]
      by_cases hx : DistanceXfromPlayer env c > 0 <;> by_cases hy : DistanceYfromPlayer env c > 0
        <;> simp only [hx, hy, if_true, if_false, o0, o1, o2, o3, and_self]
    · simp only [if_neg hax]
      by_cases hx : DistanceXfromPlayer env c > 0 <;> by_cases hy : DistanceYfromPlayer env c > 0
        <;> simp only [hx, hy, if_true, if_false, o0, o1, o2, o3, and_self]
  · intro h0
    have hn : ¬ (DistanceXfromPlayer env c ≠ 0 ∨ DistanceYfromPlayer env c ≠ 0) := by
      rw [h0.1, h0.2]; simp
    unfold MoveTowardsPlayer MoveAwayFromPlayer
    simp only [if_neg hn, and_self]

/-- C22. For a stopping character, `MoveTypeCycleLeftRight` is the cycle policy
with right and left and `MoveTypeCycleUpDown` is the same policy with down and up:
a `Move` in the direction `cycle_stat` selects; when it failed, `wait_count` is 20
more than before, `stop_count` is 0 and `cycle_stat` is flipped; when it succeeded,
`cycle_stat` and `wait_count` are unchanged. -/
theorem cycle_policies (env : Game_Map) (c : Game_Character) (hs : IsStopping c = true) :
    MoveTypeCycleLeftRight env c = cycle_policy env c Right Left
      ∧ MoveTypeCycleUpDown env c = cycle_policy env c Down Up
      ∧ (∀ forth back,
          ((Move env c (if c.cycle_stat then back else forth)).move_failed = true →
            cycle_policy env c forth back
              = { Move env c (if c.cycle_stat then back else forth) with
                    wait_count := c.wait_count + 20, stop_count := 0,
                    cycle_stat := !c.cycle_stat })
          ∧ ((Move env c (if c.cycle_stat then back else forth)).move_failed = false →
            cycle_policy env c forth back = Move env c (if c.cycle_stat then back else forth)
              ∧ (cycle_policy env c forth back).cycle_stat = c.cycle_stat
              ∧ (cycle_policy env c forth back).wait_count = c.wait_count)) := by
  refine ⟨?_, ?_, ?_⟩
  · unfold MoveTypeCycleLeftRight cycle_policy Wait
    simp only [hs, if_true]
    by_cases hf : (Move env c (if c.cycle_stat = true then Left else Right)).move_failed = true
    · simp only [hf, if_true]
    · simp only [hf]
      rfl
  · unfold MoveTypeCycleUpDown cycle_policy Wait
    simp only [hs, if_true]
  · intro forth back
    obtain ⟨hw, hc⟩ := Move_cycle_fields env c (if c.cycle_stat then back else forth)
    constructor
    · intro hf
      unfold cycle_policy
      simp only [hs, if_true, hf, hw, hc]
    · intro hf
      have e : cycle_policy env c forth back
          = Move env c (if c.cycle_stat then back else forth) := by
        unfold cycle_policy
        simp only [hs, if_true, hf]
        rfl
      rw [e]
      exact ⟨rfl, hc, hw⟩

theorem MoveTowardsPlayer_axes_witness :
    (MoveTowardsPlayer env_open event_33).x = 3 ∧ (MoveTowardsPlayer env_open event_33).y = 2
      ∧ (MoveAwayFromPlayer env_open event_33).y = 4
      ∧ (MoveTowardsPlayer env_no_up event_33).x = 2
      ∧ (MoveTowardsPlayer env_no_up event_33).y = 3 := by
  have h := (MoveTowardsPlayer_axes env_open event_33 rfl).1 (by decide)
  have k := (MoveTowardsPlayer_axes env_no_up event_33 rfl).1 (by decide)
  rw [h.1, h.2, k.1]
  decide

theorem cycle_policies_witness :
    (MoveTypeCycleLeftRight env_blocked event_33).wait_count = 20
      ∧ (MoveTypeCycleLeftRight env_blocked event_33).cycle_stat = true
      ∧ (MoveTypeCycleUpDown env_blocked event_33).wait_count = 20
      ∧ (MoveTypeCycleUpDown env_blocked event_33).cycle_stat = true
      ∧ (MoveTypeCycleLeftRight env_open event_33).x = 4
      ∧ (MoveTypeCycleUpDown env_open event_33).y = 4 := by
  have h := cycle_policies env_blocked event_33 (by decide)
  have k := cycle_policies env_open event_33 (by decide)
  rw [h.1, h.2.1, k.1, k.2.1, (h.2.2 Right Left).1 (by decide), (h.2.2 Down Up).1 (by decide),
    ((k.2.2 Right Left).2 (by decide)).1, ((k.2.2 Down Up).2 (by decide)).1]
  decide

/-! ## The wait timer -/

theorem TickWrite_idle {c c2 : Game_Character} (h : TickWrite c c2) :
    idle_fields c2 = idle_fields c ∧ c2.wait_count = c.wait_count
      ∧ c2.move_speed = c.move_speed := by
  obtain ⟨_, _, _, _, _, rfl⟩ := h
  exact ⟨rfl, rfl, rfl⟩

theorem UpdateMove_idle (c : Game_Character) :
    idle_fields (UpdateMove c) = idle_fields c ∧ (UpdateMove c).wait_count = c.wait_count
      ∧ (UpdateMove c).move_speed = c.move_speed := by
  unfold UpdateMove
  simp only []
  split_ifs <;> exact ⟨rfl, rfl, rfl⟩

theorem UpdateJump_idle (c c2 : Game_Character) (h : UpdateJump c = some c2) :
    idle_fields c2 = idle_fields c ∧ c2.wait_count = c.wait_count
      ∧ c2.move_speed = c.move_speed := by
  unfold UpdateJump at h
  rcases ha : UpdateJump_amount c.move_speed with _ | k
  · rw [ha] at h; exact absurd h (by simp)
  · rw [ha] at h
    simp only [Option.map_some', Option.some.injEq] at h
    rw [← h]
    split_ifs <;> exact ⟨rfl, rfl, rfl⟩

theorem Update_phase_idle (c c1 : Game_Character) (h1 : Update_phase c = some c1) :
    idle_fields c1 = idle_fields c ∧ c1.wait_count = c.wait_count
      ∧ c1.move_speed = c.move_speed := by
  unfold Update_phase at h1
  by_cases hj : IsJumping c = true
  · rw [if_pos hj] at h1
    rcases hu : UpdateJump c with _ | cj
    · rw [hu] at h1; exact absurd h1 (by simp)
    · rw [hu] at h1
      simp only [Option.map_some', Option.some.injEq] at h1
      rw [← h1]
      exact UpdateJump_idle c cj hu
  · rw [if_neg hj] at h1
    obtain ⟨m1, m2, m3⟩ := UpdateMove_idle c
    split_ifs at h1 <;> simp only [Option.some.injEq] at h1 <;> rw [← h1]
    · obtain ⟨s1, s2, s3⟩ := TickWrite_idle (UpdateStop_write (UpdateMove c))
      exact ⟨s1.trans m1, s2.trans m2, s3.trans m3⟩
    · exact ⟨m1, m2, m3⟩
    · exact TickWrite_idle (UpdateStop_write c)

theorem Update_phase_of_speed (c : Game_Character) (h1 : 1 ≤ c.move_speed)
    (h6 : c.move_speed ≤ 6) : ∃ c1, Update_phase c = some c1 := by
  unfold Update_phase
  split_ifs
  · rw [UpdateJump_eq c h1 h6]; exact ⟨_, rfl⟩
  · exact ⟨_, rfl⟩
  · exact ⟨_, rfl⟩
  · exact ⟨_, rfl⟩

theorem Update_dispatch_waiting (env : Game_Map) (c : Game_Character) (hw : c.wait_count > 0) :
    Update_dispatch env c = { c with wait_count := c.wait_count - 1 } := by
  unfold Update_dispatch
  rw [if_pos hw]

/-- A tick of a character with `wait_count > 0`: the first part of `Update`, the
pattern step when it is due, and the decrement of `wait_count`. -/
theorem Update_waiting (env : Game_Map) (c c2 : Game_Character) (hw : c.wait_count > 0)
    (h2 : Update env c = some c2) :
    ∃ c1 v, Update_phase c = some c1 ∧ GetSteppingSpeed c1 = some v
      ∧ c2 = { (if c1.anime_count ≥ v then Update_pattern c1 else c1) with
                wait_count := c.wait_count - 1 } := by
  unfold Update at h2
  rcases hp : Update_phase c with _ | c1
  · rw [hp] at h2; exact absurd h2 (by simp)
  · rw [hp] at h2
    simp only [Option.some_bind] at h2
    obtain ⟨_, e2, _⟩ := Update_phase_idle c c1 hp
    rcases hs : GetSteppingSpeed c1 with _ | v
    · rw [hs] at h2; exact absurd h2 (by simp)
    · rw [hs] at h2
      simp only [Option.map_some', Option.some.injEq] at h2
      refine ⟨c1, v, rfl, hs, ?_⟩
      rw [← h2]
      by_cases ha : c1.anime_count ≥ v
      · simp only [if_pos ha]
        have e3 := (TickWrite_idle (Update_pattern_write c1)).2.1
        rw [Update_dispatch_waiting env _ (by rw [e3, e2]; exact hw), e3, e2]
      · simp only [if_neg ha]
        rw [Update_dispatch_waiting env _ (by rw [e2]; exact hw), e2]

/-- C23. One tick of a character with `wait_count > 0` takes 1 from `wait_count`
and leaves the position, the direction, `move_failed`, both route indices, the
overwrite flag and the move frequency as they were, with or without a forced
route; its result does not depend on the map, the hero or `rand()`, so no idle
dispatch is made; for a move speed in 1..6 the tick returns; and the command
`wait` of the interpreter adds 20 to `wait_count` and changes nothing else. -/
theorem wait_tick (env : Game_Map) (c : Game_Character) (hw : c.wait_count > 0) :
    (∀ c2, Update env c = some c2 →
        c2.wait_count = c.wait_count - 1 ∧ idle_fields c2 = idle_fields c)
      ∧ (∀ env2, Update env2 c = Update env c)
      ∧ (1 ≤ c.move_speed → c.move_speed ≤ 6 → ∃ c2, Update env c = some c2)
      ∧ (∀ route m i (a : Game_Character), m.command_id = Code.wait →
          MoveTypeCustom_command env route m i a
            = (i, { a with wait_count := a.wait_count + 20 })) := by
  refine ⟨?_, ?_, ?_, ?_⟩
  · intro c2 h2
    obtain ⟨c1, v, hp, _, rfl⟩ := Update_waiting env c c2 hw h2
    obtain ⟨e1, _, _⟩ := Update_phase_idle c c1 hp
    refine ⟨rfl, ?_⟩
    rw [← e1]
    by_cases ha : c1.anime_count ≥ v
    · simp only [if_pos ha]
      exact (TickWrite_idle (Update_pattern_write c1)).1
    · simp only [if_neg ha]
      rfl
  · intro env2
    have key : ∀ e : Game_Map, Update e c = (Update_phase c).bind (fun c1 =>
        (GetSteppingSpeed c1).map (fun v =>
          { (if c1.anime_count ≥ v then Update_pattern c1 else c1) with
              wait_count := c.wait_count - 1 })) := by
      intro e
      rcases hu : Update e c with _ | c2
      · unfold Update at hu
        rcases hp : Update_phase c with _ | c1
        · rfl
        · rw [hp] at hu
          simp only [Option.some_bind] at hu ⊢
          rcases hs : GetSteppingSpeed c1 with _ | v
          · rfl
          · rw [hs] at hu; exact absurd hu (by simp)
      · obtain ⟨c1, v, hp, hs, rfl⟩ := Update_waiting e c c2 hw hu
        rw [hp, Option.some_bind, hs, Option.map_some']
    rw [key env2, key env]
  · intro h1 h6
    obtain ⟨c1, hp⟩ := Update_phase_of_speed c h1 h6
    obtain ⟨_, _, e3⟩ := Update_phase_idle c c1 hp
    obtain ⟨v, hv⟩ := GetSteppingSpeed_some c1 (by rw [e3]; exact h1) (by rw [e3]; exact h6)
    exact ⟨_, by unfold Update; rw [hp, Option.some_bind, hv, Option.map_some']⟩
  · intro route m i a hm
    have hne : ¬ (m.command_id = Code.begin_jump) := by rw [hm]; decide
    unfold MoveTypeCustom_command
    rw [if_neg hne]
    unfold MoveTypeCustom_simple MoveTypeCustom_facing MoveTypeCustom_tuning Wait
    simp [hm]

theorem wait_tick_witness :
    (∃ c2, Update env_open event_33_waiting = some c2 ∧ c2.wait_count = 2
        ∧ idle_fields c2 = idle_fields event_33_waiting)
      ∧ (∃ c2, Update env_open (Wait (ForceMoveRoute event_33 jump_route 6)) = some c2
        ∧ c2.wait_count = 19 ∧ c2.move_route_index = 0 ∧ c2.move_route_overwritten = true) := by
  have h := wait_tick env_open event_33_waiting (by decide)
  have k := wait_tick env_open (Wait (ForceMoveRoute event_33 jump_route 6)) (by decide)
  obtain ⟨c2, e⟩ := h.2.2.1 (by decide) (by decide)
  obtain ⟨d2, f⟩ := k.2.2.1 (by decide) (by decide)
  refine ⟨⟨c2, e, ?_, (h.1 c2 e).2⟩, ⟨d2, f, ?_, ?_, ?_⟩⟩
  · rw [(h.1 c2 e).1]; decide
  · rw [(k.1 d2 f).1]; decide
  · have := (k.1 d2 f).2
    simp only [idle_fields, Prod.mk.injEq] at this
    rw [this.2.2.2.2.1]; rfl
  · have := (k.1 d2 f).2
    simp only [idle_fields, Prod.mk.injEq] at this
    rw [this.2.2.2.2.2.2.1]; rfl

/-! ## The index write-back -/

theorem Move_route_fields (env : Game_Map) (c : Game_Character) (d : Int) :
    route_fields (Move env c d) = route_fields c := by
  unfold Move Move_facing BeginMove
  simp only []
  split_ifs <;> rfl

/-- A property kept by `Move` is kept by the movement commands built on it. -/
theorem moves_keep (env : Game_Map) (P : Game_Character → Prop)
    (hm : ∀ x d, P x → P (Move env x d)) (c : Game_Character) (h : P c) :
    P (MoveTowardsPlayer env c) ∧ P (MoveAwayFromPlayer env c) := by
  constructor
  · unfold MoveTowardsPlayer
    refine ite_prop P _ _ _ (ite_prop P _ _ _ (ite_prop P _ _ _ ?_ ?_)
      (ite_prop P _ _ _ ?_ ?_)) h
    all_goals first
      | exact hm _ _ h
      | exact hm _ _ (hm _ _ h)
  · unfold MoveAwayFromPlayer
    refine ite_prop P _ _ _ (ite_prop P _ _ _ (ite_prop P _ _ _ ?_ ?_)
      (ite_prop P _ _ _ ?_ ?_)) h
    all_goals first
      | exact hm _ _ h
      | exact hm _ _ (hm _ _ h)

theorem moves_route_fields (env : Game_Map) (c : Game_Character) :
    route_fields (MoveRandom env c) = route_fields c
      ∧ route_fields (MoveTowardsPlayer env c) = route_fields c
      ∧ route_fields (MoveAwayFromPlayer env c) = route_fields c :=
  ⟨Move_route_fields env (rand_advance c) _,
   moves_keep env (fun x => route_fields x = route_fields c)
     (fun x d hx => (Move_route_fields env x d).trans hx) c rfl⟩

theorem MoveTypeCustom_command_route_fields (env : Game_Map) (route : MoveRoute)
    (m : MoveCommand) (i : Int) (c : Game_Character) :
    route_fields (MoveTypeCustom_command env route m i c).2 = route_fields c := by
  unfold MoveTypeCustom_command
  split
  · obtain ⟨_, _, _, _, _, _, _, _, _, _, _, _, _, _, e, _⟩ := BeginJump_write env route i c
    rw [e]; rfl
  · show route_fields (MoveTypeCustom_simple env m c) = route_fields c
    obtain ⟨h1, h2, h3⟩ := moves_route_fields env c
    rcases MoveTypeCustom_simple_cases env m c with ⟨d, e⟩ | e | e | e | hw
    · rw [e]; exact Move_route_fields env c d
    · rw [e]; exact h1
    · rw [e]; exact h2
    · rw [e]; exact h3
    · obtain ⟨_, _, _, _, _, _, _, _, _, _, _, _, _, _, _, _, _, _, _, e, _⟩ := hw
      rw [e]; rfl

theorem MoveTypeCustom_loop_route_fields (env : Game_Map) (route : MoveRoute) :
    ∀ (fuel : Nat) (i : Int) (c : Game_Character),
      route_fields (MoveTypeCustom_loop env route fuel i c).2 = route_fields c := by
  intro fuel
  induction fuel with
  | zero => intro i c; rfl
  | succ n ih =>
    intro i c
    rw [MoveTypeCustom_loop]
    split
    · rfl
    · split
      · rfl
      · split
        · rfl
        · next m _ =>
          have hc := MoveTypeCustom_command_route_fields env route m i c
          simp only []
          split
          · exact hc
          · exact (ih _ _).trans hc

/-- The body of `MoveTypeCustom` leaves both stored indices alone, and the
overwrite flag is the one on entry or has been cleared. -/
theorem MoveTypeCustom_body_route_fields (env : Game_Map) (route : MoveRoute) (i : Int)
    (c : Game_Character) :
    (MoveTypeCustom_body env route i c).2.move_route_index = c.move_route_index
      ∧ (MoveTypeCustom_body env route i c).2.original_move_route_index
          = c.original_move_route_index
      ∧ ((MoveTypeCustom_body env route i c).2.move_route_overwritten = c.move_route_overwritten
          ∨ (MoveTypeCustom_body env route i c).2.move_route_overwritten = false) := by
  unfold MoveTypeCustom_body
  simp only []
  split
  · split
    · exact ⟨rfl, rfl, Or.inl rfl⟩
    · split
      · exact ⟨rfl, rfl, Or.inr rfl⟩
      · exact ⟨rfl, rfl, Or.inl rfl⟩
  · have h := MoveTypeCustom_loop_route_fields env route route.move_commands.length i
      { c with move_failed := false }
    simp only [route_fields, Prod.mk.injEq] at h
    exact ⟨h.1, h.2.1, Or.inl h.2.2⟩

theorem MoveTypeCustom_run_route_fields (env : Game_Map) (c : Game_Character) :
    (MoveTypeCustom_run env c).2.move_route_index = c.move_route_index
      ∧ (MoveTypeCustom_run env c).2.original_move_route_index = c.original_move_route_index
      ∧ ((MoveTypeCustom_run env c).2.move_route_overwritten = c.move_route_overwritten
          ∨ (MoveTypeCustom_run env c).2.move_route_overwritten = false) := by
  unfold MoveTypeCustom_run
  split
  · exact MoveTypeCustom_body_route_fields env _ _ c
  · exact ⟨rfl, rfl, Or.inl rfl⟩

theorem MoveTypeCustom_eq_run (env : Game_Map) (c : Game_Character) :
    MoveTypeCustom env c =
      if c.move_route_overwritten ≠ (MoveTypeCustom_run env c).2.move_route_overwritten then
        if (MoveTypeCustom_run env c).2.move_route_overwritten then
          { (MoveTypeCustom_run env c).2 with
              original_move_route_index := (MoveTypeCustom_run env c).1 }
        else { (MoveTypeCustom_run env c).2 with
                 move_route_index := (MoveTypeCustom_run env c).1 }
      else
        if (MoveTypeCustom_run env c).2.move_route_overwritten then
          { (MoveTypeCustom_run env c).2 with move_route_index := (MoveTypeCustom_run env c).1 }
        else { (MoveTypeCustom_run env c).2 with
                 original_move_route_index := (MoveTypeCustom_run env c).1 } := rfl

/-- C24. `MoveTypeCustom` stores the final interpreter index in the index of the
route that was active on entry and leaves the other index alone: entered under a
forced route it writes `move_route_index` and keeps `original_move_route_index`,
also when the call cancels the forced route; entered without one it writes
`original_move_route_index` and keeps `move_route_index`; entered by a character
that is not stopping it leaves both as they were. -/
theorem MoveTypeCustom_write_back (env : Game_Map) (c : Game_Character) :
    (c.move_route_overwritten = true →
        (MoveTypeCustom env c).original_move_route_index = c.original_move_route_index
          ∧ (MoveTypeCustom env c).move_route_index = (MoveTypeCustom_run env c).1)
      ∧ (c.move_route_overwritten = false →
        (MoveTypeCustom env c).move_route_index = c.move_route_index
          ∧ (MoveTypeCustom env c).original_move_route_index = (MoveTypeCustom_run env c).1)
      ∧ (IsStopping c = false →
        (MoveTypeCustom env c).move_route_index = c.move_route_index
          ∧ (MoveTypeCustom env c).original_move_route_index = c.original_move_route_index) := by
  obtain ⟨h1, h2, h3⟩ := MoveTypeCustom_run_route_fields env c
  rw [MoveTypeCustom_eq_run]
  refine ⟨?_, ?_, ?_⟩
  · intro hov
    rw [hov] at h3
    rcases h3 with h3 | h3 <;> simp [hov, h3, h2]
  · intro hov
    rw [hov] at h3
    have h3 : (MoveTypeCustom_run env c).2.move_route_overwritten = false := by
      rcases h3 with h3 | h3 <;> exact h3
    simp [hov, h3, h1]
  · intro hs
    have e : MoveTypeCustom_run env c = (active_route_index c, c) := by
      unfold MoveTypeCustom_run
      simp [hs]
    rw [e]
    cases hov : c.move_route_overwritten <;> simp [hov, active_route_index]

theorem MoveTypeCustom_write_back_witness :
    event_33_paused.move_route_overwritten = true
      ∧ (MoveTypeCustom env_open event_33_paused).move_route_overwritten = false
      ∧ (MoveTypeCustom env_open event_33_paused).original_move_route_index = 2
      ∧ (MoveTypeCustom env_open event_33_paused).move_route_index = 0
      ∧ (MoveTypeCustom env_open event_stepper).move_route_index = 0
      ∧ (MoveTypeCustom env_open event_stepper).original_move_route_index = 1 := by
  have h := (MoveTypeCustom_write_back env_open event_33_paused).1 rfl
  have k := (MoveTypeCustom_write_back env_open event_stepper).2.1 rfl
  refine ⟨rfl, by decide, ?_, ?_, ?_, ?_⟩
  · rw [h.1]; rfl
  · rw [h.2]; decide
  · rw [k.1]; rfl
  · rw [k.2]; decide

/-! ## Reads of the route -/

theorem BeginJump_eq_finish (env : Game_Map) (route : MoveRoute) (i : Int)
    (c : Game_Character) :
    BeginJump env route i c = BeginJump_finish env route i (BeginJump_scanned env route i c) :=
  rfl

theorem commands_from_out (route : MoveRoute) (i : Int)
    (h : index_in_route route i = false) : commands_from route i = [] := by
  simp only [index_in_route, decide_eq_false_iff_not, not_and, not_lt] at h
  unfold commands_from
  split
  · rfl
  · next hi =>
    apply List.drop_eq_nil_of_le
    have := h (by omega)
    omega

theorem commands_from_in (route : MoveRoute) (i : Int)
    (h : index_in_route route i = true) :
    ∃ m, read_command route i = some m
      ∧ route.move_commands[i.toNat]? = some m
      ∧ commands_from route i = m :: commands_from route (i + 1) := by
  simp only [index_in_route, decide_eq_true_eq] at h
  have hlt : i.toNat < route.move_commands.length := by omega
  refine ⟨route.move_commands[i.toNat], ?_, ?_, ?_⟩
  · unfold read_command
    rw [if_pos h]
    exact List.getElem?_eq_getElem hlt
  · exact List.getElem?_eq_getElem hlt
  · unfold commands_from
    rw [if_neg (by omega), if_neg (by omega)]
    have e : (i + 1).toNat = i.toNat + 1 := by omega
    rw [e]
    exact List.drop_eq_getElem_cons hlt

theorem BeginJump_scan_at_eq (env : Game_Map) (route : MoveRoute) :
    ∀ (fuel : Nat) (i : Int) (c : Game_Character), 1 ≤ fuel →
      (0 ≤ i → (route.move_commands.length : Int) - i < fuel) →
      BeginJump_scan_at env route fuel i c
        = some (BeginJump_scan env (commands_from route i) i c) := by
  intro fuel
  induction fuel with
  | zero => intro i c h; exact absurd h (by decide)
  | succ n ih =>
    intro i c _ hlen
    rw [BeginJump_scan_at]
    cases hin : index_in_route route i with
    | false =>
      rw [commands_from_out route i hin]
      rfl
    | true =>
      obtain ⟨m, hr, _, hc⟩ := commands_from_in route i hin
      simp only [index_in_route, decide_eq_true_eq] at hin
      rw [hr, hc]
      simp only [Bool.not_true, Bool.false_eq_true, if_false, BeginJump_scan]
      have hlen2 := hlen hin.1
      split
      · rfl
      · exact ih (i + 1) _ (by omega) (fun _ => by push_cast at hlen2 ⊢; omega)

theorem BeginJump_scan_index (env : Game_Map) :
    ∀ (cmds : List MoveCommand) (i : Int) (c : Game_Character),
      i ≤ (BeginJump_scan env cmds i c).2.1 := by
  intro cmds
  induction cmds with
  | nil => intro i c; exact le_refl _
  | cons m rest ih =>
    intro i c
    rw [BeginJump_scan]
    split
    · exact le_refl _
    · exact le_trans (by omega) (ih (i + 1) _)

theorem BeginJump_index (env : Game_Map) (route : MoveRoute) (i : Int) (c : Game_Character) :
    i ≤ (BeginJump env route i c).1 := by
  have hscan : i ≤ (BeginJump_scanned env route i c).2.1 := BeginJump_scan_index env _ i _
  unfold BeginJump
  simp only []
  split_ifs <;> first | exact le_refl _ | exact hscan

theorem MoveTypeCustom_command_index (env : Game_Map) (route : MoveRoute) (m : MoveCommand)
    (i : Int) (c : Game_Character) : i ≤ (MoveTypeCustom_command env route m i c).1 := by
  unfold MoveTypeCustom_command
  split
  · exact BeginJump_index env route i c
  · exact le_refl _

theorem MoveTypeCustom_command_at_eq (env : Game_Map) (route : MoveRoute) (bound : Nat)
    (hb : route.move_commands.length < bound) (m : MoveCommand) (i : Int)
    (c : Game_Character) :
    MoveTypeCustom_command_at env route bound m i c
      = some (MoveTypeCustom_command env route m i c) := by
  unfold MoveTypeCustom_command_at MoveTypeCustom_command
  split
  · unfold BeginJump_at
    rw [BeginJump_scan_at_eq env route bound i _ (by omega) (fun _ => by omega),
      Option.map_some', BeginJump_eq_finish]
    rfl
  · rfl

theorem MoveTypeCustom_loop_index (env : Game_Map) (route : MoveRoute) :
    ∀ (fuel : Nat) (i : Int) (c : Game_Character),
      i ≤ (MoveTypeCustom_loop env route fuel i c).1 := by
  intro fuel
  induction fuel with
  | zero => intro i c; exact le_refl _
  | succ n ih =>
    intro i c
    rw [MoveTypeCustom_loop]
    split
    · exact le_refl _
    · split
      · exact le_refl _
      · split
        · exact le_refl _
        · next m _ =>
          have hc := MoveTypeCustom_command_index env route m i c
          simp only []
          split
          · split <;> omega
          · exact le_trans (by omega) (ih _ _)

theorem MoveTypeCustom_loop_at_eq (env : Game_Map) (route : MoveRoute) (bound : Nat)
    (hb : route.move_commands.length < bound) :
    ∀ (fuel2 fuel : Nat) (i : Int) (c : Game_Character), 1 ≤ fuel2 →
      (0 ≤ i → (route.move_commands.length : Int) - i < fuel2) →
      (0 ≤ i → (route.move_commands.length : Int) - i ≤ fuel) →
      MoveTypeCustom_loop_at env route bound fuel2 i c
        = some (MoveTypeCustom_loop env route fuel i c) := by
  intro fuel2
  induction fuel2 with
  | zero => intro fuel i c h; exact absurd h (by decide)
  | succ n ih =>
    intro fuel i c _ h2 h1
    rw [MoveTypeCustom_loop_at]
    cases hin : index_in_route route i with
    | false =>
      cases fuel with
      | zero => rfl
      | succ f =>
        rw [MoveTypeCustom_loop, hin]
        rfl
    | true =>
      obtain ⟨m, hr, hg, _⟩ := commands_from_in route i hin
      have hin2 := hin
      simp only [index_in_route, decide_eq_true_eq] at hin2
      have h1 := h1 hin2.1
      have h2 := h2 hin2.1
      cases fuel with
      | zero => exfalso; push_cast at h1; omega
      | succ f =>
        rw [MoveTypeCustom_loop, hin, hr, hg]
        simp only [Bool.not_true, Bool.false_eq_true, if_false]
        split
        · rfl
        · rw [MoveTypeCustom_command_at_eq env route bound hb m i c, Option.some_bind]
          have hc := MoveTypeCustom_command_index env route m i c
          split
          · rfl
          · exact ih f _ _ (by omega) (fun _ => by push_cast at h2 ⊢; omega)
              (fun _ => by push_cast at h1 ⊢; omega)

/-- C25. For every route, index and character, the loop of `MoveTypeCustom` run
with every read of a command checked against the bounds of the route, in the loop
and in `BeginJump`, ends and reads no command outside the route, and it is the
loop of the embedding, whose result no more iterations change; an index outside
the route, negative or past the end, starts no iteration and is kept or, on a
repeating route, reset to 0; a command, `begin_jump` included, leaves the index
at least where it was, so the index grows by at least one on each iteration. -/
theorem MoveTypeCustom_reads_in_route (env : Game_Map) (route : MoveRoute) (i : Int)
    (c : Game_Character) (bound : Nat) (hb : route.move_commands.length < bound) :
    MoveTypeCustom_loop_at env route bound bound i c
        = some (MoveTypeCustom_loop env route route.move_commands.length i c)
      ∧ (∀ fuel, route.move_commands.length ≤ fuel →
          MoveTypeCustom_loop env route fuel i c
            = MoveTypeCustom_loop env route route.move_commands.length i c)
      ∧ BeginJump_at env route bound i c = some (BeginJump env route i c)
      ∧ (index_in_route route i = false →
          MoveTypeCustom_loop env route route.move_commands.length i c = (i, c)
            ∧ (MoveTypeCustom_body env route i c).1 = if route.repeat_ then 0 else i)
      ∧ (index_in_route route i = true → ∃ m, read_command route i = some m
          ∧ route.move_commands[i.toNat]? = some m)
      ∧ (∀ m, i < (MoveTypeCustom_command env route m i c).1 + 1)
      ∧ i ≤ (BeginJump env route i c).1
      ∧ i ≤ (MoveTypeCustom_loop env route route.move_commands.length i c).1 := by
  have key : ∀ fuel, route.move_commands.length ≤ fuel →
      MoveTypeCustom_loop_at env route bound bound i c
        = some (MoveTypeCustom_loop env route fuel i c) := by
    intro fuel hf
    exact MoveTypeCustom_loop_at_eq env route bound hb bound fuel i c (by omega)
      (fun _ => by omega) (fun _ => by omega)
  refine ⟨key _ (le_refl _), ?_, ?_, ?_, ?_, ?_, BeginJump_index env route i c,
    MoveTypeCustom_loop_index env route _ i c⟩
  · intro fuel hf
    have h1 := key fuel hf
    rw [key _ (le_refl _)] at h1
    exact (Option.some.inj h1).symm
  · unfold BeginJump_at
    rw [BeginJump_scan_at_eq env route bound i _ (by omega) (fun _ => by omega),
      Option.map_some', BeginJump_eq_finish]
    rfl
  · intro hout
    constructor
    · cases hl : route.move_commands.length with
      | zero => rfl
      | succ f => rw [MoveTypeCustom_loop, hout]; rfl
    · unfold MoveTypeCustom_body
      simp only [hout, Bool.not_false, if_true]
      split_ifs <;> rfl
  · intro hin
    obtain ⟨m, hr, hg, _⟩ := commands_from_in route i hin
    exact ⟨m, hr, hg⟩
  · intro m
    have := MoveTypeCustom_command_index env route m i c
    omega

theorem MoveTypeCustom_reads_in_route_witness :
    MoveTypeCustom_loop_at env_open jump_route 5 5 0 event_55
        = some (MoveTypeCustom_loop env_open jump_route 4 0 event_55)
      ∧ (MoveTypeCustom_loop env_open jump_route 4 0 event_55).1 = 4
      ∧ BeginJump_at env_open jump_route 5 0 event_55
        = some (BeginJump env_open jump_route 0 event_55)
      ∧ (BeginJump env_open jump_route 0 event_55).1 = 3
      ∧ MoveTypeCustom_loop_at env_open jump_route 5 5 (-3) event_55
        = some (MoveTypeCustom_loop env_open jump_route 4 (-3) event_55)
      ∧ MoveTypeCustom_loop env_open jump_route 4 (-3) event_55 = (-3, event_55)
      ∧ MoveTypeCustom_loop env_open jump_route 4 9 event_55 = (9, event_55) :=
  ⟨(MoveTypeCustom_reads_in_route env_open jump_route 0 event_55 5 (by decide)).1,
   by decide,
   (MoveTypeCustom_reads_in_route env_open jump_route 0 event_55 5 (by decide)).2.2.1,
   by decide,
   (MoveTypeCustom_reads_in_route env_open jump_route (-3) event_55 5 (by decide)).1,
   ((MoveTypeCustom_reads_in_route env_open jump_route (-3) event_55 5
      (by decide)).2.2.2.1 (by decide)).1,
   ((MoveTypeCustom_reads_in_route env_open jump_route 9 event_55 5
      (by decide)).2.2.2.1 (by decide)).1⟩

/-! ## The distance to the hero -/

/-- C26, at the failing input. On the looping map of 20 by 15 tiles with the
character at (0, 0) and the hero at (11, 8), `DistanceXfromPlayer` returns -31 and
`DistanceYfromPlayer` -23: the difference -11 (-8) is beyond half the map size and
the map size is subtracted from it although it is negative, so the result is
congruent to the difference but its absolute value exceeds half the map size;
with the two swapped the results are -9 and -7. -/
theorem DistancefromPlayer_wrap :
    env_loop.loop_horizontal = true ∧ env_loop.width = 20
      ∧ 0 ≤ event_00.x ∧ event_00.x < 20
      ∧ 0 ≤ player_GetX env_loop event_00 ∧ player_GetX env_loop event_00 < 20
      ∧ DistanceXfromPlayer env_loop event_00 = -31
      ∧ (-31 - (event_00.x - player_GetX env_loop event_00)) % 20 = 0
      ∧ ¬ (cabs (DistanceXfromPlayer env_loop event_00) ≤ Int.tdiv env_loop.width 2)
      ∧ env_loop.loop_vertical = true ∧ env_loop.height = 15
      ∧ DistanceYfromPlayer env_loop event_00 = -23
      ∧ ¬ (cabs (DistanceYfromPlayer env_loop event_00) ≤ Int.tdiv env_loop.height 2)
      ∧ DistanceXfromPlayer env_loop_origin event_118 = -9
      ∧ DistanceYfromPlayer env_loop_origin event_118 = -7 := by
  decide

/-! ## Forced routes in succession -/

/-- Ticks, `Move` calls, interpreter calls and `CancelMoveRoute` calls leave the
saved move frequency as it is. -/
theorem original_move_frequency_kept (ops : List Op) (a c2 : Game_Character)
    (hops : ∀ op ∈ ops, op.isForce = false) (hrun : run ops a = some c2) :
    c2.original_move_frequency = a.original_move_frequency := by
  have hS : ∀ env, Stable env
      (fun x => x.original_move_frequency = a.original_move_frequency) := by
    intro env
    apply Stable_of_forced
    · intro u v h hu
      simp only [forced_fields, Prod.mk.injEq] at h
      rw [h.2.2.2]; exact hu
    · intro u hu _; exact hu
  refine run_preserves (fun x => x.original_move_frequency = a.original_move_frequency)
    (fun op => op.isForce = false) ?_ ops a c2 hops rfl hrun
  intro op u v hok h h2
  cases op with
  | force r f => exact absurd hok (by simp [Op.isForce])
  | cancel =>
    simp only [Op.apply, Option.some.injEq] at h2
    rw [← h2]; exact h
  | update env => exact Stable.op hS (.update env) rfl rfl u v h h2
  | move env dir => exact Stable.op hS (.move env dir) rfl rfl u v h h2
  | custom env => exact Stable.op hS (.custom env) rfl rfl u v h h2

/-- C27. After `ForceMoveRoute(r1, f1)` and `ForceMoveRoute(r2, f2)`, followed by
any ticks, `Move` calls, interpreter calls and cancellations, a cancellation,
by `CancelMoveRoute` or by `MoveTypeCustom` at the end of a forced route that
does not repeat, leaves the move frequency `f1`, which is not the frequency before
the first `ForceMoveRoute` when the two differ; and `CancelMoveRoute` on a
character as the constructor leaves it sets the move frequency to -1, outside
1..8. -/
theorem forced_routes_do_not_nest (c : Game_Character) (r1 r2 : MoveRoute) (f1 f2 : Int)
    (ops : List Op) (c2 : Game_Character) (hops : ∀ op ∈ ops, op.isForce = false)
    (hrun : run ops (ForceMoveRoute (ForceMoveRoute c r1 f1) r2 f2) = some c2) :
    (CancelMoveRoute c2).move_frequency = f1
      ∧ (c.move_frequency ≠ f1 → (CancelMoveRoute c2).move_frequency ≠ c.move_frequency)
      ∧ (∀ env, IsStopping c2 = true → c2.move_route_overwritten = true →
          index_in_route c2.move_route c2.move_route_index = false →
          c2.move_route.repeat_ = false →
          (MoveTypeCustom env c2).move_frequency = f1
            ∧ (MoveTypeCustom env c2).move_route_overwritten = false)
      ∧ (∀ self_id is_player x y move_speed move_frequency route,
          (CancelMoveRoute (Game_Character.new self_id is_player x y move_speed move_frequency
            route)).move_frequency = -1
          ∧ ¬ (1 ≤ (CancelMoveRoute (Game_Character.new self_id is_player x y move_speed
                  move_frequency route)).move_frequency
               ∧ (CancelMoveRoute (Game_Character.new self_id is_player x y move_speed
                  move_frequency route)).move_frequency ≤ 8)) := by
  have key : c2.original_move_frequency = f1 :=
    original_move_frequency_kept ops _ c2 hops hrun
  have hcancel : (CancelMoveRoute c2).move_frequency = f1 := key
  refine ⟨hcancel, ?_, ?_, ?_⟩
  · intro hne h
    rw [hcancel] at h
    exact hne h.symm
  · intro env hstop hforced hnot hrep
    have e : MoveTypeCustom env c2 =
        { c2 with move_failed := false, move_route_overwritten := false,
                  move_frequency := c2.original_move_frequency,
                  pending_moves := c2.pending_moves.filter (fun i => i != c2.self_id),
                  stop_count := 0 } := by
      simp [MoveTypeCustom, MoveTypeCustom_body, active_route, active_route_index, hstop,
        hforced, hnot, hrep, RemovePendingMove, CancelMoveRoute]
    rw [e]
    exact ⟨key, rfl⟩
  · intro self_id is_player x y move_speed move_frequency route
    have e : (CancelMoveRoute (Game_Character.new self_id is_player x y move_speed
        move_frequency route)).move_frequency = -1 := rfl
    rw [e]
    exact ⟨rfl, by decide⟩

theorem forced_routes_do_not_nest_witness :
    event_33.move_frequency = 3
      ∧ (CancelMoveRoute event_33_twice).move_frequency = 6
      ∧ (MoveTypeCustom env_open event_33_twice).move_frequency = 6
      ∧ (MoveTypeCustom env_open event_33_twice).move_route_overwritten = false
      ∧ (CancelMoveRoute event_00).move_frequency = -1 :=
  ⟨rfl,
   (forced_routes_do_not_nest event_33 jump_route ⟨[], false, false⟩ 6 8 [] event_33_twice
      (by decide) rfl).1,
   ((forced_routes_do_not_nest event_33 jump_route ⟨[], false, false⟩ 6 8 [] event_33_twice
      (by decide) rfl).2.2.1 env_open (by decide) rfl (by decide) rfl).1,
   ((forced_routes_do_not_nest event_33 jump_route ⟨[], false, false⟩ 6 8 [] event_33_twice
      (by decide) rfl).2.2.1 env_open (by decide) rfl (by decide) rfl).2,
   rfl⟩

/-! ## The walk cycle on a run -/

theorem Update_eq_animate (env : Game_Map) (c : Game_Character) :
    Update env c = (Update_animate c).map (Update_dispatch env) := by
  unfold Update Update_animate
  rcases Update_phase c with _ | c1
  · rfl
  · simp only [Option.some_bind]
    rcases GetSteppingSpeed c1 with _ | v
    · rfl
    · rfl

theorem dispatch_step_fields (env : Game_Map) (c : Game_Character)
    (hs : IsStopping c = false) : step_fields (Update_dispatch env c) = step_fields c := by
  have hc : step_fields (MoveTypeCustom env c) = step_fields c := by
    unfold MoveTypeCustom
    simp only [hs, Bool.false_eq_true, if_false, ne_eq, not_true_eq_false]
    split_ifs <;> rfl
  have hp : step_fields (UpdateSelfMovement env c) = step_fields c := by
    unfold UpdateSelfMovement MoveTypeRandom MoveTypeCycleUpDown MoveTypeCycleLeftRight
      MoveTypeTowardsPlayer MoveTypeAwayFromPlayer
    simp only [hs, Bool.false_eq_true, if_false]
    split_ifs <;> first | rfl | exact hc
  unfold Update_dispatch
  split_ifs <;> first | rfl | exact hc | exact hp

/-- A tick on which the character is not stopping after the first part of
`Update` leaves the step counter and the jump flag as that part left them. -/
theorem Update_step_fields (env : Game_Map) (c c1 c2 : Game_Character)
    (hp : Update_phase c = some c1) (hs : IsStopping c1 = false)
    (hu : Update env c = some c2) : step_fields c2 = step_fields c1 := by
  unfold Update at hu
  rw [hp, Option.some_bind] at hu
  rcases hv : GetSteppingSpeed c1 with _ | v
  · rw [hv] at hu; exact absurd hu (by simp)
  · rw [hv] at hu
    simp only [Option.map_some', Option.some.injEq] at hu
    rw [← hu]
    have hpat : step_fields (Update_pattern c1) = step_fields c1
        ∧ IsStopping (Update_pattern c1) = false := by
      obtain ⟨_, _, _, _, _, e⟩ := Update_pattern_write c1
      rw [e]
      exact ⟨rfl, hs⟩
    by_cases hge : c1.anime_count ≥ v
    · rw [if_pos hge, dispatch_step_fields env _ hpat.2]
      exact hpat.1
    · rw [if_neg hge, dispatch_step_fields env _ hs]

/-- A character with animation type `non_continuous` that is moving when the
pattern check runs was moving, and not jumping, when the tick began. -/
theorem moving_check_phase (c c1 : Game_Character)
    (ha : c.animation_type = AnimType_non_continuous)
    (hp : Update_phase c = some c1) (hm : IsMoving c1 = true) :
    c.jumping = false ∧ 0 < c.remaining_step ∧ c1 = UpdateMove c := by
  have hcont : IsContinuous c = false := by simp [IsContinuous, ha]
  have hspin : IsSpinning c = false := by simp [IsSpinning, ha]
  have hj : c.jumping = false := by
    cases hjj : c.jumping
    · rfl
    · exfalso
      unfold Update_phase at hp
      simp only [IsJumping, hjj, if_true] at hp
      rcases hu : UpdateJump c with _ | cj
      · rw [hu] at hp; exact absurd hp (by simp)
      · rw [hu] at hp
        simp only [Option.map_some', Option.some.injEq] at hp
        have := UpdateJump_not_moving c cj hjj hu
        rw [← hp] at hm
        simp only [IsMoving, IsJumping] at this hm
        rw [this] at hm
        exact absurd hm (by decide)
  have hmv : IsMoving c = true := by
    by_contra hn
    unfold Update_phase at hp
    simp only [IsJumping, hj, hcont, hspin, hn, Bool.false_eq_true, if_false, or_self,
      Option.some.injEq] at hp
    rw [← hp] at hm
    apply hn
    have e : IsMoving (UpdateStop c) = IsMoving c := by
      unfold UpdateStop; simp only []; split_ifs <;> rfl
    rw [← e]; exact hm
  have hc1 : c1 = UpdateMove c := by
    unfold Update_phase at hp
    simp only [IsJumping, hj, hcont, hspin, hmv, Bool.false_eq_true, if_false, or_self,
      if_true, Option.some.injEq] at hp
    exact hp.symm
  have hr : c.remaining_step > 0 := by
    simpa [IsMoving, IsJumping, hj] using hmv
  exact ⟨hj, hr, hc1⟩

/-- No run of `Update` keeps a character with the animation fields of the walk
cycle and `remaining_step ≤ 256` moving at the pattern check for 8 ticks in a
row: at move speed 4 each tick takes 32 from `remaining_step`, and the idle
dispatch does not run for a character that is not stopping. -/
theorem moving_check_ends (t : Nat → Game_Character) (env : Nat → Game_Map)
    (h0 : walk_fields (t 0)
      = (Frame_middle, Frame_right, 0, AnimType_non_continuous, true, 4, Frame_middle))
    (hr : (t 0).remaining_step ≤ 256)
    (hrun : ∀ i, i < 8 → Update (env i) (t i) = some (t (i + 1))) :
    ¬ (∀ i, i < 8 → ∃ c1, Update_phase (t i) = some c1 ∧ IsMoving c1 = true) := by
  intro hmove
  have step : ∀ c : Game_Character, c.move_speed = 4 → 0 < c.remaining_step →
      (UpdateMove c).remaining_step = c.remaining_step - 32 := by
    intro c hs hpos
    rw [UpdateMove_remaining_step c (by rw [hs]; decide), if_pos hpos, hs]
    rfl
  have key : ∀ i, i ≤ 7 → (t i).animation_type = AnimType_non_continuous
      ∧ (t i).walk_animation = true ∧ (t i).move_speed = 4
      ∧ (t i).remaining_step ≤ 256 - 32 * (i : Int) := by
    intro i
    induction i with
    | zero =>
      intro _
      simp only [walk_fields, Prod.mk.injEq] at h0
      exact ⟨h0.2.2.2.1, h0.2.2.2.2.1, h0.2.2.2.2.2.1, by simpa using hr⟩
    | succ n ih =>
      intro hn
      obtain ⟨ha, hw, hs, hle⟩ := ih (by omega)
      obtain ⟨c1, hp, hm⟩ := hmove n (by omega)
      obtain ⟨_, hpos, hc1⟩ := moving_check_phase (t n) c1 ha hp hm
      obtain ⟨c2, hu, hwf⟩ := walk_tick_update (env n) (t n) c1 ha hw hs hp hm
      rw [hrun n (by omega)] at hu
      simp only [Option.some.injEq] at hu
      rw [← hu] at hwf
      simp only [walk_fields, Prod.mk.injEq] at hwf
      have hst : IsStopping c1 = false := by simp [IsStopping, hm]
      have hsf := Update_step_fields (env n) (t n) c1 (t (n + 1)) hp hst (hrun n (by omega))
      simp only [step_fields, Prod.mk.injEq] at hsf
      refine ⟨hwf.2.2.2.1, hwf.2.2.2.2.1, hwf.2.2.2.2.2.1, ?_⟩
      rw [hsf.1, hc1, step (t n) hs hpos]
      push_cast
      omega
  obtain ⟨ha, _, hs, hle⟩ := key 7 (le_refl _)
  obtain ⟨c1, hp, hm⟩ := hmove 7 (by decide)
  obtain ⟨hj, hpos, hc1⟩ := moving_check_phase (t 7) c1 ha hp hm
  have h1 : c1.remaining_step ≤ 0 := by
    rw [hc1, step (t 7) hs hpos]
    push_cast at hle
    omega
  have h2 : IsMoving c1 = false := by
    simp only [IsMoving, Bool.and_eq_false_imp, decide_eq_false_iff_not]
    intro _
    omega
  rw [h2] at hm
  exact absurd hm (by decide)

end Player
